import Mathlib

/-!
# The rewind buffer and the frame pipeline of libretrodroid

A shallow embedding of four translation units of `libretrodroid/src/main/cpp`,
followed by the properties proved about them:

* `rewindbuffer.cpp` (`RewindBuffer::RewindBuffer`, `push`, `pop`, `clear`),
  with drivers for sequences of calls of the kind `libretrodroidjni.cpp` makes;
* `backgroundframe.cpp` (`BackgroundFrame`), the overlay image;
* `video.cpp` (`Video`, `loadShader`, `createProgram`), the frame orchestrator,
  its shader chain and the capture of the raw frame;
* `libretrodroidjni.cpp`, of which the rewind entry points (`initRewindBuffer`,
  `captureRewindState`, `rewindFrame`, `clearRewindBuffer`,
  `destroyRewindBuffer`) are embedded.

Conventions of the embedding of the rewind buffer

* A `std::vector<uint8_t>` is a `List UInt8`; `slots` is a list of such lists.
* `size_t` values are natural numbers.  Every index the code computes is below
  `2 * capacity`, and `capacity` is the length of an existing `std::vector`,
  so the unsigned arithmetic of the source never wraps on a buffer whose slot
  vector has `capacity` elements.
* The three ways in which the C++ can leave defined behaviour are explicit:
  indexing `slots` past its end, taking a remainder by zero, and copying more
  bytes into the caller's output buffer than it can hold.  An operation that
  does one of these yields `Except.error`; an operation that returns yields
  `Except.ok`.
* The argument pair `(data, size)` of `push` is the list of the `size` bytes
  found at `data`.  The out-parameters `outData` and `outSize` of `pop` are
  threaded through: `pop` receives their contents before the call and returns
  their contents after it.

The conventions of the embedding of the frame pipeline are stated where its
definitions start.
-/

namespace libretrodroid

/-- Ways in which a call leaves defined behaviour. -/
inductive Fault where
  /-- The expression `slots[i]` was evaluated with `i >= slots.size()`. -/
  | slotIndexOutOfRange
  /-- The expression `x % capacity` was evaluated with `capacity == 0`. -/
  | remainderByZero
  /-- The call to `std::copy` wrote past the end of the output buffer. -/
  | outputOverflow
  deriving DecidableEq, Repr

/-- The data members of `class RewindBuffer`. -/
structure RewindBuffer where
  slots : List (List UInt8)
  capacity : Nat
  maxSize : Nat
  writeIndex : Nat
  validCount : Nat
  deriving DecidableEq, Repr

/-- What a call of `pop` leaves behind: the returned flag, the buffer, and the
contents of the two out-parameters. -/
structure PopResult where
  ok : Bool
  buf : RewindBuffer
  outData : List UInt8
  outSize : Nat
  deriving DecidableEq, Repr

namespace RewindBuffer

/-- Modelled from the spec: the default member initialiser of `writeIndex`,
which lives in `rewindbuffer.h`.  The write index of the state machine starts
where `clear` puts it back. -/
def initialWriteIndex : Nat := 0

/-- Modelled from the spec: the default member initialiser of `validCount`,
which lives in `rewindbuffer.h`.  A freshly constructed buffer holds no valid
slot. -/
def initialValidCount : Nat := 0

/-- The constructor `RewindBuffer::RewindBuffer(slotCount, maxStateSize)`:
`slots.resize(slotCount)` creates `slotCount` empty vectors, and `reserve`
changes no length. -/
def construct (slotCount maxStateSize : Nat) : RewindBuffer :=
  { slots := List.replicate slotCount []
    capacity := slotCount
    maxSize := maxStateSize
    writeIndex := initialWriteIndex
    validCount := initialValidCount }

/-- The method `RewindBuffer::push(data, size)`, with `size = data.length`. -/
def push (b : RewindBuffer) (data : List UInt8) : Except Fault (Bool × RewindBuffer) :=
  if data.length > b.maxSize then
    .ok (false, b)
  else if b.writeIndex < b.slots.length then
    -- slot.resize(size); std::copy(data, data + size, slot.begin());
    let slots := b.slots.set b.writeIndex data
    if b.capacity = 0 then
      .error .remainderByZero
    else
      let writeIndex := (b.writeIndex + 1) % b.capacity
      let validCount := if b.validCount < b.capacity then b.validCount + 1 else b.validCount
      .ok (true, { b with slots := slots, writeIndex := writeIndex, validCount := validCount })
  else
    .error .slotIndexOutOfRange

/-- The method `RewindBuffer::pop(outData, outSize)`.  The arguments are the
contents of the output buffer and of `*outSize` before the call. -/
def pop (b : RewindBuffer) (outData : List UInt8) (outSize : Nat) : Except Fault PopResult :=
  if b.validCount = 0 then
    .ok { ok := false, buf := b, outData := outData, outSize := outSize }
  else if b.capacity = 0 then
    .error .remainderByZero
  else
    let readIndex := (b.writeIndex + b.capacity - 1) % b.capacity
    let b1 := { b with writeIndex := readIndex, validCount := b.validCount - 1 }
    match b1.slots[readIndex]? with
    | none => .error .slotIndexOutOfRange
    | some slot =>
      -- *outSize = slot.size(); std::copy(slot.begin(), slot.end(), outData);
      if slot.length ≤ outData.length then
        .ok { ok := true, buf := b1
              outData := slot ++ outData.drop slot.length
              outSize := slot.length }
      else
        .error .outputOverflow

/-- The method `RewindBuffer::clear()`. -/
def clear (b : RewindBuffer) : RewindBuffer :=
  { b with slots := b.slots.map (fun _ => []), writeIndex := 0, validCount := 0 }

/-! ### The state invariant and the reachable states -/

/-- The state invariant of the ring: at least one slot, as many slots as
`capacity` says, `writeIndex` inside the ring and `validCount` at most
`capacity`. -/
def Invariant (b : RewindBuffer) : Prop :=
  1 ≤ b.capacity ∧ b.slots.length = b.capacity ∧
    b.writeIndex < b.capacity ∧ b.validCount ≤ b.capacity

instance (b : RewindBuffer) : Decidable (Invariant b) := by
  unfold Invariant; infer_instance

/-- Every slot holds at most `maxSize` bytes. -/
def SlotsBounded (b : RewindBuffer) : Prop :=
  ∀ s ∈ b.slots, s.length ≤ b.maxSize

instance (b : RewindBuffer) : Decidable (SlotsBounded b) := by
  unfold SlotsBounded; infer_instance

/-- The states a buffer constructed by `RewindBuffer(slotCount, maxStateSize)`
can be in after any sequence of returning `push`, `pop` and `clear` calls,
whatever the calls returned. -/
inductive Reachable (slotCount maxStateSize : Nat) : RewindBuffer → Prop where
  | fresh : Reachable slotCount maxStateSize (construct slotCount maxStateSize)
  | push {b b1 : RewindBuffer} {data : List UInt8} {r : Bool} :
      Reachable slotCount maxStateSize b → push b data = .ok (r, b1) →
      Reachable slotCount maxStateSize b1
  | pop {b : RewindBuffer} {outData : List UInt8} {outSize : Nat} {res : PopResult} :
      Reachable slotCount maxStateSize b → pop b outData outSize = .ok res →
      Reachable slotCount maxStateSize res.buf
  | clear {b : RewindBuffer} :
      Reachable slotCount maxStateSize b → Reachable slotCount maxStateSize (clear b)

/-! ### The stack a buffer stands for -/

/-- The slot index `(writeIndex - 1 - i) mod capacity`, computed in the
integers so that the remainder is the mathematical one. -/
def slotIndex (b : RewindBuffer) (i : Nat) : Nat :=
  (((b.writeIndex : Int) - 1 - (i : Int)) % (b.capacity : Int)).toNat

/-- The abstraction of the refinement statement: the contents of the slots
`(writeIndex - 1 - i) mod capacity` for `i < validCount`, newest first. -/
def abs (b : RewindBuffer) : List (List UInt8) :=
  (List.range b.validCount).map fun i => b.slots.getD (slotIndex b i) []

end RewindBuffer

/-! ### Sequences of calls -/

/-- The caller's view between two calls: the buffer and the contents of the
memory behind `outData` and `outSize`. -/
structure Session where
  buf : RewindBuffer
  outData : List UInt8
  outSize : Nat
  deriving DecidableEq, Repr

/-- What the caller of `pop` gets to see: nothing when `pop` returned false,
and otherwise `*outSize` with the first `*outSize` bytes of the output buffer,
which is what `rewindFrame` hands on to `unserializeState`. -/
def PopResult.observed (res : PopResult) : Option (Nat × List UInt8) :=
  if res.ok then some (res.outSize, res.outData.take res.outSize) else none

/-- What a successful `pop` of the blob `s` shows to the caller. -/
def returned (s : List UInt8) : Option (Nat × List UInt8) := some (s.length, s)

/-- Consecutive `push` calls, one per blob, collecting the returned flags. -/
def pushAll (b : RewindBuffer) : List (List UInt8) → Except Fault (List Bool × RewindBuffer)
  | [] => .ok ([], b)
  | d :: ds =>
    match b.push d with
    | .error e => .error e
    | .ok (r, b1) =>
      match pushAll b1 ds with
      | .error e => .error e
      | .ok (rs, b2) => .ok (r :: rs, b2)

/-- Consecutive `pop` calls into the same output buffer, collecting what each
call showed to the caller. -/
def popMany : Nat → Session → Except Fault (List (Option (Nat × List UInt8)) × Session)
  | 0, s => .ok ([], s)
  | n + 1, s =>
    match s.buf.pop s.outData s.outSize with
    | .error e => .error e
    | .ok res =>
      match popMany n { buf := res.buf, outData := res.outData, outSize := res.outSize } with
      | .error e => .error e
      | .ok (os, s1) => .ok (res.observed :: os, s1)

/-! ### Closed forms of the single calls -/

/-- The buffer a returning, accepting `push` leaves behind. -/
def pushed (b : RewindBuffer) (data : List UInt8) : RewindBuffer :=
  { b with
    slots := b.slots.set b.writeIndex data
    writeIndex := (b.writeIndex + 1) % b.capacity
    validCount := if b.validCount < b.capacity then b.validCount + 1 else b.validCount }

/-- The index `pop` reads from. -/
def readIndex (b : RewindBuffer) : Nat := (b.writeIndex + b.capacity - 1) % b.capacity

/-- The buffer a returning, successful `pop` leaves behind. -/
def popped (b : RewindBuffer) : RewindBuffer :=
  { b with writeIndex := readIndex b, validCount := b.validCount - 1 }

/-! ### The states of the end-to-end scenario -/

/-- State A of the scenario: 100 bytes. -/
def stateA : List UInt8 := List.replicate 100 0x41

/-- State B of the scenario: 200 bytes. -/
def stateB : List UInt8 := List.replicate 200 0x42

/-- State C of the scenario: 300 bytes. -/
def stateC : List UInt8 := List.replicate 300 0x43

/-- State D of the scenario: 400 bytes. -/
def stateD : List UInt8 := List.replicate 400 0x44

/-! ## The frame pipeline: calls, replies and the background overlay

`video.cpp` and `backgroundframe.cpp` act on the outside world through OpenGL
ES and through three collaborators whose classes are not part of these
sources (`Renderer`, `VideoLayout`, `ImmersiveMode`).  The embedding records
every such call, in program order, as a `Call`, and takes what the outside
world answers (handles, status words, locations, getter results) from a record
of replies that is an argument of the operation.  Logging is left out.
Floating-point and pointer arguments of the calls are not represented; integer
arguments are recorded with the value of the source expression.  The only
floats the embedding looks at are the two that `captureRawFrame` converts to
`int`; they are the rationals they denote. -/

/-- The two shader kinds passed to `glCreateShader`. -/
inductive ShaderKind where
  | vertex
  | fragment
  deriving DecidableEq, Repr

/-- The text handed to `glShaderSource`: one of the two sources of
`backgroundframe.h`, or the source of a pass of the shader chain. -/
inductive ShaderText where
  | overlayVertex
  | overlayFragment
  | pass (source : String)
  deriving DecidableEq, Repr

/-- The queries made with `glGetShaderiv` and `glGetProgramiv`. -/
inductive StatusQuery where
  | compileStatus
  | linkStatus
  | infoLogLength
  deriving DecidableEq, Repr

/-- The capabilities switched with `glEnable` and `glDisable`. -/
inductive Capability where
  | depthTest
  | blend
  deriving DecidableEq, Repr

/-- The vertex arrays handed to `glVertexAttribPointer`. -/
inductive VertexArray where
  | foregroundVertices
  | framebufferVertices
  | backgroundVertices
  | textureCoordinates
  | overlayTextureCoords
  deriving DecidableEq, Repr

/-- The texture parameters set by `uploadPendingTexture`. -/
inductive TextureParameter where
  | minFilterLinear
  | magFilterLinear
  | wrapSClampToEdge
  | wrapTClampToEdge
  deriving DecidableEq, Repr

/-- Modelled from the spec: `ShaderManager::Config` of `shadermanager.h`, an
enumerated shader identity plus per-pass source overrides.  The code compares
configurations for equality and hands them to `ShaderManager::getShader`. -/
structure ShaderConfig where
  type : Nat
  overrides : List String
  deriving DecidableEq, Repr

/-- Modelled from the spec: one pass of what `ShaderManager::getShader` returns,
with its vertex and fragment source. -/
structure ShaderPass where
  vertex : String
  fragment : String
  deriving DecidableEq, Repr

/-- Modelled from the spec: what `ShaderManager::getShader` returns, the passes
in order and the `linearTexture` flag. -/
structure Shaders where
  passes : List ShaderPass
  linearTexture : Bool
  deriving DecidableEq, Repr

/-- A call that leaves the component, with its integer arguments. -/
inductive Call where
  | glGetError
  | glGetString
  | glCreateShader (kind : ShaderKind)
  | glShaderSource (shader : Nat) (text : ShaderText)
  | glCompileShader (shader : Nat)
  | glGetShaderiv (shader : Nat) (query : StatusQuery)
  | glGetShaderInfoLog (shader : Nat)
  | glDeleteShader (shader : Nat)
  | glCreateProgram
  | glAttachShader (program shader : Nat)
  | glBindAttribLocation (program index : Nat) (name : String)
  | glLinkProgram (program : Nat)
  | glGetProgramiv (program : Nat) (query : StatusQuery)
  | glGetProgramInfoLog (program : Nat)
  | glDeleteProgram (program : Nat)
  | glGetAttribLocation (program : Int) (name : String)
  | glGetUniformLocation (program : Int) (name : String)
  | glGenTextures
  | glBindTexture (texture : Nat)
  | glTexParameteri (parameter : TextureParameter)
  | glTexImage2D (width height : Int) (pixels : List UInt8)
  | glDeleteTextures (texture : Nat)
  | glEnable (cap : Capability)
  | glDisable (cap : Capability)
  | glBlendFunc
  | glBindFramebuffer (framebuffer : Nat)
  | glClearColor
  | glClear
  | glViewport (width height : Nat)
  | glUseProgram (program : Int)
  | glVertexAttribPointer (index : Int) (array : VertexArray)
  | glEnableVertexAttribArray (index : Int)
  | glDisableVertexAttribArray (index : Int)
  | glActiveTexture (unit : Nat)
  | glUniform1i (location value : Int)
  | glUniform1f (location : Int)
  | glUniform2f (location : Int)
  | glUniformMatrix4fv (location : Int)
  | glDrawArrays
  | glGenFramebuffers
  | glFramebufferTexture2D (texture : Nat)
  | glReadPixels (width height : Int)
  | glDeleteFramebuffers (framebuffer : Nat)
  | rendererSetPixelFormat
  | rendererOnNewFrame (data : List UInt8) (width height pitch : Nat)
  | rendererSetShaders (shaders : Shaders)
  | layoutUpdateContentSize (width height : Nat)
  | immersiveRenderBackground (screenWidth screenHeight texture : Nat)
  deriving DecidableEq, Repr

/-- A state after an operation that cannot throw, with the calls it made. -/
structure Step (σ : Type) where
  state : σ
  calls : List Call

/-! ### `BackgroundFrame` -/

/-- Ways in which `BackgroundFrame::setImage` fails to return. -/
inductive ImageFault where
  /-- The `int` product `width * height * 4` leaves the range of `int`. -/
  | signedOverflow
  /-- The product is negative, so that `resize` is asked for more than
  `max_size()` elements and throws `std::length_error`. -/
  | lengthError
  /-- The call to `memcpy` reads past the end of the bytes at `rgbaData`. -/
  | sourceOverrun
  deriving DecidableEq, Repr

/-- The largest value of `int` and of `GLint`. -/
def INT_MAX : Int := 2147483647

/-- The smallest value of `int` and of `GLint`. -/
def INT_MIN : Int := -2147483648

/-- The data members of `class BackgroundFrame` that change at run time. -/
structure BackgroundFrame where
  textureId : Nat
  shaderProgram : Nat
  positionHandle : Int
  texCoordHandle : Int
  textureHandle : Int
  shaderInitialized : Bool
  pendingImageData : List UInt8
  pendingWidth : Int
  pendingHeight : Int
  hasPending : Bool
  deriving DecidableEq, Repr

/-- What OpenGL answers while `BackgroundFrame::render` runs. -/
structure OverlayReplies where
  /-- The name `glGenTextures` writes to `textureId` (0 when it writes none). -/
  genTexture : Nat
  /-- The number of error flags set when `initializeShader` starts to drain
  them; OpenGL holds finitely many. -/
  pendingErrors : Nat
  vertexShader : Nat
  vertexCompiled : Int
  vertexInfoLen : Int
  fragmentShader : Nat
  fragmentCompiled : Int
  fragmentInfoLen : Int
  program : Nat
  linked : Int
  programInfoLen : Int
  positionLocation : Int
  texCoordLocation : Int
  textureLocation : Int
  deriving DecidableEq, Repr

namespace BackgroundFrame

/-- The member initialisers of `backgroundframe.h`. -/
def initial : BackgroundFrame :=
  { textureId := 0
    shaderProgram := 0
    positionHandle := -1
    texCoordHandle := -1
    textureHandle := -1
    shaderInitialized := false
    pendingImageData := []
    pendingWidth := 0
    pendingHeight := 0
    hasPending := false }

/-- The method `BackgroundFrame::hasImage()`. -/
def hasImage (bf : BackgroundFrame) : Bool := bf.textureId != 0

/-- The method `BackgroundFrame::hasPendingImage()`. -/
def hasPendingImage (bf : BackgroundFrame) : Bool := bf.hasPending

/-- The method `BackgroundFrame::setImage(rgbaData, width, height)`; `rgbaData`
is the list of the bytes found at the pointer.  The body resizes the pending
vector, copies into it and sets three members; it makes no call. -/
def setImage (bf : BackgroundFrame) (rgbaData : List UInt8) (width height : Int) :
    Except ImageFault (Step BackgroundFrame) :=
  -- size_t dataSize = width * height * 4;   (computed in `int`)
  if width * height < INT_MIN ∨ INT_MAX < width * height then
    .error .signedOverflow
  else if width * height * 4 < INT_MIN ∨ INT_MAX < width * height * 4 then
    .error .signedOverflow
  else if width * height * 4 < 0 then
    .error .lengthError
  else
    let dataSize := (width * height * 4).toNat
    if rgbaData.length < dataSize then
      .error .sourceOverrun
    else
      .ok { state := { bf with
                       pendingImageData := rgbaData.take dataSize
                       pendingWidth := width
                       pendingHeight := height
                       hasPending := true }
            calls := [] }

/-- The method `BackgroundFrame::uploadPendingTexture()`. -/
def uploadPendingTexture (gl : OverlayReplies) (bf : BackgroundFrame) : Step BackgroundFrame :=
  if !bf.hasPending then
    { state := bf, calls := [] }
  else
    let textureId := if bf.textureId = 0 then gl.genTexture else bf.textureId
    { state := { bf with textureId := textureId, pendingImageData := [], hasPending := false }
      calls :=
        (if bf.textureId = 0 then [Call.glGenTextures] else [])
        ++ [ .glBindTexture textureId
           , .glTexParameteri .minFilterLinear
           , .glTexParameteri .magFilterLinear
           , .glTexParameteri .wrapSClampToEdge
           , .glTexParameteri .wrapTClampToEdge
           , .glTexImage2D bf.pendingWidth bf.pendingHeight bf.pendingImageData
           , .glBindTexture 0 ] }

/-- The method `BackgroundFrame::clearImage()`. -/
def clearImage (bf : BackgroundFrame) : Step BackgroundFrame :=
  { state := { bf with textureId := 0, pendingImageData := [], hasPending := false }
    calls := if bf.textureId ≠ 0 then [.glDeleteTextures bf.textureId] else [] }

/-- The calls by which `initializeShader` compiles one of its two shaders and
looks at the outcome. -/
def compileCalls (shader : Nat) (text : ShaderText) (compiled infoLen : Int) : List Call :=
  [ .glShaderSource shader text
  , .glCompileShader shader
  , .glGetShaderiv shader .compileStatus ]
  ++ (if compiled = 0 then
        [Call.glGetShaderiv shader .infoLogLength]
        ++ (if infoLen > 0 then [Call.glGetShaderInfoLog shader] else [])
      else [])

/-- The method `BackgroundFrame::initializeShader()`. -/
def initializeShader (gl : OverlayReplies) (bf : BackgroundFrame) : Step BackgroundFrame :=
  if bf.shaderInitialized then
    { state := bf, calls := [] }
  else
    -- while ((err = glGetError()) != GL_NO_ERROR): one call per flag, one more to see none
    let drain := List.replicate (gl.pendingErrors + 1) Call.glGetError
    let create := [Call.glCreateShader .vertex, Call.glGetError]
    if gl.vertexShader = 0 then
      { state := bf, calls := drain ++ create }
    else
      { state := { bf with
                   shaderProgram := gl.program
                   positionHandle := gl.positionLocation
                   texCoordHandle := gl.texCoordLocation
                   textureHandle := gl.textureLocation
                   shaderInitialized := true }
        calls :=
          drain ++ create
          ++ compileCalls gl.vertexShader .overlayVertex gl.vertexCompiled gl.vertexInfoLen
          ++ [Call.glCreateShader .fragment]
          ++ compileCalls gl.fragmentShader .overlayFragment gl.fragmentCompiled
              gl.fragmentInfoLen
          ++ [ .glCreateProgram
             , .glAttachShader gl.program gl.vertexShader
             , .glAttachShader gl.program gl.fragmentShader
             , .glBindAttribLocation gl.program 0 "aPosition"
             , .glBindAttribLocation gl.program 1 "aTexCoord"
             , .glLinkProgram gl.program
             , .glGetProgramiv gl.program .linkStatus ]
          ++ (if gl.linked = 0 then
                [Call.glGetProgramiv gl.program .infoLogLength]
                ++ (if gl.programInfoLen > 0 then [Call.glGetProgramInfoLog gl.program]
                    else [])
              else [])
          ++ [ .glDeleteShader gl.vertexShader
             , .glDeleteShader gl.fragmentShader
             , .glGetAttribLocation gl.program "aPosition"
             , .glGetAttribLocation gl.program "aTexCoord"
             , .glGetUniformLocation gl.program "uTexture" ] }

/-- The calls of `BackgroundFrame::render` from `glBindFramebuffer` on. -/
def drawCalls (bf : BackgroundFrame) (screenWidth screenHeight : Nat) : List Call :=
  [ .glBindFramebuffer 0
  , .glViewport screenWidth screenHeight
  , .glUseProgram bf.shaderProgram
  , .glVertexAttribPointer bf.positionHandle .backgroundVertices
  , .glEnableVertexAttribArray bf.positionHandle
  , .glVertexAttribPointer bf.texCoordHandle .overlayTextureCoords
  , .glEnableVertexAttribArray bf.texCoordHandle
  , .glActiveTexture 0
  , .glBindTexture bf.textureId
  , .glUniform1i bf.textureHandle 0
  , .glDrawArrays
  , .glDisableVertexAttribArray bf.positionHandle
  , .glDisableVertexAttribArray bf.texCoordHandle
  , .glBindTexture 0
  , .glUseProgram 0 ]

/-- The method `BackgroundFrame::render(screenWidth, screenHeight,
backgroundVertices)`. -/
def render (gl : OverlayReplies) (bf : BackgroundFrame) (screenWidth screenHeight : Nat) :
    Step BackgroundFrame :=
  let up := uploadPendingTexture gl bf
  if !up.state.hasImage then
    up
  else
    let sh := initializeShader gl up.state
    if sh.state.shaderProgram = 0 then
      { state := sh.state, calls := up.calls ++ sh.calls }
    else
      { state := sh.state
        calls := up.calls ++ sh.calls ++ drawCalls sh.state screenWidth screenHeight }

end BackgroundFrame

/-! ### Replies used in the examples -/

/-- A GL context in which everything `BackgroundFrame::render` asks for
succeeds. -/
def workingOverlayGl : OverlayReplies :=
  { genTexture := 7
    pendingErrors := 0
    vertexShader := 1
    vertexCompiled := 1
    vertexInfoLen := 0
    fragmentShader := 2
    fragmentCompiled := 1
    fragmentInfoLen := 0
    program := 3
    linked := 1
    programInfoLen := 0
    positionLocation := 0
    texCoordLocation := 1
    textureLocation := 0 }

/-! ### `Video`: the shader chain -/

/-- The conversion of a 32-bit unsigned value to `GLint`. -/
def toGLint (u : Nat) : Int :=
  if u % 4294967296 < 2147483648 then ((u % 4294967296 : Nat) : Int)
  else ((u % 4294967296 : Nat) : Int) - 4294967296

/-- A value returned by a function of `video.cpp`, with the calls it made. -/
structure Returned (α : Type) where
  value : α
  calls : List Call

/-- The struct `Video::ShaderChainEntry` of `video.h`. -/
structure ShaderChainEntry where
  gProgram : Int
  gvPositionHandle : Int
  gvCoordinateHandle : Int
  gTextureHandle : Int
  gPreviousPassTextureHandle : Int
  gScreenDensityHandle : Int
  gTextureSizeHandle : Int
  gInputSizeHandle : Int
  gOutputSizeHandle : Int
  gFrameCountHandle : Int
  gFrameDirectionHandle : Int
  gMVPMatrixHandle : Int
  deriving DecidableEq, Repr

/-- What OpenGL and `malloc` answer while `loadShader` runs. -/
structure LoadShaderReplies where
  shader : Nat
  compiled : Int
  infoLen : Int
  bufAllocated : Bool
  deriving DecidableEq, Repr

/-- What OpenGL and `malloc` answer while `createProgram` runs. -/
structure ProgramReplies where
  vertex : LoadShaderReplies
  fragment : LoadShaderReplies
  program : Nat
  linkStatus : Int
  bufLength : Int
  bufAllocated : Bool
  deriving DecidableEq, Repr

/-- What OpenGL answers while `updateProgram` builds one pass: the replies to
`createProgram` and the locations of the attributes and uniforms by name. -/
structure PassReplies where
  build : ProgramReplies
  attribLocation : String → Int
  uniformLocation : String → Int

/-- The function `loadShader(shaderType, pSource)` of `video.cpp`. -/
def loadShader (gl : LoadShaderReplies) (kind : ShaderKind) (source : String) : Returned Nat :=
  if gl.shader ≠ 0 then
    let compile : List Call :=
      [ .glCreateShader kind
      , .glShaderSource gl.shader (.pass source)
      , .glCompileShader gl.shader
      , .glGetShaderiv gl.shader .compileStatus ]
    if gl.compiled = 0 then
      if gl.infoLen ≠ 0 then
        { value := 0
          calls := compile ++ [Call.glGetShaderiv gl.shader .infoLogLength]
            ++ (if gl.bufAllocated then [Call.glGetShaderInfoLog gl.shader] else [])
            ++ [Call.glDeleteShader gl.shader] }
      else
        { value := gl.shader
          calls := compile ++ [Call.glGetShaderiv gl.shader .infoLogLength] }
    else
      { value := gl.shader, calls := compile }
  else
    { value := 0, calls := [.glCreateShader kind] }

/-- The function `createProgram(pVertexSource, pFragmentSource)` of
`video.cpp`. -/
def createProgram (gl : ProgramReplies) (vertexSource fragmentSource : String) :
    Returned Nat :=
  let vertexShader := loadShader gl.vertex .vertex vertexSource
  if vertexShader.value = 0 then
    { value := 0, calls := vertexShader.calls }
  else
    let pixelShader := loadShader gl.fragment .fragment fragmentSource
    if pixelShader.value = 0 then
      { value := 0, calls := vertexShader.calls ++ pixelShader.calls }
    else if gl.program ≠ 0 then
      let link : List Call :=
        [ .glCreateProgram
        , .glAttachShader gl.program vertexShader.value
        , .glAttachShader gl.program pixelShader.value
        , .glLinkProgram gl.program
        , .glGetProgramiv gl.program .linkStatus ]
      if gl.linkStatus ≠ 1 then
        { value := 0
          calls := vertexShader.calls ++ pixelShader.calls ++ link
            ++ [Call.glGetProgramiv gl.program .infoLogLength]
            ++ (if gl.bufLength ≠ 0 ∧ gl.bufAllocated = true
                then [Call.glGetProgramInfoLog gl.program] else [])
            ++ [Call.glDeleteProgram gl.program] }
      else
        { value := gl.program, calls := vertexShader.calls ++ pixelShader.calls ++ link }
    else
      { value := 0, calls := vertexShader.calls ++ pixelShader.calls ++ [.glCreateProgram] }

/-- A location looked up under one name with `glGetAttribLocation`, and under a
second name when the first is not found. -/
def attribWithFallback (gl : PassReplies) (program : Int) (first second : String) :
    Returned Int :=
  if gl.attribLocation first = -1 then
    { value := gl.attribLocation second
      calls := [.glGetAttribLocation program first, .glGetAttribLocation program second] }
  else
    { value := gl.attribLocation first, calls := [.glGetAttribLocation program first] }

/-- A location looked up under one name with `glGetUniformLocation`, and under
a second name when the first is not found. -/
def uniformWithFallback (gl : PassReplies) (program : Int) (first second : String) :
    Returned Int :=
  if gl.uniformLocation first = -1 then
    { value := gl.uniformLocation second
      calls := [.glGetUniformLocation program first, .glGetUniformLocation program second] }
  else
    { value := gl.uniformLocation first, calls := [.glGetUniformLocation program first] }

/-- The part of the loop body of `Video::updateProgram` that follows a
successful `createProgram`: the locations of one pass. -/
def resolveEntry (gl : PassReplies) (program : Int) : Returned ShaderChainEntry :=
  let position := attribWithFallback gl program "vPosition" "VertexCoord"
  let coordinate := attribWithFallback gl program "vCoordinate" "TexCoord"
  let texture := uniformWithFallback gl program "texture" "Texture"
  let textureSize := uniformWithFallback gl program "textureSize" "TextureSize"
  { value :=
      { gProgram := program
        gvPositionHandle := position.value
        gvCoordinateHandle := coordinate.value
        gTextureHandle := texture.value
        gPreviousPassTextureHandle := gl.uniformLocation "previousPass"
        gScreenDensityHandle := gl.uniformLocation "screenDensity"
        gTextureSizeHandle := textureSize.value
        gInputSizeHandle := gl.uniformLocation "InputSize"
        gOutputSizeHandle := gl.uniformLocation "OutputSize"
        gFrameCountHandle := gl.uniformLocation "FrameCount"
        gFrameDirectionHandle := gl.uniformLocation "FrameDirection"
        gMVPMatrixHandle := gl.uniformLocation "MVPMatrix" }
    calls :=
      position.calls ++ coordinate.calls ++ texture.calls
      ++ [Call.glGetUniformLocation program "previousPass"]
      ++ textureSize.calls
      ++ [ .glGetUniformLocation program "screenDensity"
         , .glGetUniformLocation program "InputSize"
         , .glGetUniformLocation program "OutputSize"
         , .glGetUniformLocation program "FrameCount"
         , .glGetUniformLocation program "FrameDirection"
         , .glGetUniformLocation program "MVPMatrix" ] }

/-- The chain under construction in `Video::updateProgram`: the entries pushed
so far, the calls made so far, and whether the loop body has thrown. -/
structure ChainBuild where
  chain : List ShaderChainEntry
  calls : List Call
  thrown : Bool

/-- The `std::for_each` of `Video::updateProgram` over the passes that are
left, the pass at the head having index `index`. -/
def buildChain (gl : Nat → PassReplies) :
    Nat → List ShaderPass → List ShaderChainEntry → List Call → ChainBuild
  | _, [], chain, calls => { chain := chain, calls := calls, thrown := false }
  | index, item :: items, chain, calls =>
    let program := createProgram (gl index).build item.vertex item.fragment
    if toGLint program.value = 0 then
      -- throw std::runtime_error("Cannot create gl program");
      { chain := chain, calls := calls ++ program.calls, thrown := true }
    else
      let shader := resolveEntry (gl index) (toGLint program.value)
      buildChain gl (index + 1) items (chain ++ [shader.value])
        (calls ++ program.calls ++ shader.calls)

/-! ### `Video`: state and operations -/

/-- Modelled from the spec: what `Renderer::getPassData(i)` returns, the render
target of a pass: an offscreen framebuffer, its backing texture and the
pass-specific width and height, each of which may be absent. -/
structure PassData where
  framebuffer : Option Nat
  texture : Option Nat
  width : Option Nat
  height : Option Nat
  deriving DecidableEq, Repr

/-- What the outside world answers while `Video::renderFrame` (or the
constructor) runs: `ShaderManager::getShader`, OpenGL during the build of each
pass, the getters of the renderer and of the layout, and OpenGL during
`BackgroundFrame::render`. -/
structure FrameReplies where
  getShader : ShaderConfig → Shaders
  pass : Nat → PassReplies
  passData : Nat → PassData
  /-- The result of `renderer->getTexture()` in the backdrop call. -/
  backdropTexture : Nat
  /-- The result of `renderer->getTexture()` in pass `i`. -/
  passTexture : Nat → Nat
  screenWidth : Nat
  screenHeight : Nat
  overlay : OverlayReplies

/-- The data members of `class Video` that the methods of `video.cpp` write,
with the `backgroundFrame` member those methods use.  The renderer, the layout
and the immersive mode are collaborators reached through calls. -/
structure Video where
  requestedShaderConfig : ShaderConfig
  loadedShaderType : Option ShaderConfig
  isDirty : Bool
  skipDuplicateFrames : Bool
  filterMode : Int
  bfiEnabled : Bool
  bfiFrameCounter : Nat
  frameCount : Nat
  shadersChain : List ShaderChainEntry
  immersiveModeEnabled : Bool
  backgroundFrame : BackgroundFrame
  deriving DecidableEq, Repr

/-- A `Video` state after a method that may throw, the calls made up to the
return or the throw, and whether the method threw. -/
structure Outcome where
  state : Video
  calls : List Call
  thrown : Bool

namespace Video

/-- The local `shaders` of `Video::updateProgram()`: what the shader manager
hands out for the requested configuration, with the filter mode override
applied to `linearTexture`. -/
def requestedShaders (gl : FrameReplies) (v : Video) : Shaders :=
  let shaders := gl.getShader v.requestedShaderConfig
  if v.filterMode = 0 then { shaders with linearTexture := false }
  else if v.filterMode = 1 then { shaders with linearTexture := true }
  else shaders

/-- The method `Video::updateProgram()`. -/
def updateProgram (gl : FrameReplies) (v : Video) : Outcome :=
  if v.loadedShaderType = some v.requestedShaderConfig then
    { state := v, calls := [], thrown := false }
  else
    let shaders := requestedShaders gl v
    let build := buildChain gl.pass 0 shaders.passes [] []
    { state := { v with
                 loadedShaderType := some v.requestedShaderConfig
                 shadersChain := build.chain }
      calls := if build.thrown then build.calls
               else build.calls ++ [.rendererSetShaders shaders]
      thrown := build.thrown }

/-- The calls of one iteration of the pass loop of `Video::renderFrame`, for the
entry `shader` at index `i` of a chain of `chainLength` entries. -/
def passCalls (gl : FrameReplies) (frameCount chainLength i : Nat)
    (shader : ShaderChainEntry) : List Call :=
  let passData := gl.passData i
  let vertices : VertexArray :=
    if i = chainLength - 1 then .foregroundVertices else .framebufferVertices
  [ .glBindFramebuffer (passData.framebuffer.getD 0)
  , .glViewport (passData.width.getD gl.screenWidth) (passData.height.getD gl.screenHeight)
  , .glUseProgram shader.gProgram
  , .glVertexAttribPointer shader.gvPositionHandle vertices
  , .glEnableVertexAttribArray shader.gvPositionHandle
  , .glVertexAttribPointer shader.gvCoordinateHandle .textureCoordinates
  , .glEnableVertexAttribArray shader.gvCoordinateHandle
  , .glActiveTexture 0
  , .glBindTexture (gl.passTexture i)
  , .glUniform1i shader.gTextureHandle 0 ]
  ++ (if shader.gPreviousPassTextureHandle ≠ -1 ∧ passData.texture.isSome = true then
        [ Call.glActiveTexture 1
        , .glBindTexture (passData.texture.getD 0)
        , .glUniform1i shader.gPreviousPassTextureHandle 1 ]
      else [])
  ++ [ .glUniform2f shader.gTextureSizeHandle
     , .glUniform1f shader.gScreenDensityHandle ]
  ++ (if shader.gInputSizeHandle ≠ -1 then [Call.glUniform2f shader.gInputSizeHandle]
      else [])
  ++ (if shader.gOutputSizeHandle ≠ -1 then [Call.glUniform2f shader.gOutputSizeHandle]
      else [])
  ++ (if shader.gFrameCountHandle ≠ -1 then
        [Call.glUniform1i shader.gFrameCountHandle (toGLint frameCount)]
      else [])
  ++ (if shader.gFrameDirectionHandle ≠ -1 then
        [Call.glUniform1i shader.gFrameDirectionHandle 1]
      else [])
  ++ (if shader.gMVPMatrixHandle ≠ -1 then [Call.glUniformMatrix4fv shader.gMVPMatrixHandle]
      else [])
  ++ [ .glDrawArrays
     , .glDisableVertexAttribArray shader.gvPositionHandle
     , .glDisableVertexAttribArray shader.gvCoordinateHandle ]
  ++ (if shader.gPreviousPassTextureHandle ≠ -1 ∧ passData.texture.isSome = true then
        [Call.glActiveTexture 1, .glBindTexture 0]
      else [])
  ++ [ .glActiveTexture 0
     , .glBindTexture 0
     , .glUseProgram 0 ]

/-- The pass loop of `Video::renderFrame` from index `i` on, over the entries
that are left. -/
def passLoop (gl : FrameReplies) (frameCount chainLength : Nat) :
    Nat → List ShaderChainEntry → List Call
  | _, [] => []
  | i, shader :: rest =>
    passCalls gl frameCount chainLength i shader
      ++ passLoop gl frameCount chainLength (i + 1) rest

/-- The calls of `Video::renderFrame` between the skip test and
`updateProgram`: the clear of the default framebuffer and the immersive
backdrop. -/
def clearCalls (gl : FrameReplies) (v : Video) : List Call :=
  [ .glDisable .depthTest
  , .glBindFramebuffer 0
  , .glClearColor
  , .glClear ]
  ++ (if v.backgroundFrame.hasImage = false ∧ v.immersiveModeEnabled = true then
        [Call.immersiveRenderBackground gl.screenWidth gl.screenHeight gl.backdropTexture]
      else [])

/-- The method `Video::renderFrame()`. -/
def renderFrame (gl : FrameReplies) (v : Video) : Outcome :=
  if v.skipDuplicateFrames = true ∧ v.bfiEnabled = false ∧ v.isDirty = false then
    { state := v, calls := [], thrown := false }
  else
    let v1 := { v with isDirty := false, frameCount := (v.frameCount + 1) % 4294967296 }
    let up := updateProgram gl v1
    if up.thrown then
      { state := up.state, calls := clearCalls gl v1 ++ up.calls, thrown := true }
    else
      let v2 := up.state
      let passes := passLoop gl v2.frameCount v2.shadersChain.length 0 v2.shadersChain
      if v2.backgroundFrame.hasImage = true ∨ v2.backgroundFrame.hasPendingImage = true then
        let overlay := v2.backgroundFrame.render gl.overlay gl.screenWidth gl.screenHeight
        { state := { v2 with backgroundFrame := overlay.state }
          calls := clearCalls gl v1 ++ up.calls ++ passes
            ++ [Call.glEnable .blend, .glBlendFunc]
            ++ overlay.calls
            ++ [Call.glDisable .blend]
          thrown := false }
      else
        { state := v2, calls := clearCalls gl v1 ++ up.calls ++ passes, thrown := false }

/-- The method `Video::onNewFrame(data, width, height, pitch)`; a null `data`
is `none`, and otherwise `data` is the list of the bytes of the frame. -/
def onNewFrame (v : Video) (data : Option (List UInt8)) (width height pitch : Nat) :
    Step Video :=
  match data with
  | some bytes =>
    { state := { v with isDirty := true }
      calls := [ .rendererOnNewFrame bytes width height pitch
               , .layoutUpdateContentSize width height ] }
  | none => { state := v, calls := [] }

/-- The method `Video::updateShaderType(shaderConfig)`. -/
def updateShaderType (v : Video) (shaderConfig : ShaderConfig) : Video :=
  { v with requestedShaderConfig := shaderConfig }

/-- The method `Video::setFilterMode(mode)`. -/
def setFilterMode (v : Video) (mode : Int) : Video :=
  if v.filterMode ≠ mode then
    { v with filterMode := mode, loadedShaderType := none }
  else v

/-- The method `Video::setBlackFrameInsertion(enabled)`. -/
def setBlackFrameInsertion (v : Video) (enabled : Bool) : Video :=
  { v with bfiEnabled := enabled, bfiFrameCounter := 0 }

/-- The method `Video::setBackgroundFrame(data, width, height)`. -/
def setBackgroundFrame (v : Video) (data : List UInt8) (width height : Int) :
    Except ImageFault (Step Video) :=
  match v.backgroundFrame.setImage data width height with
  | .error e => .error e
  | .ok st => .ok { state := { v with backgroundFrame := st.state }, calls := st.calls }

/-- The method `Video::clearBackgroundFrame()`. -/
def clearBackgroundFrame (v : Video) : Step Video :=
  { state := { v with backgroundFrame := v.backgroundFrame.clearImage.state }
    calls := v.backgroundFrame.clearImage.calls }

/-- The method `Video::renderBlackFrame()`, which writes no member. -/
def renderBlackFrame : List Call :=
  [ .glDisable .depthTest
  , .glBindFramebuffer 0
  , .glClearColor
  , .glClear ]

/-- The constructor `Video::Video(...)` with `initializeRenderer`: the member
initialisers of `video.h` and of the constructor, then `glViewport`,
`glUseProgram(0)`, the pixel format of the new renderer and the first
`updateProgram`.  The construction of the collaborators is left out. -/
def construct (gl : FrameReplies) (shaderConfig : ShaderConfig)
    (skipDuplicateFrames immersiveModeEnabled : Bool) : Outcome :=
  let up := updateProgram gl
    { requestedShaderConfig := shaderConfig
      loadedShaderType := none
      isDirty := false
      skipDuplicateFrames := skipDuplicateFrames
      filterMode := -1
      bfiEnabled := false
      bfiFrameCounter := 0
      frameCount := 0
      shadersChain := []
      immersiveModeEnabled := immersiveModeEnabled
      backgroundFrame := BackgroundFrame.initial }
  { state := up.state
    calls :=
      [ .glGetString, .glGetString, .glGetString, .glGetString
      , .glViewport gl.screenWidth gl.screenHeight
      , .glUseProgram 0
      , .rendererSetPixelFormat ]
      ++ up.calls
    thrown := up.thrown }

/-- The states of a `Video` object: the state a constructor call that did not
throw leaves, and every state reached from there by the methods of `video.cpp`
that write members, whether they return or throw. -/
inductive Reachable : Video → Prop where
  | construct (gl : FrameReplies) (shaderConfig : ShaderConfig)
      (skipDuplicateFrames immersiveModeEnabled : Bool) :
      (construct gl shaderConfig skipDuplicateFrames immersiveModeEnabled).thrown = false →
      Reachable (construct gl shaderConfig skipDuplicateFrames immersiveModeEnabled).state
  | renderFrame {v : Video} (gl : FrameReplies) :
      Reachable v → Reachable (renderFrame gl v).state
  | onNewFrame {v : Video} (data : Option (List UInt8)) (width height pitch : Nat) :
      Reachable v → Reachable (onNewFrame v data width height pitch).state
  | updateShaderType {v : Video} (shaderConfig : ShaderConfig) :
      Reachable v → Reachable (updateShaderType v shaderConfig)
  | setFilterMode {v : Video} (mode : Int) :
      Reachable v → Reachable (setFilterMode v mode)
  | setBlackFrameInsertion {v : Video} (enabled : Bool) :
      Reachable v → Reachable (setBlackFrameInsertion v enabled)
  | setBackgroundFrame {v : Video} {data : List UInt8} {width height : Int}
      {st : Step Video} :
      Reachable v → setBackgroundFrame v data width height = .ok st → Reachable st.state
  | clearBackgroundFrame {v : Video} :
      Reachable v → Reachable (clearBackgroundFrame v).state

end Video

/-! ### What is bound when a draw is issued -/

/-- The program made current by the calls so far: the argument of the last
`glUseProgram`, and unknown (`none`) at the start and after the backdrop of the
immersive mode, which issues its own calls. -/
def programAfter : Option Int → List Call → Option Int
  | s, [] => s
  | _, .glUseProgram program :: rest => programAfter (some program) rest
  | _, .immersiveRenderBackground _ _ _ :: rest => programAfter none rest
  | s, _ :: rest => programAfter s rest

/-- For every `glDrawArrays` of a list of calls, in order, the program that is
current when it is issued. -/
def drawPrograms : Option Int → List Call → List (Option Int)
  | _, [] => []
  | s, .glDrawArrays :: rest => s :: drawPrograms s rest
  | _, .glUseProgram program :: rest => drawPrograms (some program) rest
  | _, .immersiveRenderBackground _ _ _ :: rest => drawPrograms none rest
  | s, _ :: rest => drawPrograms s rest

/-- For every `glDrawArrays` of a list of calls, in order, the texture bound to
texture unit 0 when it is issued: the argument of the last `glBindTexture`
made while unit 0 was the active unit; `unit` is the active unit and `texture`
that texture, `none` when unknown. -/
def drawTextures : Option Nat → Option Nat → List Call → List (Option Nat)
  | _, _, [] => []
  | unit, texture, .glDrawArrays :: rest => texture :: drawTextures unit texture rest
  | _, texture, .glActiveTexture u :: rest => drawTextures (some u) texture rest
  | unit, texture, .glBindTexture t :: rest =>
    drawTextures unit
      (if unit = some 0 then some t else if unit = none then none else texture) rest
  | _, _, .immersiveRenderBackground _ _ _ :: rest => drawTextures none none rest
  | unit, texture, _ :: rest => drawTextures unit texture rest

/-- A list of calls all of whose draws are issued under a non-zero program,
whatever program is current before the list. -/
def SafeDraws (l : List Call) : Prop :=
  ∀ s, ∀ p ∈ drawPrograms s l, ∃ q, p = some q ∧ q ≠ 0

/-- The location argument of a `glUniform*` call. -/
def Call.uniformLocation : Call → Option Int
  | .glUniform1i location _ => some location
  | .glUniform1f location => some location
  | .glUniform2f location => some location
  | .glUniformMatrix4fv location => some location
  | _ => none

/-- The calls by which a program is compiled, linked and inspected: those that
`createProgram` and the location lookups of `updateProgram` make. -/
def Call.buildsProgram : Call → Bool
  | .glCreateShader _ => true
  | .glShaderSource _ _ => true
  | .glCompileShader _ => true
  | .glGetShaderiv _ _ => true
  | .glGetShaderInfoLog _ => true
  | .glDeleteShader _ => true
  | .glCreateProgram => true
  | .glAttachShader _ _ => true
  | .glLinkProgram _ => true
  | .glGetProgramiv _ _ => true
  | .glGetProgramInfoLog _ => true
  | .glDeleteProgram _ => true
  | .glGetAttribLocation _ _ => true
  | .glGetUniformLocation _ _ => true
  | _ => false

/-! ### Replies used in the examples of the frame orchestrator -/

/-- Replies of a GL context in which a shader compiles. -/
def compilingShader (shader : Nat) : LoadShaderReplies :=
  { shader := shader, compiled := 1, infoLen := 0, bufAllocated := true }

/-- Replies of a GL context in which a pass builds into the program `program`
and every attribute and uniform is found at `location` (or, with `-1`, is not
found). -/
def buildingPass (program : Nat) (location : Int) : PassReplies :=
  { build :=
      { vertex := compilingShader 11
        fragment := compilingShader 12
        program := program
        linkStatus := 1
        bufLength := 0
        bufAllocated := true }
    attribLocation := fun _ => location
    uniformLocation := fun _ => location }

/-- Replies of a GL context in which the program of a pass fails to link, with
a link log of 40 characters. -/
def failingPass : PassReplies :=
  { build :=
      { vertex := compilingShader 11
        fragment := compilingShader 12
        program := 6
        linkStatus := 0
        bufLength := 40
        bufAllocated := true }
    attribLocation := fun _ => 0
    uniformLocation := fun _ => 0 }

/-- A shader configuration for the examples. -/
def exampleConfig : ShaderConfig := { type := 0, overrides := [] }

/-- A shader of `n` passes for the examples. -/
def exampleShaders (n : Nat) : Shaders :=
  { passes := List.replicate n { vertex := "vertex", fragment := "fragment" }
    linearTexture := false }

/-- Replies for the examples: the shader manager hands out `shaders`, pass `i`
builds as `pass i` says, no pass has a render target of its own, the screen is
640 x 480 and the overlay finds a working GL context. -/
def exampleReplies (shaders : Shaders) (pass : Nat → PassReplies) : FrameReplies :=
  { getShader := fun _ => shaders
    pass := pass
    passData := fun _ => { framebuffer := none, texture := none, width := none, height := none }
    backdropTexture := 9
    passTexture := fun _ => 9
    screenWidth := 640
    screenHeight := 480
    overlay := workingOverlayGl }

/-- Replies for the examples in which a one-pass shader builds into program 5
with every location found at 0. -/
def onePassReplies : FrameReplies :=
  exampleReplies (exampleShaders 1) (fun _ => buildingPass 5 0)

/-- Replies for the examples in which the shader has two passes, the first
builds into program 7 and the second fails to link. -/
def secondPassFails : FrameReplies :=
  exampleReplies (exampleShaders 2) (fun i => if i = 0 then buildingPass 7 0 else failingPass)

/-- Replies for the examples in which a two-pass shader builds into programs 7
and 8. -/
def twoPassReplies : FrameReplies :=
  exampleReplies (exampleShaders 2) (fun i => if i = 0 then buildingPass 7 0 else buildingPass 8 0)

/-- A second shader configuration for the examples. -/
def otherConfig : ShaderConfig := { type := 1, overrides := [] }

/-- A `Video` constructed with `skipDuplicateFrames` on and the immersive mode
off, in a GL context in which its one-pass shader builds. -/
def builtVideo : Video := (Video.construct onePassReplies exampleConfig true false).state

/-- The `Video` of the examples after it received a frame of one pixel. -/
def dirtyVideo : Video := (builtVideo.onNewFrame (some [1, 2, 3, 4]) 1 1 4).state

/-- Replies for the examples in which a one-pass shader builds into program 5
and none of its attributes and uniforms is found. -/
def nothingFoundReplies : FrameReplies :=
  exampleReplies (exampleShaders 1) (fun _ => buildingPass 5 (-1))

/-- Replies of a GL context in which a pass builds into the program 5 and only
the uniform `previousPass` is found, at location 0. -/
def previousPassOnly : PassReplies :=
  { buildingPass 5 (-1) with
    uniformLocation := fun name => if name = "previousPass" then 0 else -1 }

/-- Replies for the examples in which a one-pass shader declares only the
uniform `previousPass`, and the pass has no previous-pass texture. -/
def previousPassOnlyReplies : FrameReplies :=
  exampleReplies (exampleShaders 1) (fun _ => previousPassOnly)

/-- The `Video` of the examples after a one-pixel overlay image was set. -/
def overlayVideo : Video :=
  match dirtyVideo.setBackgroundFrame [10, 20, 30, 40] 1 1 with
  | .ok st => st.state
  | .error _ => dirtyVideo

/-! ### The rewind entry points of `libretrodroidjni.cpp` -/

/-- The two file-scope variables of `libretrodroidjni.cpp` behind the rewind
entry points: `rewindBuffer`, null or owning a buffer, and `rewindTempBuffer`. -/
structure RewindJni where
  rewindBuffer : Option RewindBuffer
  rewindTempBuffer : List UInt8
  deriving DecidableEq, Repr

/-- The call `v.resize(n)` of a `std::vector<uint8_t>`: the first `n` elements
are kept and zeros are appended up to the length `n`. -/
def resizeBytes (v : List UInt8) (n : Nat) : List UInt8 :=
  v.take n ++ List.replicate (n - v.length) 0

/-- What a call of `rewindFrame` leaves behind: the returned flag, the two
variables, and the bytes handed to `unserializeState` when it was called, which
are the first `size` bytes of `rewindTempBuffer`. -/
structure RewindFrameResult where
  returned : Bool
  jni : RewindJni
  unserialized : Option (List UInt8)
  deriving DecidableEq, Repr

namespace RewindJni

/-- The initialisers of the two variables. -/
def initial : RewindJni := { rewindBuffer := none, rewindTempBuffer := [] }

/-- The entry point `initRewindBuffer(slotCount, maxStateSize)`, for `jint`
arguments that are not negative. -/
def initRewindBuffer (j : RewindJni) (slotCount maxStateSize : Nat) : RewindJni :=
  { rewindBuffer := some (RewindBuffer.construct slotCount maxStateSize)
    rewindTempBuffer := resizeBytes j.rewindTempBuffer maxStateSize }

/-- The entry point `captureRewindState()`.  The argument is what
`LibretroDroid::serializeState()` hands back, `none` when it throws, which the
entry point catches. -/
def captureRewindState (j : RewindJni) (serialized : Option (List UInt8)) :
    Except Fault (Bool × RewindJni) :=
  match j.rewindBuffer with
  | none => .ok (false, j)
  | some b =>
    match serialized with
    | none => .ok (false, j)
    | some data =>
      match b.push data with
      | .error e => .error e
      | .ok (r, b1) => .ok (r, { j with rewindBuffer := some b1 })

/-- The entry point `rewindFrame()`.  The argument is the result of
`LibretroDroid::unserializeState`, `none` when it throws, which the entry
point catches. -/
def rewindFrame (j : RewindJni) (unserializeResult : Option Bool) :
    Except Fault RewindFrameResult :=
  match j.rewindBuffer with
  | none => .ok { returned := false, jni := j, unserialized := none }
  | some b =>
    -- size_t size = 0; rewindBuffer->pop(rewindTempBuffer.data(), &size)
    match b.pop j.rewindTempBuffer 0 with
    | .error e => .error e
    | .ok res =>
      if res.ok then
        .ok { returned := unserializeResult.getD false
              jni := { rewindBuffer := some res.buf, rewindTempBuffer := res.outData }
              unserialized := some (res.outData.take res.outSize) }
      else
        .ok { returned := false
              jni := { rewindBuffer := some res.buf, rewindTempBuffer := res.outData }
              unserialized := none }

/-- The entry point `clearRewindBuffer()`. -/
def clearRewindBuffer (j : RewindJni) : RewindJni :=
  match j.rewindBuffer with
  | none => j
  | some b => { j with rewindBuffer := some b.clear }

/-- The entry point `destroyRewindBuffer()`. -/
def destroyRewindBuffer (_ : RewindJni) : RewindJni :=
  { rewindBuffer := none, rewindTempBuffer := [] }

/-- The states of the two variables after any sequence of returning calls of
the rewind entry points. -/
inductive Reachable : RewindJni → Prop where
  | initial : Reachable initial
  | initRewindBuffer {j : RewindJni} (slotCount maxStateSize : Nat) :
      Reachable j → Reachable (initRewindBuffer j slotCount maxStateSize)
  | captureRewindState {j j1 : RewindJni} {serialized : Option (List UInt8)} {r : Bool} :
      Reachable j → captureRewindState j serialized = .ok (r, j1) → Reachable j1
  | rewindFrame {j : RewindJni} {unserializeResult : Option Bool} {res : RewindFrameResult} :
      Reachable j → rewindFrame j unserializeResult = .ok res → Reachable res.jni
  | clearRewindBuffer {j : RewindJni} : Reachable j → Reachable (clearRewindBuffer j)
  | destroyRewindBuffer {j : RewindJni} : Reachable j → Reachable (destroyRewindBuffer j)

end RewindJni

/-! ### Runs of calls on a `Video` -/

/-- The methods of `video.cpp` that write members, as one call each with its
arguments and, for `renderFrame`, with what the outside world answers during
the call. -/
inductive VideoOp where
  | renderFrame (gl : FrameReplies)
  | onNewFrame (data : Option (List UInt8)) (width height pitch : Nat)
  | updateShaderType (shaderConfig : ShaderConfig)
  | setFilterMode (mode : Int)
  | setBlackFrameInsertion (enabled : Bool)
  | setBackgroundFrame (data : List UInt8) (width height : Int)
  | clearBackgroundFrame

namespace Video

/-- For a run of calls from the state `v`, the value of the expression
`static_cast<GLint>(frameCount)` in each `renderFrame` call that is not
skipped, in order, `frameCount` being the member after the increment of that
call: the argument of the `glUniform1i` of the frame count in its pass loop (a
call that throws in `updateProgram` does not get to pass it).  A
`setBackgroundFrame` that does not return ends the run. -/
def frameCountValues : Video → List VideoOp → List Int
  | _, [] => []
  | v, .renderFrame gl :: ops =>
    if v.skipDuplicateFrames = true ∧ v.bfiEnabled = false ∧ v.isDirty = false then
      frameCountValues (v.renderFrame gl).state ops
    else
      toGLint (v.renderFrame gl).state.frameCount
        :: frameCountValues (v.renderFrame gl).state ops
  | v, .onNewFrame data width height pitch :: ops =>
    frameCountValues (v.onNewFrame data width height pitch).state ops
  | v, .updateShaderType shaderConfig :: ops =>
    frameCountValues (v.updateShaderType shaderConfig) ops
  | v, .setFilterMode mode :: ops => frameCountValues (v.setFilterMode mode) ops
  | v, .setBlackFrameInsertion enabled :: ops =>
    frameCountValues (v.setBlackFrameInsertion enabled) ops
  | v, .setBackgroundFrame data width height :: ops =>
    match v.setBackgroundFrame data width height with
    | .ok st => frameCountValues st.state ops
    | .error _ => []
  | v, .clearBackgroundFrame :: ops => frameCountValues v.clearBackgroundFrame.state ops

/-- The state after `n` consecutive `renderFrame` calls. -/
def renderFrames (gl : FrameReplies) : Nat → Video → Video
  | 0, v => v
  | n + 1, v => renderFrames gl n (v.renderFrame gl).state

end Video

/-- Replies of a GL context in which a pass builds into the program 5 and the
uniform `FrameCount` is found at location 3, everything else at location 0. -/
def frameCountAtThree : PassReplies :=
  { buildingPass 5 0 with
    uniformLocation := fun name => if name = "FrameCount" then 3 else 0 }

/-- Replies for the examples in which the one-pass shader has its `FrameCount`
uniform at location 3. -/
def frameCountReplies : FrameReplies :=
  exampleReplies (exampleShaders 1) (fun _ => frameCountAtThree)

/-- A `Video` constructed with `skipDuplicateFrames` off, so that every
`renderFrame` draws. -/
def everyFrameVideo : Video :=
  (Video.construct frameCountReplies exampleConfig false false).state

/-- The `Video` of the examples that draws every frame, after 2147483646
frames. -/
def lateVideo : Video := { everyFrameVideo with frameCount := 2147483646 }

/-! ### States and replies used in the examples of the overlay -/

/-- A `Video` constructed with `skipDuplicateFrames` on and the immersive mode
on, after it received a frame of one pixel and a one-pixel overlay image was
set: the image is pending and no texture exists yet. -/
def immersiveOverlayVideo : Video :=
  match ((Video.construct onePassReplies exampleConfig true true).state.onNewFrame
      (some [1, 2, 3, 4]) 1 1 4).state.setBackgroundFrame [10, 20, 30, 40] 1 1 with
  | .ok st => st.state
  | .error _ => (Video.construct onePassReplies exampleConfig true true).state

/-- The `Video` of the examples, which has drawn nothing new to draw (no frame
arrived since its construction), after a one-pixel overlay image was set. -/
def pausedOverlayVideo : Video :=
  match builtVideo.setBackgroundFrame [10, 20, 30, 40] 1 1 with
  | .ok st => st.state
  | .error _ => builtVideo

/-- A GL context in which `glCreateShader` yields no vertex shader, as when no
context is current for shaders, while textures can be created. -/
def noShaderOverlayGl : OverlayReplies := { workingOverlayGl with vertexShader := 0 }

/-- A GL context in which the fragment shader of the overlay fails to compile
and its program, created under the name 3, fails to link. -/
def unlinkedOverlayGl : OverlayReplies :=
  { workingOverlayGl with
    fragmentCompiled := 0
    fragmentInfoLen := 20
    linked := 0
    programInfoLen := 30
    positionLocation := -1
    texCoordLocation := -1
    textureLocation := -1 }

/-- An overlay with an uploaded texture and no shader yet: a one-pixel image
was set and rendered in the context in which no vertex shader could be
created. -/
def texturedFrame : BackgroundFrame :=
  match BackgroundFrame.initial.setImage [10, 20, 30, 40] 1 1 with
  | .ok st => (st.state.render noShaderOverlayGl 640 480).state
  | .error _ => BackgroundFrame.initial

/-! ### `Video::captureRawFrame` -/

/-- Ways in which `Video::captureRawFrame` fails to return. -/
inductive CaptureFault where
  /-- The conversion `(int)` was applied to a float whose integer part is
  outside the range of `int`. -/
  | castOutOfRange
  /-- The `int` product `outWidth * outHeight * 4` leaves the range of `int`. -/
  | signedOverflow
  /-- The product is negative, so that the vector is asked for more than
  `max_size()` elements and its constructor throws `std::length_error`. -/
  | lengthError
  deriving DecidableEq, Repr

/-- What the outside world answers while `Video::captureRawFrame` runs.  The
floats that `getTextureWidth()` and `getTextureHeight()` return, which are the
two components of `renderer->lastFrameSize`, are the rationals they denote. -/
structure CaptureReplies where
  textureWidth : Rat
  textureHeight : Rat
  /-- The name `glGenFramebuffers` writes to `fbo`. -/
  framebuffer : Nat
  /-- The result of `renderer->getTexture()`. -/
  texture : Nat
  /-- The bytes `glReadPixels` writes, from the start of the buffer on. -/
  pixels : List UInt8
  deriving DecidableEq, Repr

/-- The conversion `(int)x` of a float in the range of `int`: the integer part
of `x`, rounded toward zero. -/
def integerPart (x : Rat) : Int := Int.tdiv x.num x.den

/-- What a call of `Video::captureRawFrame` leaves behind: the returned vector,
the contents of the two out-parameters and the calls made. -/
structure Captured where
  pixels : List UInt8
  outWidth : Int
  outHeight : Int
  calls : List Call
  deriving DecidableEq, Repr

/-- The method `Video::captureRawFrame(outWidth, outHeight)`, which reads and
writes no member of `Video`. -/
def Video.captureRawFrame (gl : CaptureReplies) : Except CaptureFault Captured :=
  -- outWidth = (int)getTextureWidth(); outHeight = (int)getTextureHeight();
  if integerPart gl.textureWidth < INT_MIN ∨ INT_MAX < integerPart gl.textureWidth then
    .error .castOutOfRange
  else if integerPart gl.textureHeight < INT_MIN ∨ INT_MAX < integerPart gl.textureHeight then
    .error .castOutOfRange
  else
    let outWidth := integerPart gl.textureWidth
    let outHeight := integerPart gl.textureHeight
    if outWidth = 0 ∨ outHeight = 0 then
      .ok { pixels := [], outWidth := outWidth, outHeight := outHeight, calls := [] }
    -- std::vector<uint8_t> pixels(outWidth * outHeight * 4);   (computed in `int`)
    else if outWidth * outHeight < INT_MIN ∨ INT_MAX < outWidth * outHeight then
      .error .signedOverflow
    else if outWidth * outHeight * 4 < INT_MIN ∨ INT_MAX < outWidth * outHeight * 4 then
      .error .signedOverflow
    else if outWidth * outHeight * 4 < 0 then
      .error .lengthError
    else
      .ok { pixels := resizeBytes gl.pixels (outWidth * outHeight * 4).toNat
            outWidth := outWidth
            outHeight := outHeight
            calls :=
              [ .glGenFramebuffers
              , .glBindFramebuffer gl.framebuffer
              , .glFramebufferTexture2D gl.texture
              , .glReadPixels outWidth outHeight
              , .glBindFramebuffer 0
              , .glDeleteFramebuffers gl.framebuffer ] }

/-- Replies for the examples: the last frame was 4 x 2, and `glReadPixels`
writes 32 bytes of value 255. -/
def captureReplies : CaptureReplies :=
  { textureWidth := 4
    textureHeight := 2
    framebuffer := 4
    texture := 9
    pixels := List.replicate 32 255 }

/-- Replies for the examples: no frame was uploaded yet, the last frame size
is 0 x 0. -/
def emptyCaptureReplies : CaptureReplies :=
  { textureWidth := 0
    textureHeight := 0
    framebuffer := 4
    texture := 9
    pixels := [] }

/-- Replies for the examples: the last frame was 32768 x 32768. -/
def hugeCaptureReplies : CaptureReplies :=
  { textureWidth := 32768
    textureHeight := 32768
    framebuffer := 4
    texture := 9
    pixels := [] }

/-! ## Index arithmetic -/

theorem succ_mod_eq {w c : Nat} (hw : w < c) :
    (w + 1) % c = if w + 1 < c then w + 1 else 0 := by
  split
  · exact Nat.mod_eq_of_lt ‹_›
  · have h : w + 1 = c := by omega
    rw [h, Nat.mod_self]

theorem pred_mod_eq {w c : Nat} (hw : w < c) :
    (w + c - 1) % c = if 0 < w then w - 1 else c - 1 := by
  split
  · have h : w + c - 1 = (w - 1) + c := by omega
    rw [h, Nat.add_mod_right]
    exact Nat.mod_eq_of_lt (by omega)
  · have h : w + c - 1 = c - 1 := by omega
    rw [h]
    exact Nat.mod_eq_of_lt (by omega)

theorem int_index_eq {w c i : Nat} (hw : w < c) (hi : i < c) :
    (((w : Int) - 1 - (i : Int)) % (c : Int)).toNat
      = if i < w then w - 1 - i else w + c - 1 - i := by
  split
  · have h : ((w : Int) - 1 - (i : Int)) % (c : Int) = (w : Int) - 1 - i := by
      apply Int.emod_eq_of_lt <;> omega
    rw [h]; omega
  · have h : ((w : Int) - 1 - (i : Int)) % (c : Int) = (w : Int) - 1 - i + c := by
      rw [← Int.add_emod_self]
      apply Int.emod_eq_of_lt <;> omega
    rw [h]; omega

/-! ## Single calls -/

open RewindBuffer

theorem push_accept {b : RewindBuffer} {data : List UInt8} (hb : Invariant b)
    (hd : data.length ≤ b.maxSize) : b.push data = .ok (true, pushed b data) := by
  obtain ⟨hc, hl, hw, _⟩ := hb
  have h1 : ¬ data.length > b.maxSize := by omega
  have h2 : b.writeIndex < b.slots.length := by omega
  have h3 : ¬ b.capacity = 0 := by omega
  simp only [push, h1, h2, h3, if_true, if_false, pushed]

theorem push_reject {b : RewindBuffer} {data : List UInt8}
    (hd : b.maxSize < data.length) : b.push data = .ok (false, b) := by
  simp [push, hd]

theorem pop_empty {b : RewindBuffer} (outData : List UInt8) (outSize : Nat)
    (hv : b.validCount = 0) :
    b.pop outData outSize
      = .ok { ok := false, buf := b, outData := outData, outSize := outSize } := by
  simp [pop, hv]

theorem readIndex_lt {b : RewindBuffer} (hb : Invariant b) : readIndex b < b.slots.length := by
  obtain ⟨hc, hl, hw, _⟩ := hb
  rw [hl]
  exact Nat.mod_lt _ (by omega)

theorem pop_success {b : RewindBuffer} {outData : List UInt8} (outSize : Nat) (hb : Invariant b)
    (hv : 0 < b.validCount)
    (ho : (b.slots.getD (readIndex b) []).length ≤ outData.length) :
    b.pop outData outSize
      = .ok { ok := true, buf := popped b
              outData := b.slots.getD (readIndex b) []
                ++ outData.drop (b.slots.getD (readIndex b) []).length
              outSize := (b.slots.getD (readIndex b) []).length } := by
  have hr := readIndex_lt hb
  obtain ⟨hc, hl, hw, _⟩ := hb
  have h1 : ¬ b.validCount = 0 := by omega
  have h3 : ¬ b.capacity = 0 := by omega
  have hg : b.slots[readIndex b]? = some (b.slots.getD (readIndex b) []) := by
    rw [List.getD_eq_getElem?_getD, List.getElem?_eq_getElem hr]; rfl
  unfold readIndex at hg ho
  simp only [pop, h1, h3, if_false, hg, ho, if_true, popped, readIndex]

/-! ## Preservation of the invariants -/

theorem inv_construct {c : Nat} (m : Nat) (hc : 1 ≤ c) : Invariant (construct c m) := by
  refine ⟨hc, ?_, ?_, ?_⟩
  · simp [construct]
  · show 0 < c
    omega
  · show 0 ≤ c
    omega

theorem inv_pushed {b : RewindBuffer} (data : List UInt8) (hb : Invariant b) :
    Invariant (pushed b data) := by
  obtain ⟨hc, hl, hw, hv⟩ := hb
  refine ⟨hc, ?_, ?_, ?_⟩
  · simpa [pushed] using hl
  · exact Nat.mod_lt _ (by omega)
  · show (if b.validCount < b.capacity then b.validCount + 1 else b.validCount) ≤ b.capacity
    split <;> omega

theorem inv_popped {b : RewindBuffer} (hb : Invariant b) : Invariant (popped b) := by
  obtain ⟨hc, hl, hw, hv⟩ := hb
  refine ⟨hc, hl, ?_, ?_⟩
  · exact Nat.mod_lt _ (by omega)
  · show b.validCount - 1 ≤ b.capacity
    omega

theorem inv_clear {b : RewindBuffer} (hb : Invariant b) : Invariant (clear b) := by
  obtain ⟨hc, hl, hw, hv⟩ := hb
  refine ⟨hc, ?_, ?_, ?_⟩
  · simpa [clear] using hl
  · show 0 < b.capacity
    omega
  · show 0 ≤ b.capacity
    omega

theorem push_cases {b b1 : RewindBuffer} {data : List UInt8} {r : Bool} (hb : Invariant b)
    (h : b.push data = .ok (r, b1)) :
    (r = false ∧ b1 = b ∧ b.maxSize < data.length)
      ∨ (r = true ∧ b1 = pushed b data ∧ data.length ≤ b.maxSize) := by
  by_cases hd : data.length ≤ b.maxSize
  · rw [push_accept hb hd] at h
    injection h with h
    injection h with h1 h2
    exact Or.inr ⟨h1.symm, h2.symm, hd⟩
  · rw [push_reject (by omega)] at h
    injection h with h
    injection h with h1 h2
    exact Or.inl ⟨h1.symm, h2.symm, by omega⟩

theorem pop_cases {b : RewindBuffer} {outData : List UInt8} {outSize : Nat} {res : PopResult}
    (h : b.pop outData outSize = .ok res) :
    (res.ok = false ∧ res.buf = b ∧ b.validCount = 0)
      ∨ (res.ok = true ∧ res.buf = popped b ∧ 0 < b.validCount) := by
  unfold pop at h
  split at h
  · injection h with h
    subst h
    exact Or.inl ⟨rfl, rfl, ‹_›⟩
  · split at h
    · exact absurd h (by simp)
    · dsimp only at h
      split at h
      · exact absurd h (by simp)
      · split at h
        · injection h with h
          subst h
          exact Or.inr ⟨rfl, rfl, by omega⟩
        · exact absurd h (by simp)

theorem bounded_pushed {b : RewindBuffer} {data : List UInt8} (hb : SlotsBounded b)
    (hd : data.length ≤ b.maxSize) : SlotsBounded (pushed b data) := by
  intro s hs
  rcases List.mem_or_eq_of_mem_set hs with h | h
  · exact hb s h
  · rw [h]; exact hd

theorem bounded_clear (b : RewindBuffer) : SlotsBounded (clear b) := by
  intro s hs
  simp only [clear, List.mem_map] at hs
  obtain ⟨_, _, rfl⟩ := hs
  exact Nat.zero_le _

theorem bounded_construct (c m : Nat) : SlotsBounded (construct c m) := by
  intro s hs
  rw [List.eq_of_mem_replicate hs]
  exact Nat.zero_le _

/-- What is known of every reachable state. -/
theorem reachable_facts {c m : Nat} {b : RewindBuffer} (hc : 1 ≤ c) (h : Reachable c m b) :
    Invariant b ∧ SlotsBounded b ∧ b.capacity = c ∧ b.maxSize = m := by
  induction h with
  | fresh => exact ⟨inv_construct m hc, bounded_construct c m, rfl, rfl⟩
  | push _ hp ih =>
    obtain ⟨hi, hs, h1, h2⟩ := ih
    rcases push_cases hi hp with ⟨_, rfl, _⟩ | ⟨_, rfl, hd⟩
    · exact ⟨hi, hs, h1, h2⟩
    · exact ⟨inv_pushed _ hi, bounded_pushed hs hd, h1, h2⟩
  | pop _ hp ih =>
    obtain ⟨hi, hs, h1, h2⟩ := ih
    rcases pop_cases hp with ⟨_, hb, _⟩ | ⟨_, hb, _⟩
    · rw [hb]; exact ⟨hi, hs, h1, h2⟩
    · rw [hb]; exact ⟨inv_popped hi, hs, h1, h2⟩
  | clear _ ih =>
    obtain ⟨hi, _, h1, h2⟩ := ih
    exact ⟨inv_clear hi, bounded_clear _, h1, h2⟩

/-! ## The abstraction under the single calls -/

theorem slotIndex_eq {b : RewindBuffer} {i : Nat} (hb : Invariant b) (hi : i < b.capacity) :
    slotIndex b i
      = if i < b.writeIndex then b.writeIndex - 1 - i
        else b.writeIndex + b.capacity - 1 - i :=
  int_index_eq hb.2.2.1 hi

theorem readIndex_eq {b : RewindBuffer} (hb : Invariant b) :
    readIndex b = if 0 < b.writeIndex then b.writeIndex - 1 else b.capacity - 1 :=
  pred_mod_eq hb.2.2.1

theorem slotIndex_zero {b : RewindBuffer} (hb : Invariant b) : slotIndex b 0 = readIndex b := by
  rw [slotIndex_eq hb hb.1, readIndex_eq hb]
  split <;> omega

theorem slotIndex_popped {b : RewindBuffer} {i : Nat} (hb : Invariant b)
    (hi : i + 1 < b.capacity) : slotIndex (popped b) i = slotIndex b (i + 1) := by
  have hp := inv_popped hb
  rw [slotIndex_eq hb hi, slotIndex_eq hp (show i < b.capacity by omega)]
  show (if i < readIndex b then readIndex b - 1 - i else readIndex b + b.capacity - 1 - i) = _
  rw [readIndex_eq hb]
  have hw := hb.2.2.1
  split_ifs <;> omega

theorem slotIndex_pushed_zero {b : RewindBuffer} (data : List UInt8) (hb : Invariant b) :
    slotIndex (pushed b data) 0 = b.writeIndex := by
  have hp := inv_pushed data hb
  rw [slotIndex_eq hp hb.1]
  show (if 0 < (b.writeIndex + 1) % b.capacity then (b.writeIndex + 1) % b.capacity - 1 - 0
    else (b.writeIndex + 1) % b.capacity + b.capacity - 1 - 0) = _
  have hw := hb.2.2.1
  rw [succ_mod_eq hw]
  split_ifs <;> omega

theorem slotIndex_pushed_succ {b : RewindBuffer} {i : Nat} (data : List UInt8)
    (hb : Invariant b) (hi : i + 1 < b.capacity) :
    slotIndex (pushed b data) (i + 1) = slotIndex b i := by
  have hp := inv_pushed data hb
  rw [slotIndex_eq hp hi, slotIndex_eq hb (show i < b.capacity by omega)]
  show (if i + 1 < (b.writeIndex + 1) % b.capacity
      then (b.writeIndex + 1) % b.capacity - 1 - (i + 1)
      else (b.writeIndex + 1) % b.capacity + b.capacity - 1 - (i + 1)) = _
  have hw := hb.2.2.1
  rw [succ_mod_eq hw]
  split_ifs <;> omega

theorem slotIndex_ne_writeIndex {b : RewindBuffer} {i : Nat} (hb : Invariant b)
    (hi : i + 1 < b.capacity) : b.writeIndex ≠ slotIndex b i := by
  rw [slotIndex_eq hb (show i < b.capacity by omega)]
  have hw := hb.2.2.1
  split_ifs <;> omega

theorem abs_length (b : RewindBuffer) : b.abs.length = b.validCount := by
  simp [RewindBuffer.abs]

theorem abs_of_validCount_zero {b : RewindBuffer} (hv : b.validCount = 0) : b.abs = [] := by
  simp [RewindBuffer.abs, hv]

theorem abs_clear (b : RewindBuffer) : (clear b).abs = [] :=
  abs_of_validCount_zero rfl

theorem abs_construct (c m : Nat) : (construct c m).abs = [] :=
  abs_of_validCount_zero rfl

/-- A successful `pop` takes the head off the represented stack; the head is
the slot that `pop` reads. -/
theorem abs_popped {b : RewindBuffer} (hb : Invariant b) (hv : 0 < b.validCount) :
    b.abs = b.slots.getD (readIndex b) [] :: (popped b).abs := by
  obtain ⟨v, hv1⟩ : ∃ v, b.validCount = v + 1 := ⟨b.validCount - 1, by omega⟩
  have hle := hb.2.2.2
  unfold RewindBuffer.abs
  have hpv : (popped b).validCount = v := by
    show b.validCount - 1 = v
    omega
  rw [hpv, hv1, List.range_succ_eq_map, List.map_cons, List.map_map, slotIndex_zero hb]
  congr 1
  apply List.map_congr_left
  intro i hi
  have hi1 : i < v := List.mem_range.mp hi
  show b.slots.getD (slotIndex b (i + 1)) [] = b.slots.getD (slotIndex (popped b) i) []
  rw [slotIndex_popped hb (by omega)]

/-- An accepted `push` puts the blob on the represented stack and drops what
no longer fits. -/
theorem abs_pushed {b : RewindBuffer} (data : List UInt8) (hb : Invariant b) :
    (pushed b data).abs = (data :: b.abs).take b.capacity := by
  obtain ⟨hc, hl, hw, hle⟩ := hb
  have hb : Invariant b := ⟨hc, hl, hw, hle⟩
  -- the number of older blobs that survive
  obtain ⟨k, hk, hkv, hkc⟩ : ∃ k, (pushed b data).validCount = k + 1 ∧ k ≤ b.validCount
      ∧ k + 1 = min b.capacity (b.validCount + 1) := by
    refine ⟨min b.capacity (b.validCount + 1) - 1, ?_, ?_, ?_⟩
    · show (if b.validCount < b.capacity then b.validCount + 1 else b.validCount) = _
      split <;> omega
    · omega
    · omega
  obtain ⟨c, hc1⟩ : ∃ c, b.capacity = c + 1 := ⟨b.capacity - 1, by omega⟩
  have head : (pushed b data).slots.getD (slotIndex (pushed b data) 0) [] = data := by
    rw [slotIndex_pushed_zero data hb, List.getD_eq_getElem?_getD]
    show (b.slots.set b.writeIndex data)[b.writeIndex]?.getD [] = data
    rw [List.getElem?_set_self (by omega)]
    rfl
  have tail : ∀ i ∈ List.range k,
      (pushed b data).slots.getD (slotIndex (pushed b data) (i + 1)) []
        = b.slots.getD (slotIndex b i) [] := by
    intro i hi
    have hi1 : i < k := List.mem_range.mp hi
    have hi2 : i + 1 < b.capacity := by omega
    rw [slotIndex_pushed_succ data hb hi2, List.getD_eq_getElem?_getD,
      List.getD_eq_getElem?_getD]
    show (b.slots.set b.writeIndex data)[slotIndex b i]?.getD [] = _
    rw [List.getElem?_set_ne (slotIndex_ne_writeIndex hb hi2)]
  have lhs : (pushed b data).abs
      = data :: (List.range k).map fun i => b.slots.getD (slotIndex b i) [] := by
    unfold RewindBuffer.abs
    rw [hk, List.range_succ_eq_map, List.map_cons, List.map_map, head]
    congr 1
    exact List.map_congr_left tail
  rw [lhs, hc1, List.take_succ_cons]
  congr 1
  unfold RewindBuffer.abs
  rw [← List.map_take, List.take_range]
  congr 2
  omega

/-! ## Sequences of calls -/

theorem take_append_take {α : Type} (c : Nat) (xs ys : List α) :
    (xs ++ ys.take c).take c = (xs ++ ys).take c := by
  rw [List.take_append_eq_append_take, List.take_append_eq_append_take, List.take_take]
  congr 2
  omega

/-- Pushing blobs that fit, one after the other: every call returns true, and
the represented stack receives them in order, cut to the capacity. -/
theorem pushAll_spec (ss : List (List UInt8)) :
    ∀ b : RewindBuffer, Invariant b → SlotsBounded b → (∀ s ∈ ss, s.length ≤ b.maxSize) →
      ∃ b1, pushAll b ss = .ok (List.replicate ss.length true, b1)
        ∧ Invariant b1 ∧ SlotsBounded b1
        ∧ b1.capacity = b.capacity ∧ b1.maxSize = b.maxSize
        ∧ b1.abs = (ss.reverse ++ b.abs).take b.capacity := by
  induction ss with
  | nil =>
    intro b hb hs _
    refine ⟨b, rfl, hb, hs, rfl, rfl, ?_⟩
    rw [List.reverse_nil, List.nil_append, List.take_of_length_le]
    rw [abs_length]
    exact hb.2.2.2
  | cons d ds ih =>
    intro b hb hs hfit
    have hd : d.length ≤ b.maxSize := hfit d (List.mem_cons_self _ _)
    have hfit1 : ∀ s ∈ ds, s.length ≤ (pushed b d).maxSize :=
      fun s h => hfit s (List.mem_cons_of_mem _ h)
    obtain ⟨b1, h1, hb1, hs1, hc1, hm1, ha1⟩ :=
      ih (pushed b d) (inv_pushed d hb) (bounded_pushed hs hd) hfit1
    refine ⟨b1, ?_, hb1, hs1, hc1, hm1, ?_⟩
    · simp only [pushAll, push_accept hb hd, h1, List.length_cons, List.replicate_succ]
    · rw [ha1, abs_pushed d hb]
      show ((ds.reverse ++ (d :: b.abs).take b.capacity).take b.capacity) = _
      rw [take_append_take, List.reverse_cons, List.append_assoc]
      rfl

/-- Popping into a buffer that can hold the blobs to be returned: the calls
return the represented stack from its head, and fail once it is used up. -/
theorem popMany_spec (n : Nat) :
    ∀ s : Session, Invariant s.buf →
      (∀ x ∈ s.buf.abs.take n, x.length ≤ s.outData.length) →
      ∃ s1, popMany n s
          = .ok ((s.buf.abs.take n).map returned
              ++ List.replicate (n - s.buf.abs.length) none, s1)
        ∧ Invariant s1.buf ∧ s1.buf.slots = s.buf.slots
        ∧ s1.buf.capacity = s.buf.capacity ∧ s1.buf.maxSize = s.buf.maxSize
        ∧ s1.outData.length = s.outData.length
        ∧ s1.buf.abs = s.buf.abs.drop n := by
  induction n with
  | zero =>
    intro s hb _
    exact ⟨s, by simp [popMany], hb, rfl, rfl, rfl, rfl, rfl⟩
  | succ n ih =>
    intro s hb ho
    by_cases hv : s.buf.validCount = 0
    · have ha : s.buf.abs = [] := abs_of_validCount_zero hv
      obtain ⟨s1, h1, hb1, hs1, hc1, hm1, ho1, ha1⟩ := ih s hb (by simp [ha])
      refine ⟨s1, ?_, hb1, hs1, hc1, hm1, ho1, ?_⟩
      · simp only [popMany, pop_empty s.outData s.outSize hv, h1, ha, PopResult.observed]
        simp [List.replicate_succ]
      · rw [ha1, ha, List.drop_nil, List.drop_nil]
    · have hv1 : 0 < s.buf.validCount := Nat.pos_of_ne_zero hv
      have ha := abs_popped hb hv1
      rw [ha] at ho
      have hfit : (s.buf.slots.getD (readIndex s.buf) []).length ≤ s.outData.length :=
        ho _ (by simp)
      have hlen : (s.buf.slots.getD (readIndex s.buf) []
          ++ s.outData.drop (s.buf.slots.getD (readIndex s.buf) []).length).length
            = s.outData.length := by
        rw [List.length_append, List.length_drop]
        omega
      obtain ⟨s1, h1, hb1, hs1, hc1, hm1, ho1, ha1⟩ :=
        ih { buf := popped s.buf
             outData := s.buf.slots.getD (readIndex s.buf) []
               ++ s.outData.drop (s.buf.slots.getD (readIndex s.buf) []).length
             outSize := (s.buf.slots.getD (readIndex s.buf) []).length }
          (inv_popped hb) (by
            intro x hx
            show x.length ≤ List.length _
            rw [hlen]
            exact ho x (by rw [List.take_succ_cons]; exact List.mem_cons_of_mem _ hx))
      refine ⟨s1, ?_, hb1, hs1, hc1, hm1, ?_, ?_⟩
      · simp only [popMany, pop_success s.outSize hb hv1 hfit, h1, PopResult.observed]
        rw [ha]
        simp [returned, List.take_left']
      · rw [ho1, hlen]
      · rw [ha1, ha]
        simp only [List.drop_succ_cons]

theorem take_length_take_reverse_append {α : Type} {c : Nat} (ss xs : List α)
    (hn : ss.length ≤ c) : ((ss.reverse ++ xs).take c).take ss.length = ss.reverse := by
  rw [List.take_take, Nat.min_eq_left hn]
  exact List.take_left' (List.length_reverse ss)

theorem length_le_take_reverse_append {α : Type} {c : Nat} (ss xs : List α)
    (hn : ss.length ≤ c) : ss.length ≤ ((ss.reverse ++ xs).take c).length := by
  rw [List.length_take, List.length_append, List.length_reverse]
  omega

/-! ## The laws of the rewind buffer -/

/-- C1, the rewind LIFO law: from any state reachable from a buffer constructed
with at least one slot, pushing `N <= capacity` blobs that fit `maxStateSize`
and then popping `N` times makes every push return true and every pop succeed,
the pops showing the blobs and their sizes in reverse order of pushing.  The
output buffer is assumed able to hold each of the blobs. -/
theorem rewind_lifo (c m : Nat) (b : RewindBuffer) (ss : List (List UInt8))
    (outData : List UInt8) (outSize : Nat)
    (hc : 1 ≤ c) (hr : Reachable c m b) (hn : ss.length ≤ c)
    (hfit : ∀ s ∈ ss, s.length ≤ m) (ho : ∀ s ∈ ss, s.length ≤ outData.length) :
    ∃ b1 s2, pushAll b ss = .ok (List.replicate ss.length true, b1)
      ∧ popMany ss.length { buf := b1, outData := outData, outSize := outSize }
          = .ok (ss.reverse.map returned, s2) := by
  obtain ⟨hb, hs, hcap, hmax⟩ := reachable_facts hc hr
  obtain ⟨b1, h1, hb1, _, _, _, ha1⟩ := pushAll_spec ss b hb hs (by rw [hmax]; exact hfit)
  have hn1 : ss.length ≤ b.capacity := by omega
  have htake : b1.abs.take ss.length = ss.reverse := by
    rw [ha1]; exact take_length_take_reverse_append ss b.abs hn1
  have hlen : ss.length ≤ b1.abs.length := by
    rw [ha1]; exact length_le_take_reverse_append ss b.abs hn1
  obtain ⟨s2, h2, _⟩ := popMany_spec ss.length
    { buf := b1, outData := outData, outSize := outSize } hb1 (by
      intro x hx
      rw [htake] at hx
      exact ho x (List.mem_reverse.mp hx))
  refine ⟨b1, s2, h1, ?_⟩
  rw [h2, htake, Nat.sub_eq_zero_of_le hlen]
  simp

/-- C1 at a concrete input: a two-slot buffer that already went through a push
and a pop receives two blobs and gives them back newest first. -/
theorem rewind_lifo_witness :
    ∃ b1 s2,
      pushAll (popped (pushed (construct 2 4) [9])) [[1, 2], [3]] = .ok ([true, true], b1)
      ∧ popMany 2 { buf := b1, outData := [0, 0, 0, 0], outSize := 0 }
          = .ok ([some (1, [3]), some (2, [1, 2])], s2) :=
  rewind_lifo 2 4 (popped (pushed (construct 2 4) [9])) [[1, 2], [3]] [0, 0, 0, 0] 0
    (by decide)
    (@Reachable.pop 2 4 (pushed (construct 2 4) [9]) [0, 0, 0, 0] 0
      { ok := true, buf := popped (pushed (construct 2 4) [9])
        outData := [9, 0, 0, 0], outSize := 1 }
      (@Reachable.push 2 4 (construct 2 4) (pushed (construct 2 4) [9]) [9] true
        Reachable.fresh rfl) rfl)
    (by decide) (by decide) (by decide)

/-- C2, the rewind capacity law: pushing `c + K` blobs (`K > 0`) that fit
`maxStateSize` into a freshly constructed buffer with `c >= 1` slots makes every
push return true; the next `c` pops show the last `c` blobs, newest first, and
every further pop fails, so that the first `K` blobs are never shown.  The
output buffer is assumed able to hold each of the blobs. -/
theorem rewind_capacity (c m K extra : Nat) (ss : List (List UInt8))
    (outData : List UInt8) (outSize : Nat)
    (hc : 1 ≤ c) (hK : 0 < K) (hlen : ss.length = c + K)
    (hfit : ∀ s ∈ ss, s.length ≤ m) (ho : ∀ s ∈ ss, s.length ≤ outData.length) :
    ∃ b1 s2, pushAll (construct c m) ss = .ok (List.replicate (c + K) true, b1)
      ∧ popMany (c + extra) { buf := b1, outData := outData, outSize := outSize }
          = .ok ((ss.drop K).reverse.map returned ++ List.replicate extra none, s2) := by
  obtain ⟨b1, h1, hb1, _, _, _, ha1⟩ :=
    pushAll_spec ss (construct c m) (inv_construct m hc) (bounded_construct c m) hfit
  have ha : b1.abs = (ss.drop K).reverse := by
    rw [ha1, abs_construct, List.append_nil]
    show ss.reverse.take c = _
    rw [List.take_reverse]
    congr 2
    omega
  have hl : b1.abs.length = c := by
    rw [ha, List.length_reverse, List.length_drop]
    omega
  obtain ⟨s2, h2, _⟩ := popMany_spec (c + extra)
    { buf := b1, outData := outData, outSize := outSize } hb1 (by
      intro x hx
      have hx1 : x ∈ b1.abs := List.mem_of_mem_take hx
      rw [ha] at hx1
      exact ho x (List.mem_of_mem_drop (List.mem_reverse.mp hx1)))
  refine ⟨b1, s2, ?_, ?_⟩
  · rw [h1, hlen]
  · have h3 : popMany (c + extra) { buf := b1, outData := outData, outSize := outSize }
        = .ok ((b1.abs.take (c + extra)).map returned
            ++ List.replicate (c + extra - b1.abs.length) none, s2) := h2
    rw [h3, List.take_of_length_le (by omega), hl, ha, Nat.add_sub_cancel_left]

set_option maxRecDepth 100000 in
/-- C2 at the scenario of the specification: three slots of at most 1024 bytes
receive A (100 bytes), B (200), C (300) and D (400).  The three pops that follow
show D, C and B and the fourth fails; D went into the slot that held A. -/
theorem rewind_capacity_witness :
    (∃ b1 s2,
      pushAll (construct 3 1024) [stateA, stateB, stateC, stateD]
        = .ok ([true, true, true, true], b1)
      ∧ popMany 4 { buf := b1, outData := List.replicate 1024 0, outSize := 0 }
          = .ok ([returned stateD, returned stateC, returned stateB, none], s2))
    ∧ (∃ b3 b4, pushAll (construct 3 1024) [stateA, stateB, stateC]
          = .ok ([true, true, true], b3)
        ∧ b3.slots[b3.writeIndex]? = some stateA
        ∧ b3.push stateD = .ok (true, b4)
        ∧ b4.slots[b3.writeIndex]? = some stateD
        ∧ pushAll (construct 3 1024) [stateA, stateB, stateC, stateD]
          = .ok ([true, true, true, true], b4)) :=
  ⟨rewind_capacity 3 1024 1 1 [stateA, stateB, stateC, stateD] (List.replicate 1024 0) 0
      (by decide) (by decide) rfl
      (by simp [stateA, stateB, stateC, stateD])
      (by simp [stateA, stateB, stateC, stateD]),
    ⟨_, _, rfl, rfl, rfl, rfl, rfl⟩⟩

/-- C3, a push after pops discards the redo history: a fresh buffer with
`c >= 1` slots receives `S1..Sn` (`n <= c`), is popped `k` times
(`1 <= k <= n`) and receives `T`.  The `k` pops show `Sn .. S(n-k+1)`, the
push of `T` returns true and stores `T` in the slot the last pop read, the next
`n - k + 1` pops show `T, S(n-k), .., S1`, and every further pop fails.  All
blobs are assumed to fit `maxStateSize` and the output buffer. -/
theorem push_after_pop_discards_redo (c m k extra : Nat) (ss : List (List UInt8))
    (t : List UInt8) (outData : List UInt8) (outSize : Nat)
    (hc : 1 ≤ c) (hn : ss.length ≤ c) (hk1 : 1 ≤ k) (hk : k ≤ ss.length)
    (hfit : ∀ s ∈ ss, s.length ≤ m) (ht : t.length ≤ m)
    (ho : ∀ s ∈ ss, s.length ≤ outData.length) (hto : t.length ≤ outData.length) :
    ∃ b1 obs s2 res b3 s4,
      pushAll (construct c m) ss = .ok (List.replicate ss.length true, b1)
      ∧ popMany (k - 1) { buf := b1, outData := outData, outSize := outSize } = .ok (obs, s2)
      ∧ s2.buf.pop s2.outData s2.outSize = .ok res
      ∧ obs ++ [res.observed] = (ss.drop (ss.length - k)).reverse.map returned
      ∧ res.buf.push t = .ok (true, b3)
      ∧ b3.slots[(s2.buf.writeIndex + s2.buf.capacity - 1) % s2.buf.capacity]? = some t
      ∧ popMany (ss.length - k + 1 + extra)
            { buf := b3, outData := res.outData, outSize := res.outSize }
          = .ok (returned t :: (ss.take (ss.length - k)).reverse.map returned
              ++ List.replicate extra none, s4) := by
  -- the pushes
  obtain ⟨b1, h1, hb1, _, hc1, hm1, ha1⟩ :=
    pushAll_spec ss (construct c m) (inv_construct m hc) (bounded_construct c m) hfit
  have ha : b1.abs = ss.reverse := by
    rw [ha1, abs_construct, List.append_nil]
    exact List.take_of_length_le (by rw [List.length_reverse]; exact hn)
  -- the first k - 1 pops
  have hmem : ∀ x ∈ ss.reverse, x.length ≤ outData.length :=
    fun x hx => ho x (List.mem_reverse.mp hx)
  obtain ⟨s2, h2, hb2, _, hc2, hm2, ho2, ha2⟩ := popMany_spec (k - 1)
    { buf := b1, outData := outData, outSize := outSize } hb1 (by
      intro x hx
      have hx1 : x ∈ b1.abs := List.mem_of_mem_take hx
      rw [ha] at hx1
      exact hmem x hx1)
  have h2a : popMany (k - 1) { buf := b1, outData := outData, outSize := outSize }
      = .ok ((ss.reverse.take (k - 1)).map returned, s2) := by
    have h3 : popMany (k - 1) { buf := b1, outData := outData, outSize := outSize }
        = .ok ((b1.abs.take (k - 1)).map returned
            ++ List.replicate (k - 1 - b1.abs.length) none, s2) := h2
    rw [h3, ha, List.length_reverse, Nat.sub_eq_zero_of_le (show k - 1 ≤ ss.length by omega)]
    simp
  have ha2 : s2.buf.abs = ss.reverse.drop (k - 1) := by
    rw [ha2]
    show b1.abs.drop (k - 1) = _
    rw [ha]
  -- the k-th pop
  have hv2 : 0 < s2.buf.validCount := by
    rw [← abs_length, ha2, List.length_drop, List.length_reverse]
    omega
  have hp := abs_popped hb2 hv2
  have hslot : s2.buf.slots.getD (readIndex s2.buf) [] ∈ ss.reverse := by
    apply List.mem_of_mem_drop
    rw [← ha2, hp]
    exact List.mem_cons_self _ _
  have hfit2 : (s2.buf.slots.getD (readIndex s2.buf) []).length ≤ s2.outData.length := by
    rw [ho2]
    exact hmem _ hslot
  have h3 := pop_success s2.outSize hb2 hv2 hfit2
  have hpa : (popped s2.buf).abs = ss.reverse.drop k := by
    have h4 : (s2.buf.abs).drop 1 = (popped s2.buf).abs := by rw [hp]; rfl
    rw [← h4, ha2, List.drop_drop]
    congr 1
    omega
  -- the push of T
  have hb3 := inv_popped hb2
  have hmax : (popped s2.buf).maxSize = m := by
    show s2.buf.maxSize = m
    rw [hm2]
    exact hm1
  have h5 := push_accept hb3 (show t.length ≤ (popped s2.buf).maxSize by rw [hmax]; exact ht)
  have hcap : (popped s2.buf).capacity = c := by
    show s2.buf.capacity = c
    rw [hc2]
    exact hc1
  have ha3 : (pushed (popped s2.buf) t).abs = t :: ss.reverse.drop k := by
    rw [abs_pushed t hb3, hcap, hpa]
    apply List.take_of_length_le
    rw [List.length_cons, List.length_drop, List.length_reverse]
    omega
  have hstore : (pushed (popped s2.buf) t).slots[readIndex s2.buf]? = some t :=
    List.getElem?_set_self (readIndex_lt hb2)
  -- the pops after the push
  have hlen : (s2.buf.slots.getD (readIndex s2.buf) []
      ++ s2.outData.drop (s2.buf.slots.getD (readIndex s2.buf) []).length).length
        = outData.length := by
    rw [List.length_append, List.length_drop]
    have : s2.outData.length = outData.length := ho2
    omega
  obtain ⟨s4, h6, _⟩ := popMany_spec (ss.length - k + 1 + extra)
    { buf := pushed (popped s2.buf) t
      outData := s2.buf.slots.getD (readIndex s2.buf) []
        ++ s2.outData.drop (s2.buf.slots.getD (readIndex s2.buf) []).length
      outSize := (s2.buf.slots.getD (readIndex s2.buf) []).length }
    (inv_pushed t hb3) (by
      intro x hx
      have hx1 : x ∈ (pushed (popped s2.buf) t).abs := List.mem_of_mem_take hx
      show x.length ≤ List.length _
      rw [hlen]
      rw [ha3] at hx1
      rcases List.mem_cons.mp hx1 with rfl | hx2
      · exact hto
      · exact hmem x (List.mem_of_mem_drop hx2))
  have h6a : popMany (ss.length - k + 1 + extra)
      { buf := pushed (popped s2.buf) t
        outData := s2.buf.slots.getD (readIndex s2.buf) []
          ++ s2.outData.drop (s2.buf.slots.getD (readIndex s2.buf) []).length
        outSize := (s2.buf.slots.getD (readIndex s2.buf) []).length }
      = .ok (((pushed (popped s2.buf) t).abs.take (ss.length - k + 1 + extra)).map returned
          ++ List.replicate (ss.length - k + 1 + extra - (pushed (popped s2.buf) t).abs.length)
            none, s4) := h6
  have hl3 : (t :: ss.reverse.drop k).length = ss.length - k + 1 := by
    rw [List.length_cons, List.length_drop, List.length_reverse]
  refine ⟨b1, _, s2, _, _, s4, h1, h2a, h3, ?_, h5, hstore, ?_⟩
  · have hobs : PopResult.observed
        { ok := true, buf := popped s2.buf
          outData := s2.buf.slots.getD (readIndex s2.buf) []
            ++ s2.outData.drop (s2.buf.slots.getD (readIndex s2.buf) []).length
          outSize := (s2.buf.slots.getD (readIndex s2.buf) []).length }
        = returned (s2.buf.slots.getD (readIndex s2.buf) []) := by
      simp [PopResult.observed, returned, List.take_left']
    rw [hobs, List.reverse_drop, show ss.length - (ss.length - k) = (k - 1) + 1 by omega,
      List.take_add, List.map_append, ← ha2, hp]
    rfl
  · rw [h6a, ha3, List.take_of_length_le (by rw [hl3]; omega), hl3, List.drop_reverse]
    simp

/-- C3 at a concrete input: three slots receive `S1, S2, S3`, two pops show `S3`
and `S2`, then `T` is pushed into the slot that held `S2`; the pops that follow
show `T` and `S1`, and the next one fails. -/
theorem push_after_pop_discards_redo_witness :
    ∃ b1 obs s2 res b3 s4,
      pushAll (construct 3 4) [[1], [2, 2], [3, 3, 3]] = .ok ([true, true, true], b1)
      ∧ popMany 1 { buf := b1, outData := [0, 0, 0, 0], outSize := 0 } = .ok (obs, s2)
      ∧ s2.buf.pop s2.outData s2.outSize = .ok res
      ∧ obs ++ [res.observed] = [returned [3, 3, 3], returned [2, 2]]
      ∧ res.buf.push [7] = .ok (true, b3)
      ∧ b3.slots[(s2.buf.writeIndex + s2.buf.capacity - 1) % s2.buf.capacity]? = some [7]
      ∧ popMany 3 { buf := b3, outData := res.outData, outSize := res.outSize }
          = .ok ([returned [7], returned [1], none], s4) :=
  push_after_pop_discards_redo 3 4 2 1 [[1], [2, 2], [3, 3, 3]] [7] [0, 0, 0, 0] 0
    (by decide) (by decide) (by decide) (by decide) (by decide) (by decide) (by decide)
    (by decide)

/-- C4, the ring refines a capacity-bounded stack: in every state reachable
from a fresh buffer with `c >= 1` slots, `push` returns, succeeds exactly on
data that fits `maxStateSize`, and a successful push turns the represented
stack `abs b` into `take c (data :: abs b)`; `pop` (into a buffer that can hold
the head blob) returns, fails exactly when `abs b` is empty, and otherwise
shows the head of `abs b` and leaves its tail; `clear` leaves the empty
stack. -/
theorem ring_refines_bounded_stack (c m : Nat) (b : RewindBuffer)
    (hc : 1 ≤ c) (hr : Reachable c m b) :
    (∀ data : List UInt8, ∃ r b1, b.push data = .ok (r, b1)
        ∧ (r = true ↔ data.length ≤ m)
        ∧ (r = true → b1.abs = (data :: b.abs).take c))
    ∧ (∀ (outData : List UInt8) (outSize : Nat),
        (∀ x ∈ b.abs.head?, x.length ≤ outData.length) →
        ∃ res, b.pop outData outSize = .ok res
          ∧ (res.ok = false ↔ b.abs = [])
          ∧ (res.ok = true →
              b.abs.head? = some (res.outData.take res.outSize)
              ∧ res.buf.abs = b.abs.tail))
    ∧ (clear b).abs = [] := by
  obtain ⟨hb, _, hcap, hmax⟩ := reachable_facts hc hr
  refine ⟨?_, ?_, abs_clear b⟩
  · intro data
    by_cases hd : data.length ≤ m
    · refine ⟨true, pushed b data, push_accept hb (by rw [hmax]; exact hd), by simp [hd], ?_⟩
      intro _
      rw [abs_pushed data hb, hcap]
    · refine ⟨false, b, push_reject (by rw [hmax]; omega), by simp [hd], ?_⟩
      intro h
      exact absurd h (by simp)
  · intro outData outSize ho
    by_cases hv : b.validCount = 0
    · refine ⟨_, pop_empty outData outSize hv, ?_, ?_⟩
      · simp [abs_of_validCount_zero hv]
      · intro h
        exact absurd h (by simp)
    · have hv1 : 0 < b.validCount := Nat.pos_of_ne_zero hv
      have ha := abs_popped hb hv1
      have hfit : (b.slots.getD (readIndex b) []).length ≤ outData.length :=
        ho _ (by rw [ha]; rfl)
      refine ⟨_, pop_success outSize hb hv1 hfit, ?_, ?_⟩
      · rw [ha]
        simp
      · intro _
        rw [ha]
        simp [List.take_left']

/-- C4 at a concrete state: a two-slot buffer holding one blob. -/
theorem ring_refines_bounded_stack_witness :
    (∀ data : List UInt8, ∃ r b1, (pushed (construct 2 4) [5]).push data = .ok (r, b1)
        ∧ (r = true ↔ data.length ≤ 4)
        ∧ (r = true → b1.abs = (data :: (pushed (construct 2 4) [5]).abs).take 2))
    ∧ (∀ (outData : List UInt8) (outSize : Nat),
        (∀ x ∈ (pushed (construct 2 4) [5]).abs.head?, x.length ≤ outData.length) →
        ∃ res, (pushed (construct 2 4) [5]).pop outData outSize = .ok res
          ∧ (res.ok = false ↔ (pushed (construct 2 4) [5]).abs = [])
          ∧ (res.ok = true →
              (pushed (construct 2 4) [5]).abs.head? = some (res.outData.take res.outSize)
              ∧ res.buf.abs = (pushed (construct 2 4) [5]).abs.tail))
    ∧ (clear (pushed (construct 2 4) [5])).abs = [] :=
  ring_refines_bounded_stack 2 4 (pushed (construct 2 4) [5]) (by decide)
    (@Reachable.push 2 4 (construct 2 4) (pushed (construct 2 4) [5]) [5] true
      Reachable.fresh rfl)

/-- C5, the rewind state invariant: every state reachable from a buffer
constructed with `slotCount >= 1` by `push`, `pop` and `clear` calls, whatever
they returned, has `0 <= validCount <= capacity`, `0 <= writeIndex < capacity`
and as many slots as `capacity`, which is still `slotCount`. -/
theorem rewind_state_invariant (slotCount maxStateSize : Nat) (b : RewindBuffer)
    (hc : 1 ≤ slotCount) (hr : Reachable slotCount maxStateSize b) :
    (0 ≤ b.validCount ∧ b.validCount ≤ b.capacity)
    ∧ (0 ≤ b.writeIndex ∧ b.writeIndex < b.capacity)
    ∧ b.slots.length = b.capacity ∧ b.capacity = slotCount := by
  obtain ⟨⟨_, hl, hw, hv⟩, _, hcap, _⟩ := reachable_facts hc hr
  exact ⟨⟨Nat.zero_le _, hv⟩, ⟨Nat.zero_le _, hw⟩, hl, hcap⟩

/-- C5 at a concrete state: a two-slot buffer after one accepted and one
rejected push. -/
theorem rewind_state_invariant_witness :
    (0 ≤ (pushed (construct 2 1) [5]).validCount
      ∧ (pushed (construct 2 1) [5]).validCount ≤ (pushed (construct 2 1) [5]).capacity)
    ∧ (0 ≤ (pushed (construct 2 1) [5]).writeIndex
      ∧ (pushed (construct 2 1) [5]).writeIndex < (pushed (construct 2 1) [5]).capacity)
    ∧ (pushed (construct 2 1) [5]).slots.length = (pushed (construct 2 1) [5]).capacity
    ∧ (pushed (construct 2 1) [5]).capacity = 2 :=
  rewind_state_invariant 2 1 (pushed (construct 2 1) [5]) (by decide)
    (@Reachable.push 2 1 (pushed (construct 2 1) [5]) (pushed (construct 2 1) [5]) [6, 7] false
      (@Reachable.push 2 1 (construct 2 1) (pushed (construct 2 1) [5]) [5] true
        Reachable.fresh rfl) rfl)

/-- C6, the rewind oversize law: in every buffer state, `push` of data longer
than `maxStateSize` returns false and leaves the whole buffer (`validCount`,
`writeIndex`, every slot) as it was. -/
theorem push_oversize_rejected (b : RewindBuffer) (data : List UInt8)
    (h : b.maxSize < data.length) : b.push data = .ok (false, b) :=
  push_reject h

/-- C6 at a concrete input: two bytes offered to a buffer of one-byte states that
already holds a blob. -/
theorem push_oversize_rejected_witness :
    (pushed (construct 2 1) [5]).maxSize < [6, 7].length
    ∧ (pushed (construct 2 1) [5]).push [6, 7] = .ok (false, pushed (construct 2 1) [5]) :=
  ⟨by decide, push_oversize_rejected (pushed (construct 2 1) [5]) [6, 7] (by decide)⟩

/-- C7, the rewind empty law: `pop` on a freshly constructed buffer and on a
buffer that was just cleared returns false, leaves the output buffer and the
output size as they were, and leaves the buffer as it was, with
`validCount == 0`. -/
theorem pop_on_empty_fails (slotCount maxStateSize : Nat) (b : RewindBuffer)
    (outData : List UInt8) (outSize : Nat) :
    (construct slotCount maxStateSize).pop outData outSize
        = .ok { ok := false, buf := construct slotCount maxStateSize
                outData := outData, outSize := outSize }
    ∧ (construct slotCount maxStateSize).validCount = 0
    ∧ (clear b).pop outData outSize
        = .ok { ok := false, buf := clear b, outData := outData, outSize := outSize }
    ∧ (clear b).validCount = 0 :=
  ⟨pop_empty outData outSize rfl, rfl, pop_empty outData outSize rfl, rfl⟩

/-- C8, the push postcondition: in every state satisfying the invariant, `push`
of data of size at most `maxStateSize` (size zero and size `maxStateSize`
included) returns true; the slot at the old `writeIndex` then holds exactly the
given bytes, the new `writeIndex` is `(writeIndex + 1) mod capacity`, and the
new `validCount` is the old one plus one below capacity and the old one, which
is the capacity, otherwise. -/
theorem push_postcondition (b : RewindBuffer) (data : List UInt8)
    (hb : Invariant b) (hd : data.length ≤ b.maxSize) :
    ∃ b1, b.push data = .ok (true, b1)
      ∧ b1.slots[b.writeIndex]? = some data
      ∧ b1.writeIndex = (b.writeIndex + 1) % b.capacity
      ∧ (b.validCount < b.capacity → b1.validCount = b.validCount + 1)
      ∧ (¬ b.validCount < b.capacity →
          b1.validCount = b.validCount ∧ b.validCount = b.capacity) := by
  have hw : b.writeIndex < b.slots.length := by
    rw [hb.2.1]
    exact hb.2.2.1
  refine ⟨pushed b data, push_accept hb hd, List.getElem?_set_self hw, rfl, ?_, ?_⟩
  · intro h
    show (if b.validCount < b.capacity then b.validCount + 1 else b.validCount) = _
    rw [if_pos h]
  · intro h
    refine ⟨?_, ?_⟩
    · show (if b.validCount < b.capacity then b.validCount + 1 else b.validCount) = _
      rw [if_neg h]
    · have := hb.2.2.2
      omega

/-- C8 at a concrete input: a full one-slot buffer receives a blob of exactly
`maxStateSize` bytes. -/
theorem push_postcondition_witness :
    ∃ b1, (pushed (construct 1 2) []).push [8, 9] = .ok (true, b1)
      ∧ b1.slots[(pushed (construct 1 2) []).writeIndex]? = some [8, 9]
      ∧ b1.writeIndex
          = ((pushed (construct 1 2) []).writeIndex + 1) % (pushed (construct 1 2) []).capacity
      ∧ ((pushed (construct 1 2) []).validCount < (pushed (construct 1 2) []).capacity →
          b1.validCount = (pushed (construct 1 2) []).validCount + 1)
      ∧ (¬ (pushed (construct 1 2) []).validCount < (pushed (construct 1 2) []).capacity →
          b1.validCount = (pushed (construct 1 2) []).validCount
          ∧ (pushed (construct 1 2) []).validCount = (pushed (construct 1 2) []).capacity) :=
  push_postcondition (pushed (construct 1 2) []) [8, 9] (by decide) (by decide)

/-- C9, the pop postcondition: in every state satisfying the invariant, `pop`
into a buffer that can hold the slot to be read returns; it returns false
exactly when `validCount == 0`; with `validCount > 0` it returns true, the new
`writeIndex` is `readIndex = (writeIndex + capacity - 1) mod capacity`, the new
`validCount` is the old one minus one, `outSize` is the length of slot
`readIndex` and the first `outSize` bytes of the output are that slot. -/
theorem pop_postcondition (b : RewindBuffer) (outData : List UInt8) (outSize : Nat)
    (hb : Invariant b)
    (ho : 0 < b.validCount →
      (b.slots.getD ((b.writeIndex + b.capacity - 1) % b.capacity) []).length
        ≤ outData.length) :
    ∃ res, b.pop outData outSize = .ok res
      ∧ (res.ok = false ↔ b.validCount = 0)
      ∧ (0 < b.validCount →
          res.ok = true
          ∧ res.buf.writeIndex = (b.writeIndex + b.capacity - 1) % b.capacity
          ∧ res.buf.validCount = b.validCount - 1
          ∧ ∃ slot, b.slots[(b.writeIndex + b.capacity - 1) % b.capacity]? = some slot
              ∧ res.outSize = slot.length
              ∧ res.outData.take res.outSize = slot) := by
  by_cases hv : b.validCount = 0
  · refine ⟨_, pop_empty outData outSize hv, by simp [hv], ?_⟩
    intro h
    omega
  · have hv1 : 0 < b.validCount := Nat.pos_of_ne_zero hv
    have hr : readIndex b < b.slots.length := readIndex_lt hb
    have hg : b.slots[readIndex b]? = some (b.slots.getD (readIndex b) []) := by
      rw [List.getD_eq_getElem?_getD, List.getElem?_eq_getElem hr]
      rfl
    refine ⟨_, pop_success outSize hb hv1 (ho hv1), by simp [hv], ?_⟩
    intro _
    exact ⟨rfl, rfl, rfl, _, hg, rfl, List.take_left _ _⟩

/-- C9 at a concrete input: a three-slot buffer holding one blob gives it back. -/
theorem pop_postcondition_witness :
    ∃ res, (pushed (construct 3 2) [8, 9]).pop [0, 0] 0 = .ok res
      ∧ (res.ok = false ↔ (pushed (construct 3 2) [8, 9]).validCount = 0)
      ∧ (0 < (pushed (construct 3 2) [8, 9]).validCount →
          res.ok = true
          ∧ res.buf.writeIndex = ((pushed (construct 3 2) [8, 9]).writeIndex
              + (pushed (construct 3 2) [8, 9]).capacity - 1)
                % (pushed (construct 3 2) [8, 9]).capacity
          ∧ res.buf.validCount = (pushed (construct 3 2) [8, 9]).validCount - 1
          ∧ ∃ slot, (pushed (construct 3 2) [8, 9]).slots[
                ((pushed (construct 3 2) [8, 9]).writeIndex
                  + (pushed (construct 3 2) [8, 9]).capacity - 1)
                    % (pushed (construct 3 2) [8, 9]).capacity]? = some slot
              ∧ res.outSize = slot.length
              ∧ res.outData.take res.outSize = slot) :=
  pop_postcondition (pushed (construct 3 2) [8, 9]) [0, 0] 0 (by decide) (by decide)

/-- C10 as amended: in every state satisfying the invariant, a `push` of data
that fits `maxStateSize` followed at once by a `pop` (into a buffer that can
hold the data) makes the pop succeed and show exactly the pushed bytes and
size, and leaves `writeIndex` where it was before the push; `validCount` is
back at its value before the push when the buffer was not full, and is
`capacity - 1` when it was full. -/
theorem pop_inverts_push (b : RewindBuffer) (data outData : List UInt8) (outSize : Nat)
    (hb : Invariant b) (hd : data.length ≤ b.maxSize) (ho : data.length ≤ outData.length) :
    ∃ b1 res, b.push data = .ok (true, b1) ∧ b1.pop outData outSize = .ok res
      ∧ res.ok = true
      ∧ res.outSize = data.length
      ∧ res.outData.take res.outSize = data
      ∧ res.buf.writeIndex = b.writeIndex
      ∧ (b.validCount < b.capacity → res.buf.validCount = b.validCount)
      ∧ (b.validCount = b.capacity → res.buf.validCount = b.capacity - 1) := by
  have hp := inv_pushed data hb
  have hr : readIndex (pushed b data) = b.writeIndex := by
    rw [← slotIndex_zero hp, slotIndex_pushed_zero data hb]
  have hw : b.writeIndex < b.slots.length := by
    rw [hb.2.1]
    exact hb.2.2.1
  have hslot : (pushed b data).slots.getD (readIndex (pushed b data)) [] = data := by
    rw [hr, List.getD_eq_getElem?_getD]
    show (b.slots.set b.writeIndex data)[b.writeIndex]?.getD [] = data
    rw [List.getElem?_set_self hw]
    rfl
  have hvp : (pushed b data).validCount
      = if b.validCount < b.capacity then b.validCount + 1 else b.validCount := rfl
  have hv : 0 < (pushed b data).validCount := by
    rw [hvp]
    have := hb.1
    split <;> omega
  have h2 := pop_success outSize hp hv (show _ ≤ outData.length by rw [hslot]; exact ho)
  rw [hslot] at h2
  refine ⟨_, _, push_accept hb hd, h2, rfl, rfl, List.take_left _ _, hr, ?_, ?_⟩
  · intro h
    show (pushed b data).validCount - 1 = _
    rw [hvp, if_pos h]
    rfl
  · intro h
    show (pushed b data).validCount - 1 = _
    rw [hvp, if_neg (by omega), h]

/-- C10 as amended, at a concrete input: a two-slot buffer holding one blob. -/
theorem pop_inverts_push_witness :
    ∃ b1 res, (pushed (construct 2 2) [1]).push [2, 3] = .ok (true, b1)
      ∧ b1.pop [0, 0] 0 = .ok res
      ∧ res.ok = true
      ∧ res.outSize = [2, 3].length
      ∧ res.outData.take res.outSize = [2, 3]
      ∧ res.buf.writeIndex = (pushed (construct 2 2) [1]).writeIndex
      ∧ ((pushed (construct 2 2) [1]).validCount < (pushed (construct 2 2) [1]).capacity →
          res.buf.validCount = (pushed (construct 2 2) [1]).validCount)
      ∧ ((pushed (construct 2 2) [1]).validCount = (pushed (construct 2 2) [1]).capacity →
          res.buf.validCount = (pushed (construct 2 2) [1]).capacity - 1) :=
  pop_inverts_push (pushed (construct 2 2) [1]) [2, 3] [0, 0] 0 (by decide) (by decide)
    (by decide)

/-- C10 as stated fails on a full buffer: a one-slot buffer that holds one blob
satisfies the invariant (and is reachable), the push of a fitting blob returns
true and the pop that follows returns that blob, but `validCount` ends at 0
while it was 1 before the push. -/
theorem pop_inverts_push_counterexample :
    Reachable 1 2 (pushed (construct 1 2) [1])
    ∧ Invariant (pushed (construct 1 2) [1])
    ∧ [2, 3].length ≤ (pushed (construct 1 2) [1]).maxSize
    ∧ ∃ b1 res, (pushed (construct 1 2) [1]).push [2, 3] = .ok (true, b1)
        ∧ b1.pop [0, 0] 0 = .ok res
        ∧ res.ok = true
        ∧ (pushed (construct 1 2) [1]).validCount = 1
        ∧ res.buf.validCount = 0
        ∧ res.buf.validCount ≠ (pushed (construct 1 2) [1]).validCount :=
  ⟨@Reachable.push 1 2 (construct 1 2) (pushed (construct 1 2) [1]) [1] true
      Reachable.fresh rfl,
    by decide, by decide, _, _, rfl, rfl, rfl, rfl, rfl, by decide⟩

theorem getD_length_le {b : RewindBuffer} (hs : SlotsBounded b) (i : Nat) :
    (b.slots.getD i []).length ≤ b.maxSize := by
  rw [List.getD_eq_getElem?_getD]
  cases h : b.slots[i]? with
  | none => exact Nat.zero_le _
  | some s => exact hs s (List.getElem?_mem h)

/-- C11, the clear postcondition: in every buffer state, after `clear` every
slot has length 0, `writeIndex == 0` and `validCount == 0`, while the number of
slots, `capacity` and `maxStateSize` are what they were; a second `clear`
changes nothing. -/
theorem clear_postcondition (b : RewindBuffer) :
    (∀ s ∈ (clear b).slots, s.length = 0)
    ∧ (clear b).writeIndex = 0 ∧ (clear b).validCount = 0
    ∧ (clear b).slots.length = b.slots.length
    ∧ (clear b).capacity = b.capacity ∧ (clear b).maxSize = b.maxSize
    ∧ clear (clear b) = clear b := by
  refine ⟨?_, rfl, rfl, ?_, rfl, rfl, ?_⟩
  · intro s hs
    simp only [clear, List.mem_map] at hs
    obtain ⟨_, _, rfl⟩ := hs
    rfl
  · simp [clear]
  · simp [clear]

/-- C12 as amended: for every `slotCount >= 1` and every `maxStateSize`, in every
state reachable from `RewindBuffer(slotCount, maxStateSize)` every `push` and
every `pop` into an output buffer of at least `maxStateSize` bytes returns true
or false; the slot indices used by `push` and `pop` are below the number of
slots and the modulus `capacity` is not zero. -/
theorem rewind_calls_return (slotCount maxStateSize : Nat) (b : RewindBuffer)
    (hc : 1 ≤ slotCount) (hr : Reachable slotCount maxStateSize b) :
    b.capacity ≠ 0
    ∧ b.writeIndex < b.slots.length
    ∧ (b.writeIndex + b.capacity - 1) % b.capacity < b.slots.length
    ∧ (∀ data : List UInt8, ∃ r b1, b.push data = .ok (r, b1))
    ∧ (∀ (outData : List UInt8) (outSize : Nat), maxStateSize ≤ outData.length →
        ∃ res, b.pop outData outSize = .ok res) := by
  obtain ⟨hb, hs, _, hmax⟩ := reachable_facts hc hr
  have hw : b.writeIndex < b.slots.length := by
    rw [hb.2.1]
    exact hb.2.2.1
  refine ⟨by have := hb.1; omega, hw, readIndex_lt hb, ?_, ?_⟩
  · intro data
    by_cases hd : data.length ≤ b.maxSize
    · exact ⟨true, _, push_accept hb hd⟩
    · exact ⟨false, _, push_reject (by omega)⟩
  · intro outData outSize ho
    by_cases hv : b.validCount = 0
    · exact ⟨_, pop_empty outData outSize hv⟩
    · refine ⟨_, pop_success outSize hb (Nat.pos_of_ne_zero hv) ?_⟩
      have := getD_length_le hs (readIndex b)
      omega

/-- C12 as amended, at a concrete state: a two-slot buffer holding one blob. -/
theorem rewind_calls_return_witness :
    (pushed (construct 2 4) [5]).capacity ≠ 0
    ∧ (pushed (construct 2 4) [5]).writeIndex < (pushed (construct 2 4) [5]).slots.length
    ∧ ((pushed (construct 2 4) [5]).writeIndex + (pushed (construct 2 4) [5]).capacity - 1)
        % (pushed (construct 2 4) [5]).capacity < (pushed (construct 2 4) [5]).slots.length
    ∧ (∀ data : List UInt8, ∃ r b1, (pushed (construct 2 4) [5]).push data = .ok (r, b1))
    ∧ (∀ (outData : List UInt8) (outSize : Nat), 4 ≤ outData.length →
        ∃ res, (pushed (construct 2 4) [5]).pop outData outSize = .ok res) :=
  rewind_calls_return 2 4 (pushed (construct 2 4) [5]) (by decide)
    (@Reachable.push 2 4 (construct 2 4) (pushed (construct 2 4) [5]) [5] true
      Reachable.fresh rfl)

/-- C12 as stated fails for `slotCount == 0`: the buffer `RewindBuffer(0, 4)`
has no slot and capacity 0, and `push` of one byte, which passes the size
check, evaluates `slots[0]` on the empty vector (and would then divide by the
capacity 0) instead of returning. -/
theorem rewind_calls_return_counterexample :
    [1].length ≤ (construct 0 4).maxSize
    ∧ (construct 0 4).slots.length = 0
    ∧ (construct 0 4).capacity = 0
    ∧ ¬ (construct 0 4).writeIndex < (construct 0 4).slots.length
    ∧ (construct 0 4).push [1] = .error Fault.slotIndexOutOfRange :=
  ⟨by decide, rfl, rfl, by decide, rfl⟩

/-! ## The background overlay -/

theorem setImage_ok {bf : BackgroundFrame} {rgbaData : List UInt8} {width height : Int}
    (hw : 0 ≤ width) (hh : 0 ≤ height) (hfit : width * height * 4 ≤ INT_MAX)
    (hdata : (width * height * 4).toNat ≤ rgbaData.length) :
    bf.setImage rgbaData width height
      = .ok { state := { bf with
                         pendingImageData := rgbaData.take (width * height * 4).toNat
                         pendingWidth := width
                         pendingHeight := height
                         hasPending := true }
              calls := [] } := by
  have hp : 0 ≤ width * height := Int.mul_nonneg hw hh
  have h1 : ¬ (width * height < INT_MIN ∨ INT_MAX < width * height) := by
    unfold INT_MIN INT_MAX at *
    omega
  have h2 : ¬ (width * height * 4 < INT_MIN ∨ INT_MAX < width * height * 4) := by
    unfold INT_MIN INT_MAX at *
    omega
  have h3 : ¬ width * height * 4 < 0 := by omega
  have h4 : ¬ rgbaData.length < (width * height * 4).toNat := by omega
  simp only [BackgroundFrame.setImage, h1, h2, h3, h4, if_false]

theorem setImage_cases {bf : BackgroundFrame} {rgbaData : List UInt8} {width height : Int}
    {st : Step BackgroundFrame} (h : bf.setImage rgbaData width height = .ok st) :
    st.calls = [] ∧ st.state.hasPending = true ∧ st.state.textureId = bf.textureId
      ∧ st.state.shaderProgram = bf.shaderProgram
      ∧ st.state.shaderInitialized = bf.shaderInitialized := by
  unfold BackgroundFrame.setImage at h
  split at h
  · exact absurd h (by simp)
  · split at h
    · exact absurd h (by simp)
    · split at h
      · exact absurd h (by simp)
      · dsimp only at h
        split at h
        · exact absurd h (by simp)
        · injection h with h
          subst h
          exact ⟨rfl, rfl, rfl, rfl, rfl⟩

theorem render_state (gl : OverlayReplies) (bf : BackgroundFrame) (sw sh : Nat) :
    (bf.render gl sw sh).state.textureId = (bf.uploadPendingTexture gl).state.textureId
    ∧ (bf.render gl sw sh).state.hasPending = (bf.uploadPendingTexture gl).state.hasPending
    ∧ (bf.render gl sw sh).state.pendingImageData
        = (bf.uploadPendingTexture gl).state.pendingImageData := by
  unfold BackgroundFrame.render
  dsimp only
  split
  · exact ⟨rfl, rfl, rfl⟩
  · have hs : ∀ b : BackgroundFrame,
        (b.initializeShader gl).state.textureId = b.textureId
        ∧ (b.initializeShader gl).state.hasPending = b.hasPending
        ∧ (b.initializeShader gl).state.pendingImageData = b.pendingImageData := by
      intro b
      unfold BackgroundFrame.initializeShader
      dsimp only
      split
      · exact ⟨rfl, rfl, rfl⟩
      · split <;> exact ⟨rfl, rfl, rfl⟩
    split <;> exact hs _

theorem setImage_overflow (bf : BackgroundFrame) (rgbaData : List UInt8) (width height : Int)
    (h1 : ¬ (width * height < INT_MIN ∨ INT_MAX < width * height))
    (h2 : width * height * 4 < INT_MIN ∨ INT_MAX < width * height * 4) :
    bf.setImage rgbaData width height = .error ImageFault.signedOverflow := by
  simp only [BackgroundFrame.setImage, h1, h2, if_true, if_false]

/-- C18, the background overlay ordering: `setImage` returns for every image
whose byte count fits `int` and whose bytes are all there; whenever `setImage`
has returned, a `render` that follows at once, in a GL context whose
`glGenTextures` yields a non-zero name, leaves `hasImage()` true,
`hasPendingImage()` false and the pending byte buffer empty. -/
theorem overlay_set_then_render (bf : BackgroundFrame) (rgbaData : List UInt8)
    (width height : Int) (gl : OverlayReplies) (screenWidth screenHeight : Nat)
    (hgen : gl.genTexture ≠ 0) :
    (0 ≤ width → 0 ≤ height → width * height * 4 ≤ INT_MAX →
        (width * height * 4).toNat ≤ rgbaData.length →
        ∃ st, bf.setImage rgbaData width height = .ok st)
    ∧ ∀ st, bf.setImage rgbaData width height = .ok st →
        (st.state.render gl screenWidth screenHeight).state.hasImage = true
        ∧ (st.state.render gl screenWidth screenHeight).state.hasPendingImage = false
        ∧ (st.state.render gl screenWidth screenHeight).state.pendingImageData = [] := by
  refine ⟨fun hw hh hfit hdata => ⟨_, setImage_ok hw hh hfit hdata⟩, ?_⟩
  intro st hst
  obtain ⟨_, hp, _⟩ := setImage_cases hst
  obtain ⟨h1, h2, h3⟩ := render_state gl st.state screenWidth screenHeight
  have hu : (st.state.uploadPendingTexture gl).state
      = { st.state with
          textureId := if st.state.textureId = 0 then gl.genTexture else st.state.textureId
          pendingImageData := []
          hasPending := false } := by
    simp [BackgroundFrame.uploadPendingTexture, hp]
  rw [hu] at h1 h2 h3
  refine ⟨?_, ?_, h3⟩
  · unfold BackgroundFrame.hasImage
    rw [h1]
    dsimp only
    split <;> simpa
  · unfold BackgroundFrame.hasPendingImage
    rw [h2]

/-- C18 at a concrete input: a one-pixel image set on a fresh overlay and
rendered in a working GL context. -/
theorem overlay_set_then_render_witness :
    (0 ≤ (1 : Int) → 0 ≤ (1 : Int) → (1 : Int) * 1 * 4 ≤ INT_MAX →
        ((1 : Int) * 1 * 4).toNat ≤ [10, 20, 30, 40].length →
        ∃ st, BackgroundFrame.initial.setImage [10, 20, 30, 40] 1 1 = .ok st)
    ∧ ∀ st, BackgroundFrame.initial.setImage [10, 20, 30, 40] 1 1 = .ok st →
        (st.state.render workingOverlayGl 640 480).state.hasImage = true
        ∧ (st.state.render workingOverlayGl 640 480).state.hasPendingImage = false
        ∧ (st.state.render workingOverlayGl 640 480).state.pendingImageData = [] :=
  overlay_set_then_render BackgroundFrame.initial [10, 20, 30, 40] 1 1 workingOverlayGl
    640 480 (by decide)

/-- C19 as amended: in every overlay state, for every image of non-negative
width `w` and height `h` whose byte count `w * h * 4` fits `int` and whose
bytes are all there, `setImage` returns without making any call and leaves
`textureId` (hence `hasImage()`), the shader program and its handles as they
were; afterwards `hasPendingImage()` is true, the pending dimensions are
`(w, h)` and the pending buffer holds exactly the first `w * h * 4` input
bytes. -/
theorem setImage_cpu_only (bf : BackgroundFrame) (rgbaData : List UInt8) (width height : Int)
    (hw : 0 ≤ width) (hh : 0 ≤ height) (hfit : width * height * 4 ≤ INT_MAX)
    (hdata : (width * height * 4).toNat ≤ rgbaData.length) :
    ∃ st, bf.setImage rgbaData width height = .ok st
      ∧ st.calls = []
      ∧ st.state.textureId = bf.textureId ∧ st.state.hasImage = bf.hasImage
      ∧ st.state.shaderProgram = bf.shaderProgram
      ∧ st.state.positionHandle = bf.positionHandle
      ∧ st.state.texCoordHandle = bf.texCoordHandle
      ∧ st.state.textureHandle = bf.textureHandle
      ∧ st.state.shaderInitialized = bf.shaderInitialized
      ∧ st.state.hasPendingImage = true
      ∧ st.state.pendingWidth = width ∧ st.state.pendingHeight = height
      ∧ (st.state.pendingImageData.length : Int) = width * height * 4
      ∧ st.state.pendingImageData = rgbaData.take (width * height * 4).toNat := by
  refine ⟨_, setImage_ok hw hh hfit hdata, rfl, rfl, rfl, rfl, rfl, rfl, rfl, rfl, rfl, rfl,
    rfl, ?_, rfl⟩
  have hp : 0 ≤ width * height := Int.mul_nonneg hw hh
  show ((rgbaData.take (width * height * 4).toNat).length : Int) = _
  rw [List.length_take]
  omega

/-- C19 as amended, at a concrete input: a 2 x 1 image followed by a stray
byte. -/
theorem setImage_cpu_only_witness :
    ∃ st, BackgroundFrame.initial.setImage [1, 2, 3, 4, 5, 6, 7, 8, 9] 2 1 = .ok st
      ∧ st.calls = []
      ∧ st.state.textureId = BackgroundFrame.initial.textureId
      ∧ st.state.hasImage = BackgroundFrame.initial.hasImage
      ∧ st.state.shaderProgram = BackgroundFrame.initial.shaderProgram
      ∧ st.state.positionHandle = BackgroundFrame.initial.positionHandle
      ∧ st.state.texCoordHandle = BackgroundFrame.initial.texCoordHandle
      ∧ st.state.textureHandle = BackgroundFrame.initial.textureHandle
      ∧ st.state.shaderInitialized = BackgroundFrame.initial.shaderInitialized
      ∧ st.state.hasPendingImage = true
      ∧ st.state.pendingWidth = 2 ∧ st.state.pendingHeight = 1
      ∧ (st.state.pendingImageData.length : Int) = 2 * 1 * 4
      ∧ st.state.pendingImageData
          = [1, 2, 3, 4, 5, 6, 7, 8, 9].take ((2 : Int) * 1 * 4).toNat :=
  setImage_cpu_only BackgroundFrame.initial [1, 2, 3, 4, 5, 6, 7, 8, 9] 2 1
    (by decide) (by decide) (by decide) (by decide)

/-- C19 as stated fails when the byte count leaves the range of `int`: for a
32768 x 32768 image, all of whose 4294967296 bytes are there, the `int` product
`width * height * 4` overflows, so the call does not store `w * h * 4`
bytes. -/
theorem setImage_cpu_only_counterexample :
    (0 : Int) ≤ 32768
    ∧ (List.replicate 4294967296 (0 : UInt8)).length = 32768 * 32768 * 4
    ∧ INT_MAX < (32768 : Int) * 32768 * 4
    ∧ BackgroundFrame.initial.setImage (List.replicate 4294967296 0) 32768 32768
        = .error ImageFault.signedOverflow :=
  ⟨by decide, List.length_replicate _ _, by decide, setImage_overflow _ _ 32768 32768
    (by decide) (by decide)⟩

/-- C20, the clearImage postcondition: in every overlay state, after
`clearImage` `hasImage()` and `hasPendingImage()` are false and the pending
byte buffer is empty; the only call made is one `glDeleteTextures` of the
texture when there was one, and none otherwise; a second `clearImage` makes no
call and changes nothing. -/
theorem clearImage_postcondition (bf : BackgroundFrame) :
    bf.clearImage.state.hasImage = false
    ∧ bf.clearImage.state.hasPendingImage = false
    ∧ bf.clearImage.state.pendingImageData = []
    ∧ (bf.textureId ≠ 0 → bf.clearImage.calls = [Call.glDeleteTextures bf.textureId])
    ∧ (bf.textureId = 0 → bf.clearImage.calls = [])
    ∧ bf.clearImage.state.clearImage.calls = []
    ∧ bf.clearImage.state.clearImage.state = bf.clearImage.state := by
  refine ⟨rfl, rfl, rfl, ?_, ?_, rfl, rfl⟩
  · intro h
    simp [BackgroundFrame.clearImage, h]
  · intro h
    simp [BackgroundFrame.clearImage, h]

/-! ## The frame orchestrator -/

theorem updateProgram_fields (gl : FrameReplies) (v : Video) :
    (v.updateProgram gl).state.isDirty = v.isDirty
    ∧ (v.updateProgram gl).state.skipDuplicateFrames = v.skipDuplicateFrames
    ∧ (v.updateProgram gl).state.bfiEnabled = v.bfiEnabled
    ∧ (v.updateProgram gl).state.frameCount = v.frameCount
    ∧ (v.updateProgram gl).state.backgroundFrame = v.backgroundFrame
    ∧ (v.updateProgram gl).state.requestedShaderConfig = v.requestedShaderConfig
    ∧ (v.updateProgram gl).state.filterMode = v.filterMode := by
  unfold Video.updateProgram
  split <;> exact ⟨rfl, rfl, rfl, rfl, rfl, rfl, rfl⟩

theorem renderFrame_flags (gl : FrameReplies) (v : Video) :
    (v.renderFrame gl).state.skipDuplicateFrames = v.skipDuplicateFrames
    ∧ (v.renderFrame gl).state.bfiEnabled = v.bfiEnabled
    ∧ (v.renderFrame gl).state.isDirty = false := by
  unfold Video.renderFrame
  split
  · rename_i h
    exact ⟨rfl, rfl, h.2.2⟩
  · obtain ⟨h1, h2, h3, _⟩ := updateProgram_fields gl
      { v with isDirty := false, frameCount := (v.frameCount + 1) % 4294967296 }
    dsimp only
    split
    · exact ⟨h2, h3, h1⟩
    · split
      · exact ⟨h2, h3, h1⟩
      · exact ⟨h2, h3, h1⟩

/-- C13, the duplicate-frame skip: in every `Video` state with
`skipDuplicateFrames == true` and `bfiEnabled == false`, whatever a first
`renderFrame` did (skip, draw or throw), a second `renderFrame` with no
`onNewFrame` in between makes no call at all, does not throw, and leaves the
whole state (`isDirty`, `frameCount`, the shader chain, the overlay) as it
was. -/
theorem duplicate_frame_skip (v : Video) (gl1 gl2 : FrameReplies)
    (hskip : v.skipDuplicateFrames = true) (hbfi : v.bfiEnabled = false) :
    ((v.renderFrame gl1).state.renderFrame gl2).calls = []
    ∧ ((v.renderFrame gl1).state.renderFrame gl2).thrown = false
    ∧ ((v.renderFrame gl1).state.renderFrame gl2).state = (v.renderFrame gl1).state := by
  obtain ⟨h1, h2, hd⟩ := renderFrame_flags gl1 v
  have hc : (v.renderFrame gl1).state.skipDuplicateFrames = true
      ∧ (v.renderFrame gl1).state.bfiEnabled = false
      ∧ (v.renderFrame gl1).state.isDirty = false := ⟨h1.trans hskip, h2.trans hbfi, hd⟩
  have h : (v.renderFrame gl1).state.renderFrame gl2
      = { state := (v.renderFrame gl1).state, calls := [], thrown := false } := by
    generalize (v.renderFrame gl1).state = w at hc
    unfold Video.renderFrame
    rw [if_pos hc]
  rw [h]
  exact ⟨rfl, rfl, rfl⟩

/-- C13 at a concrete input: a freshly constructed `Video` that received a
frame; the first `renderFrame` draws, the second makes no call. -/
theorem duplicate_frame_skip_witness :
    (dirtyVideo.renderFrame onePassReplies).calls ≠ []
    ∧ ((dirtyVideo.renderFrame onePassReplies).state.renderFrame onePassReplies).calls = []
    ∧ ((dirtyVideo.renderFrame onePassReplies).state.renderFrame onePassReplies).thrown = false
    ∧ ((dirtyVideo.renderFrame onePassReplies).state.renderFrame onePassReplies).state
        = (dirtyVideo.renderFrame onePassReplies).state :=
  ⟨by decide, duplicate_frame_skip dirtyVideo onePassReplies onePassReplies rfl rfl⟩

/-- C14, the dirtiness of `onNewFrame`: in every `Video` state, `onNewFrame`
with non-null data calls `renderer->onNewFrame(data, w, h, pitch)` and then
`videoLayout.updateContentSize(w, h)`, sets `isDirty` and writes no other
member; with null data it makes no call (to the renderer, the layout or
anything else) and leaves the state, `isDirty` included, as it was. -/
theorem onNewFrame_dirtiness (v : Video) (bytes : List UInt8) (width height pitch : Nat) :
    (v.onNewFrame (some bytes) width height pitch).calls
        = [Call.rendererOnNewFrame bytes width height pitch,
           Call.layoutUpdateContentSize width height]
    ∧ (v.onNewFrame (some bytes) width height pitch).state.isDirty = true
    ∧ (v.onNewFrame (some bytes) width height pitch).state = { v with isDirty := true }
    ∧ (v.onNewFrame none width height pitch).calls = []
    ∧ (v.onNewFrame none width height pitch).state = v :=
  ⟨rfl, rfl, rfl, rfl, rfl⟩

/-! ## The shader chain -/

/-- What the loop of `updateProgram` does to the chain it is given: it appends
entries with non-zero programs, at most one per pass and fewer than that when
it throws, and it never calls `renderer->setShaders`. -/
theorem buildChain_spec (gl : Nat → PassReplies) (items : List ShaderPass) :
    ∀ (index : Nat) (chain : List ShaderChainEntry) (calls : List Call),
      ∃ added : List ShaderChainEntry,
        (buildChain gl index items chain calls).chain = chain ++ added
        ∧ (∀ e ∈ added, e.gProgram ≠ 0)
        ∧ added.length ≤ items.length
        ∧ ((buildChain gl index items chain calls).thrown = true →
            added.length < items.length)
        ∧ ((buildChain gl index items chain calls).thrown = false →
            added.length = items.length) := by
  induction items with
  | nil =>
    intro index chain calls
    exact ⟨[], by simp [buildChain], by simp, by simp, by simp [buildChain], by simp⟩
  | cons item items ih =>
    intro index chain calls
    unfold buildChain
    dsimp only
    split
    · exact ⟨[], by simp, by simp, by simp, by simp, by simp⟩
    · rename_i hp
      obtain ⟨added, h1, h2, h3, h4, h5⟩ := ih (index + 1)
        (chain ++ [(resolveEntry (gl index)
          (toGLint (createProgram (gl index).build item.vertex item.fragment).value)).value])
        (calls ++ (createProgram (gl index).build item.vertex item.fragment).calls
          ++ (resolveEntry (gl index)
            (toGLint (createProgram (gl index).build item.vertex item.fragment).value)).calls)
      refine ⟨(resolveEntry (gl index)
          (toGLint (createProgram (gl index).build item.vertex item.fragment).value)).value
          :: added, ?_, ?_, ?_, ?_, ?_⟩
      · rw [h1, List.append_assoc]
        rfl
      · intro e he
        rcases List.mem_cons.mp he with rfl | he
        · exact hp
        · exact h2 e he
      · simp only [List.length_cons]
        omega
      · intro ht
        have := h4 ht
        simp only [List.length_cons]
        omega
      · intro ht
        have := h5 ht
        simp only [List.length_cons]
        omega

theorem loadShader_calls (gl : LoadShaderReplies) (kind : ShaderKind) (source : String) :
    (loadShader gl kind source).calls.all Call.buildsProgram = true := by
  unfold loadShader
  split_ifs <;> simp [Call.buildsProgram]

theorem createProgram_calls (gl : ProgramReplies) (vertexSource fragmentSource : String) :
    (createProgram gl vertexSource fragmentSource).calls.all Call.buildsProgram = true := by
  have hv := loadShader_calls gl.vertex .vertex vertexSource
  have hf := loadShader_calls gl.fragment .fragment fragmentSource
  unfold createProgram
  dsimp only
  split_ifs <;>
    simp only [List.all_append, List.all_cons, List.all_nil, hv, hf, Call.buildsProgram,
      Bool.and_self, Bool.and_true]

theorem resolveEntry_calls (gl : PassReplies) (program : Int) :
    (resolveEntry gl program).calls.all Call.buildsProgram = true := by
  unfold resolveEntry attribWithFallback uniformWithFallback
  dsimp only
  split_ifs <;> simp [Call.buildsProgram]

theorem buildChain_calls (gl : Nat → PassReplies) (items : List ShaderPass) :
    ∀ (index : Nat) (chain : List ShaderChainEntry) (calls : List Call),
      ∃ added : List Call,
        (buildChain gl index items chain calls).calls = calls ++ added
        ∧ added.all Call.buildsProgram = true := by
  induction items with
  | nil =>
    intro index chain calls
    exact ⟨[], by simp [buildChain], by simp⟩
  | cons item items ih =>
    intro index chain calls
    unfold buildChain
    dsimp only
    have hc := createProgram_calls (gl index).build item.vertex item.fragment
    split
    · exact ⟨_, rfl, hc⟩
    · have hr := resolveEntry_calls (gl index)
        (toGLint (createProgram (gl index).build item.vertex item.fragment).value)
      obtain ⟨added, h1, h2⟩ := ih (index + 1)
        (chain ++ [(resolveEntry (gl index)
          (toGLint (createProgram (gl index).build item.vertex item.fragment).value)).value])
        (calls ++ (createProgram (gl index).build item.vertex item.fragment).calls
          ++ (resolveEntry (gl index)
            (toGLint (createProgram (gl index).build item.vertex item.fragment).value)).calls)
      refine ⟨(createProgram (gl index).build item.vertex item.fragment).calls
          ++ (resolveEntry (gl index)
            (toGLint (createProgram (gl index).build item.vertex item.fragment).value)).calls
          ++ added, ?_, ?_⟩
      · rw [h1]
        simp only [List.append_assoc]
      · simp only [List.all_append, hc, hr, h2, Bool.and_self]

theorem not_mem_of_all_buildsProgram {calls : List Call} {c : Call}
    (h : calls.all Call.buildsProgram = true) (hc : c.buildsProgram = false) : c ∉ calls := by
  intro hm
  have := List.all_eq_true.mp h c hm
  rw [hc] at this
  exact absurd this (by decide)

theorem updateProgram_suppressed (gl : FrameReplies) (v : Video)
    (h : v.loadedShaderType = some v.requestedShaderConfig) :
    v.updateProgram gl = { state := v, calls := [], thrown := false } := by
  unfold Video.updateProgram
  rw [if_pos h]

theorem requestedShaders_passes (gl : FrameReplies) (v : Video) :
    (Video.requestedShaders gl v).passes = (gl.getShader v.requestedShaderConfig).passes := by
  unfold Video.requestedShaders
  dsimp only
  split_ifs <;> rfl

theorem updateProgram_build (gl : FrameReplies) (v : Video)
    (h : ¬ v.loadedShaderType = some v.requestedShaderConfig) :
    (v.updateProgram gl).state
        = { v with
            loadedShaderType := some v.requestedShaderConfig
            shadersChain :=
              (buildChain gl.pass 0 (gl.getShader v.requestedShaderConfig).passes [] []).chain }
    ∧ (v.updateProgram gl).thrown
        = (buildChain gl.pass 0 (gl.getShader v.requestedShaderConfig).passes [] []).thrown
    ∧ ((v.updateProgram gl).thrown = true → (v.updateProgram gl).calls
        = (buildChain gl.pass 0 (gl.getShader v.requestedShaderConfig).passes [] []).calls)
    ∧ ((v.updateProgram gl).thrown = false → (v.updateProgram gl).calls
        = (buildChain gl.pass 0 (gl.getShader v.requestedShaderConfig).passes [] []).calls
          ++ [Call.rendererSetShaders (Video.requestedShaders gl v)]) := by
  unfold Video.updateProgram
  rw [if_neg h]
  dsimp only
  rw [requestedShaders_passes]
  refine ⟨rfl, rfl, ?_, ?_⟩
  · intro ht
    rw [if_pos ht]
  · intro ht
    rw [if_neg (by rw [ht]; decide)]

/-- C15 as amended: when `createProgram` returns 0 for a pass, `updateProgram`
throws without having called `renderer->setShaders`; at the throw
`loadedShaderType` is already the requested configuration and `shadersChain`
holds the entries of the passes before the failing one, fewer than the
requested passes and each with a non-zero program; a later `updateProgram` for
the same configuration makes no call and leaves that state as it is. -/
theorem updateProgram_failure (gl : FrameReplies) (v : Video)
    (hthrown : (v.updateProgram gl).thrown = true) :
    (v.updateProgram gl).state.loadedShaderType = some v.requestedShaderConfig
    ∧ (v.updateProgram gl).state.shadersChain.length
        < (gl.getShader v.requestedShaderConfig).passes.length
    ∧ (∀ e ∈ (v.updateProgram gl).state.shadersChain, e.gProgram ≠ 0)
    ∧ (∀ shaders, Call.rendererSetShaders shaders ∉ (v.updateProgram gl).calls)
    ∧ ∀ gl2 : FrameReplies,
        ((v.updateProgram gl).state.updateProgram gl2).calls = []
        ∧ ((v.updateProgram gl).state.updateProgram gl2).thrown = false
        ∧ ((v.updateProgram gl).state.updateProgram gl2).state = (v.updateProgram gl).state := by
  by_cases h : v.loadedShaderType = some v.requestedShaderConfig
  · rw [updateProgram_suppressed gl v h] at hthrown
    exact absurd hthrown Bool.false_ne_true
  · obtain ⟨hs, ht, hc, _⟩ := updateProgram_build gl v h
    obtain ⟨added, h1, h2, _, h4, _⟩ :=
      buildChain_spec gl.pass (gl.getShader v.requestedShaderConfig).passes 0 [] []
    obtain ⟨addedCalls, h5, h6⟩ :=
      buildChain_calls gl.pass (gl.getShader v.requestedShaderConfig).passes 0 [] []
    rw [ht] at hthrown
    rw [List.nil_append] at h1 h5
    refine ⟨by rw [hs], ?_, ?_, ?_, ?_⟩
    · rw [hs]
      show (buildChain gl.pass 0 (gl.getShader v.requestedShaderConfig).passes [] []).chain.length
        < _
      rw [h1]
      exact h4 hthrown
    · rw [hs]
      intro e he
      have he1 : e ∈ (buildChain gl.pass 0 (gl.getShader v.requestedShaderConfig).passes
        [] []).chain := he
      rw [h1] at he1
      exact h2 e he1
    · intro shaders
      rw [hc (by rw [ht]; exact hthrown), h5]
      exact not_mem_of_all_buildsProgram h6 rfl
    · intro gl2
      have hl : (v.updateProgram gl).state.loadedShaderType
          = some (v.updateProgram gl).state.requestedShaderConfig := by
        rw [hs]
      rw [updateProgram_suppressed gl2 _ hl]
      exact ⟨rfl, rfl, rfl⟩

/-- C15 as amended, at a concrete input: the built `Video` is asked for another
shader whose second pass fails to link. -/
theorem updateProgram_failure_witness :
    ((builtVideo.updateShaderType otherConfig).updateProgram secondPassFails).state.loadedShaderType
        = some (builtVideo.updateShaderType otherConfig).requestedShaderConfig
    ∧ ((builtVideo.updateShaderType otherConfig).updateProgram
          secondPassFails).state.shadersChain.length
        < (secondPassFails.getShader
            (builtVideo.updateShaderType otherConfig).requestedShaderConfig).passes.length
    ∧ (∀ e ∈ ((builtVideo.updateShaderType otherConfig).updateProgram
          secondPassFails).state.shadersChain, e.gProgram ≠ 0)
    ∧ (∀ shaders, Call.rendererSetShaders shaders
        ∉ ((builtVideo.updateShaderType otherConfig).updateProgram secondPassFails).calls)
    ∧ ∀ gl2 : FrameReplies,
        (((builtVideo.updateShaderType otherConfig).updateProgram
            secondPassFails).state.updateProgram gl2).calls = []
        ∧ (((builtVideo.updateShaderType otherConfig).updateProgram
            secondPassFails).state.updateProgram gl2).thrown = false
        ∧ (((builtVideo.updateShaderType otherConfig).updateProgram
            secondPassFails).state.updateProgram gl2).state
          = ((builtVideo.updateShaderType otherConfig).updateProgram secondPassFails).state :=
  updateProgram_failure secondPassFails (builtVideo.updateShaderType otherConfig) rfl

/-- C15 as stated fails: the built `Video`, whose chain is the one entry of
program 5 loaded for `exampleConfig`, is asked for `otherConfig`, a shader of
two passes whose second pass fails to link.  `updateProgram` throws; the chain
is then the one entry of program 7, a strict prefix of the two requested
passes, and `loadedShaderType` is `otherConfig`, so neither is what it was; a
later `updateProgram` in a GL context in which both passes build makes no
call. -/
theorem updateProgram_failure_counterexample :
    (createProgram (secondPassFails.pass 1).build "vertex" "fragment").value = 0
    ∧ ((builtVideo.updateShaderType otherConfig).updateProgram secondPassFails).thrown = true
    ∧ (builtVideo.updateShaderType otherConfig).shadersChain.map (fun e => e.gProgram) = [5]
    ∧ ((builtVideo.updateShaderType otherConfig).updateProgram
          secondPassFails).state.shadersChain.map (fun e => e.gProgram) = [7]
    ∧ (secondPassFails.getShader otherConfig).passes.length = 2
    ∧ (builtVideo.updateShaderType otherConfig).loadedShaderType = some exampleConfig
    ∧ ((builtVideo.updateShaderType otherConfig).updateProgram
          secondPassFails).state.loadedShaderType = some otherConfig
    ∧ (((builtVideo.updateShaderType otherConfig).updateProgram
          secondPassFails).state.updateProgram twoPassReplies).calls = [] :=
  ⟨by decide, by decide, by decide, by decide, by decide, by decide, by decide, by decide⟩

/-! ## What is bound at the draws -/

theorem drawPrograms_append (a b : List Call) :
    ∀ s, drawPrograms s (a ++ b) = drawPrograms s a ++ drawPrograms (programAfter s a) b := by
  induction a with
  | nil => intro s; rfl
  | cons c a ih =>
    intro s
    cases c <;> simp [drawPrograms, programAfter, ih]

theorem drawPrograms_of_no_draw (l : List Call) (h : Call.glDrawArrays ∉ l) :
    ∀ s, drawPrograms s l = [] := by
  induction l with
  | nil => intro s; rfl
  | cons c l ih =>
    intro s
    have h1 : Call.glDrawArrays ∉ l := fun hm => h (List.mem_cons_of_mem _ hm)
    have h2 : c ≠ Call.glDrawArrays := fun he => h (he ▸ List.mem_cons_self _ _)
    cases c <;> simp_all [drawPrograms]

theorem safeDraws_of_no_draw {l : List Call} (h : Call.glDrawArrays ∉ l) : SafeDraws l := by
  intro s p hp
  rw [drawPrograms_of_no_draw l h s] at hp
  exact absurd hp (List.not_mem_nil _)

theorem safeDraws_append {a b : List Call} (ha : SafeDraws a) (hb : SafeDraws b) :
    SafeDraws (a ++ b) := by
  intro s p hp
  rw [drawPrograms_append, List.mem_append] at hp
  rcases hp with hp | hp
  · exact ha s p hp
  · exact hb _ p hp

theorem programAfter_append (a b : List Call) :
    ∀ s, programAfter s (a ++ b) = programAfter (programAfter s a) b := by
  induction a with
  | nil => intro s; rfl
  | cons c a ih =>
    intro s
    cases c <;> simp [programAfter, ih]

theorem drawPrograms_ite (c : Prop) [Decidable c] (l : List Call) (s : Option Int) :
    drawPrograms s (if c then l else []) = if c then drawPrograms s l else [] := by
  split_ifs <;> rfl

theorem programAfter_ite (c : Prop) [Decidable c] (l : List Call) (s : Option Int) :
    programAfter s (if c then l else []) = if c then programAfter s l else s := by
  split_ifs <;> rfl

theorem drawPrograms_passCalls (gl : FrameReplies) (frameCount chainLength i : Nat)
    (shader : ShaderChainEntry) (s : Option Int) :
    drawPrograms s (Video.passCalls gl frameCount chainLength i shader)
      = [some shader.gProgram] := by
  simp only [Video.passCalls, drawPrograms_append, programAfter_append, drawPrograms_ite,
    programAfter_ite, drawPrograms, programAfter, ite_self, List.append_nil, List.nil_append,
    List.append_eq, List.cons_append]

theorem safeDraws_passLoop (gl : FrameReplies) (frameCount chainLength : Nat)
    (chain : List ShaderChainEntry) (h : ∀ e ∈ chain, e.gProgram ≠ 0) :
    ∀ i, SafeDraws (Video.passLoop gl frameCount chainLength i chain) := by
  induction chain with
  | nil =>
    intro i
    exact safeDraws_of_no_draw (List.not_mem_nil _)
  | cons e chain ih =>
    intro i
    unfold Video.passLoop
    apply safeDraws_append
    · intro s p hp
      rw [drawPrograms_passCalls, List.mem_singleton] at hp
      exact ⟨e.gProgram, hp, h e (List.mem_cons_self _ _)⟩
    · exact ih (fun e he => h e (List.mem_cons_of_mem _ he)) (i + 1)

theorem no_draw_upload (gl : OverlayReplies) (bf : BackgroundFrame) :
    Call.glDrawArrays ∉ (bf.uploadPendingTexture gl).calls := by
  unfold BackgroundFrame.uploadPendingTexture
  split_ifs <;> simp

theorem no_draw_initializeShader (gl : OverlayReplies) (bf : BackgroundFrame) :
    Call.glDrawArrays ∉ (bf.initializeShader gl).calls := by
  unfold BackgroundFrame.initializeShader BackgroundFrame.compileCalls
  dsimp only
  split_ifs <;> simp [List.mem_replicate]

theorem initializeShader_textureId (gl : OverlayReplies) (bf : BackgroundFrame) :
    (bf.initializeShader gl).state.textureId = bf.textureId := by
  unfold BackgroundFrame.initializeShader
  dsimp only
  split_ifs <;> rfl

/-- The three ways `BackgroundFrame::render` ends: without a texture, without
a program, or with the draw under the non-zero program and texture. -/
theorem render_calls (gl : OverlayReplies) (bf : BackgroundFrame) (sw sh : Nat) :
    (Call.glDrawArrays ∉ (bf.render gl sw sh).calls)
    ∨ ∃ pre : List Call, ∃ st : BackgroundFrame,
        Call.glDrawArrays ∉ pre ∧ st.shaderProgram ≠ 0 ∧ st.textureId ≠ 0
        ∧ (bf.render gl sw sh).calls = pre ++ BackgroundFrame.drawCalls st sw sh := by
  unfold BackgroundFrame.render
  dsimp only
  have hu := no_draw_upload gl bf
  split
  · exact Or.inl hu
  · rename_i himg
    have hs := no_draw_initializeShader gl (bf.uploadPendingTexture gl).state
    have hpre : Call.glDrawArrays ∉ (bf.uploadPendingTexture gl).calls
        ++ ((bf.uploadPendingTexture gl).state.initializeShader gl).calls := by
      intro hm
      rcases List.mem_append.mp hm with hm | hm
      · exact hu hm
      · exact hs hm
    split
    · exact Or.inl hpre
    · rename_i hprog
      refine Or.inr ⟨_, _, hpre, hprog, ?_, rfl⟩
      rw [initializeShader_textureId]
      simpa [BackgroundFrame.hasImage] using himg

theorem drawPrograms_drawCalls (bf : BackgroundFrame) (sw sh : Nat) (s : Option Int) :
    drawPrograms s (BackgroundFrame.drawCalls bf sw sh) = [some (bf.shaderProgram : Int)] := rfl

theorem safeDraws_render (gl : OverlayReplies) (bf : BackgroundFrame) (sw sh : Nat) :
    SafeDraws (bf.render gl sw sh).calls := by
  rcases render_calls gl bf sw sh with h | ⟨pre, st, hpre, hprog, _, hc⟩
  · exact safeDraws_of_no_draw h
  · rw [hc]
    apply safeDraws_append (safeDraws_of_no_draw hpre)
    intro s p hp
    rw [drawPrograms_drawCalls, List.mem_singleton] at hp
    exact ⟨_, hp, by exact_mod_cast hprog⟩

theorem updateProgram_chain (gl : FrameReplies) (v : Video)
    (h : ∀ e ∈ v.shadersChain, e.gProgram ≠ 0) :
    ∀ e ∈ (v.updateProgram gl).state.shadersChain, e.gProgram ≠ 0 := by
  by_cases hl : v.loadedShaderType = some v.requestedShaderConfig
  · rw [updateProgram_suppressed gl v hl]
    exact h
  · obtain ⟨hs, _⟩ := updateProgram_build gl v hl
    obtain ⟨added, h1, h2, _⟩ :=
      buildChain_spec gl.pass (gl.getShader v.requestedShaderConfig).passes 0 [] []
    rw [hs]
    intro e he
    have he1 : e ∈ (buildChain gl.pass 0 (gl.getShader v.requestedShaderConfig).passes
      [] []).chain := he
    rw [h1, List.nil_append] at he1
    exact h2 e he1

theorem no_draw_updateProgram (gl : FrameReplies) (v : Video) :
    Call.glDrawArrays ∉ (v.updateProgram gl).calls := by
  by_cases hl : v.loadedShaderType = some v.requestedShaderConfig
  · rw [updateProgram_suppressed gl v hl]
    exact List.not_mem_nil _
  · obtain ⟨_, _, hc1, hc2⟩ := updateProgram_build gl v hl
    obtain ⟨added, h5, h6⟩ :=
      buildChain_calls gl.pass (gl.getShader v.requestedShaderConfig).passes 0 [] []
    rw [List.nil_append] at h5
    have hb : Call.glDrawArrays ∉ added := not_mem_of_all_buildsProgram h6 rfl
    cases ht : (v.updateProgram gl).thrown with
    | true =>
      rw [hc1 ht, h5]
      exact hb
    | false =>
      rw [hc2 ht, h5]
      intro hm
      rcases List.mem_append.mp hm with hm | hm
      · exact hb hm
      · simp at hm

theorem no_draw_clearCalls (gl : FrameReplies) (v : Video) :
    Call.glDrawArrays ∉ Video.clearCalls gl v := by
  unfold Video.clearCalls
  split_ifs <;> simp

theorem renderFrame_chain (gl : FrameReplies) (v : Video)
    (h : ∀ e ∈ v.shadersChain, e.gProgram ≠ 0) :
    ∀ e ∈ (v.renderFrame gl).state.shadersChain, e.gProgram ≠ 0 := by
  have hu := updateProgram_chain gl
    { v with isDirty := false, frameCount := (v.frameCount + 1) % 4294967296 } h
  unfold Video.renderFrame
  dsimp only
  split_ifs <;> first | exact h | exact hu

theorem renderFrame_safeDraws (gl : FrameReplies) (v : Video)
    (h : ∀ e ∈ v.shadersChain, e.gProgram ≠ 0) : SafeDraws (v.renderFrame gl).calls := by
  have hu := updateProgram_chain gl
    { v with isDirty := false, frameCount := (v.frameCount + 1) % 4294967296 } h
  have hc := safeDraws_of_no_draw (no_draw_clearCalls gl
    { v with isDirty := false, frameCount := (v.frameCount + 1) % 4294967296 })
  have hp := safeDraws_of_no_draw (no_draw_updateProgram gl
    { v with isDirty := false, frameCount := (v.frameCount + 1) % 4294967296 })
  unfold Video.renderFrame
  dsimp only
  split_ifs
  · exact safeDraws_of_no_draw (List.not_mem_nil _)
  · exact safeDraws_append hc hp
  · refine safeDraws_append (safeDraws_append (safeDraws_append (safeDraws_append
      (safeDraws_append hc hp) (safeDraws_passLoop _ _ _ _ hu 0)) ?_) (safeDraws_render _ _ _ _)) ?_
    · exact safeDraws_of_no_draw (by simp)
    · exact safeDraws_of_no_draw (by simp)
  · exact safeDraws_append (safeDraws_append hc hp) (safeDraws_passLoop _ _ _ _ hu 0)

theorem reachable_chain {v : Video} (hr : Video.Reachable v) :
    ∀ e ∈ v.shadersChain, e.gProgram ≠ 0 := by
  induction hr with
  | construct gl shaderConfig skip immersive _ =>
    exact updateProgram_chain gl _ (fun e he => absurd he (List.not_mem_nil _))
  | renderFrame gl _ ih => exact renderFrame_chain gl _ ih
  | onNewFrame data width height pitch _ ih =>
    cases data <;> exact ih
  | updateShaderType shaderConfig _ ih => exact ih
  | setFilterMode mode _ ih =>
    unfold Video.setFilterMode
    split_ifs <;> exact ih
  | setBlackFrameInsertion enabled _ ih => exact ih
  | setBackgroundFrame _ hs ih =>
    unfold Video.setBackgroundFrame at hs
    split at hs
    · exact absurd hs (by simp)
    · injection hs with hs
      subst hs
      exact ih
  | clearBackgroundFrame _ ih => exact ih

theorem drawTextures_of_no_draw (l : List Call) (h : Call.glDrawArrays ∉ l) :
    ∀ u t, drawTextures u t l = [] := by
  induction l with
  | nil => intro u t; rfl
  | cons c l ih =>
    intro u t
    have h1 : Call.glDrawArrays ∉ l := fun hm => h (List.mem_cons_of_mem _ hm)
    have h2 : c ≠ Call.glDrawArrays := fun he => h (he ▸ List.mem_cons_self _ _)
    cases c <;> simp_all [drawTextures]

theorem drawTextures_prefix (pre l : List Call) (h : Call.glDrawArrays ∉ pre) :
    ∀ u t, ∃ u1 t1, drawTextures u t (pre ++ l) = drawTextures u1 t1 l := by
  induction pre with
  | nil => intro u t; exact ⟨u, t, rfl⟩
  | cons c pre ih =>
    intro u t
    have h1 : Call.glDrawArrays ∉ pre := fun hm => h (List.mem_cons_of_mem _ hm)
    have h2 : c ≠ Call.glDrawArrays := fun he => h (he ▸ List.mem_cons_self _ _)
    cases c <;> first
      | exact absurd rfl h2
      | (simp only [List.cons_append, drawTextures]; exact ih h1 _ _)

theorem drawTextures_drawCalls (bf : BackgroundFrame) (sw sh : Nat) (u t : Option Nat) :
    drawTextures u t (BackgroundFrame.drawCalls bf sw sh) = [some bf.textureId] := by
  simp [BackgroundFrame.drawCalls, drawTextures]

theorem render_textures (gl : OverlayReplies) (bf : BackgroundFrame) (sw sh : Nat)
    (u t : Option Nat) :
    ∀ x ∈ drawTextures u t (bf.render gl sw sh).calls, ∃ q, x = some q ∧ q ≠ 0 := by
  rcases render_calls gl bf sw sh with h | ⟨pre, st, hpre, _, htex, hc⟩
  · rw [drawTextures_of_no_draw _ h]
    intro x hx
    exact absurd hx (List.not_mem_nil _)
  · obtain ⟨u1, t1, h1⟩ := drawTextures_prefix pre (BackgroundFrame.drawCalls st sw sh) hpre u t
    rw [hc, h1, drawTextures_drawCalls]
    intro x hx
    exact ⟨st.textureId, List.mem_singleton.mp hx, htex⟩

/-- The calls of a `renderFrame` that draws an overlay end with the calls of
`BackgroundFrame::render` on the overlay of the state before, between the
switching of the blending. -/
theorem renderFrame_overlay_calls (gl : FrameReplies) (v : Video)
    (hdraw : ¬ (v.skipDuplicateFrames = true ∧ v.bfiEnabled = false ∧ v.isDirty = false))
    (hok : (v.renderFrame gl).thrown = false)
    (hov : v.backgroundFrame.hasImage = true ∨ v.backgroundFrame.hasPendingImage = true) :
    ∃ pre, (v.renderFrame gl).calls
      = pre ++ [Call.glEnable .blend, .glBlendFunc]
        ++ (v.backgroundFrame.render gl.overlay gl.screenWidth gl.screenHeight).calls
        ++ [Call.glDisable .blend] := by
  obtain ⟨_, _, _, _, hbf, _⟩ := updateProgram_fields gl
    { v with isDirty := false, frameCount := (v.frameCount + 1) % 4294967296 }
  have hbf1 : (Video.updateProgram gl
      { v with isDirty := false, frameCount := (v.frameCount + 1) % 4294967296
      }).state.backgroundFrame = v.backgroundFrame := hbf
  have hup : (Video.updateProgram gl
      { v with isDirty := false, frameCount := (v.frameCount + 1) % 4294967296 }).thrown
        = false := by
    cases ht : (Video.updateProgram gl
      { v with isDirty := false, frameCount := (v.frameCount + 1) % 4294967296 }).thrown with
    | false => rfl
    | true =>
      unfold Video.renderFrame at hok
      rw [if_neg hdraw] at hok
      dsimp only at hok
      rw [if_pos ht] at hok
      exact absurd (show true = false from hok) (by decide)
  refine ⟨Video.clearCalls gl
        { v with isDirty := false, frameCount := (v.frameCount + 1) % 4294967296 }
      ++ (Video.updateProgram gl
        { v with isDirty := false, frameCount := (v.frameCount + 1) % 4294967296 }).calls
      ++ Video.passLoop gl (Video.updateProgram gl
          { v with isDirty := false, frameCount := (v.frameCount + 1) % 4294967296
          }).state.frameCount
        (Video.updateProgram gl
          { v with isDirty := false, frameCount := (v.frameCount + 1) % 4294967296
          }).state.shadersChain.length 0
        (Video.updateProgram gl
          { v with isDirty := false, frameCount := (v.frameCount + 1) % 4294967296
          }).state.shadersChain, ?_⟩
  unfold Video.renderFrame
  rw [if_neg hdraw]
  dsimp only
  rw [if_neg (by rw [hup]; decide), hbf1, if_pos hov]

/-- C16, a zero program handle is never drawn with: in every reachable `Video`
state every entry of `shadersChain` has `gProgram != 0`; in every `renderFrame`
call from such a state, whatever program was current before, every
`glDrawArrays` of the call (those of the shader passes and that of
`BackgroundFrame::render`) is issued after a `glUseProgram` of a non-zero
program with no other `glUseProgram` in between; the overlay part of the call
is `BackgroundFrame::render` on the overlay of that state, and every
`glDrawArrays` of that render is issued with a non-zero texture bound to
texture unit 0. -/
theorem zero_program_never_drawn (v : Video) (hr : Video.Reachable v) :
    (∀ e ∈ v.shadersChain, e.gProgram ≠ 0)
    ∧ (∀ (gl : FrameReplies) (s : Option Int),
        ∀ p ∈ drawPrograms s (v.renderFrame gl).calls, ∃ q, p = some q ∧ q ≠ 0)
    ∧ (∀ gl : FrameReplies,
        ¬ (v.skipDuplicateFrames = true ∧ v.bfiEnabled = false ∧ v.isDirty = false) →
        (v.renderFrame gl).thrown = false →
        v.backgroundFrame.hasImage = true ∨ v.backgroundFrame.hasPendingImage = true →
        ∃ pre, (v.renderFrame gl).calls
          = pre ++ [Call.glEnable .blend, .glBlendFunc]
            ++ (v.backgroundFrame.render gl.overlay gl.screenWidth gl.screenHeight).calls
            ++ [Call.glDisable .blend])
    ∧ (∀ (gl : FrameReplies) (unit texture : Option Nat),
        ∀ x ∈ drawTextures unit texture
            (v.backgroundFrame.render gl.overlay gl.screenWidth gl.screenHeight).calls,
          ∃ q, x = some q ∧ q ≠ 0) :=
  ⟨reachable_chain hr,
    fun gl s => renderFrame_safeDraws gl v (reachable_chain hr) s,
    fun gl hdraw hok hov => renderFrame_overlay_calls gl v hdraw hok hov,
    fun gl unit texture => render_textures gl.overlay v.backgroundFrame _ _ unit texture⟩

theorem reachable_overlayVideo : Video.Reachable overlayVideo :=
  @Video.Reachable.setBackgroundFrame dirtyVideo [10, 20, 30, 40] 1 1
    { state := overlayVideo, calls := [] }
    (Video.Reachable.onNewFrame (some [1, 2, 3, 4]) 1 1 4
      (Video.Reachable.construct onePassReplies exampleConfig true false rfl))
    rfl

/-- C16 at a concrete state: the `Video` of the examples with a frame and an
overlay image pending; its `renderFrame` draws the pass under program 5 and the
overlay under program 3 with texture 7. -/
theorem zero_program_never_drawn_witness :
    drawPrograms none (overlayVideo.renderFrame onePassReplies).calls = [some 5, some 3]
    ∧ drawTextures none none
        (overlayVideo.backgroundFrame.render onePassReplies.overlay onePassReplies.screenWidth
          onePassReplies.screenHeight).calls = [some 7]
    ∧ (∀ e ∈ overlayVideo.shadersChain, e.gProgram ≠ 0)
    ∧ (∀ (gl : FrameReplies) (s : Option Int),
        ∀ p ∈ drawPrograms s (overlayVideo.renderFrame gl).calls, ∃ q, p = some q ∧ q ≠ 0)
    ∧ (∀ gl : FrameReplies,
        ¬ (overlayVideo.skipDuplicateFrames = true ∧ overlayVideo.bfiEnabled = false
            ∧ overlayVideo.isDirty = false) →
        (overlayVideo.renderFrame gl).thrown = false →
        overlayVideo.backgroundFrame.hasImage = true
          ∨ overlayVideo.backgroundFrame.hasPendingImage = true →
        ∃ pre, (overlayVideo.renderFrame gl).calls
          = pre ++ [Call.glEnable .blend, .glBlendFunc]
            ++ (overlayVideo.backgroundFrame.render gl.overlay gl.screenWidth
                gl.screenHeight).calls
            ++ [Call.glDisable .blend])
    ∧ (∀ (gl : FrameReplies) (unit texture : Option Nat),
        ∀ x ∈ drawTextures unit texture
            (overlayVideo.backgroundFrame.render gl.overlay gl.screenWidth
              gl.screenHeight).calls,
          ∃ q, x = some q ∧ q ≠ 0) :=
  ⟨by decide, by decide, zero_program_never_drawn overlayVideo reachable_overlayVideo⟩

/-! ## The uniforms of a pass -/

theorem passLoop_segment (gl : FrameReplies) (frameCount chainLength : Nat)
    (chain : List ShaderChainEntry) :
    ∀ (start k : Nat) (e : ShaderChainEntry), chain[k]? = some e →
      ∃ pre post, Video.passLoop gl frameCount chainLength start chain
        = pre ++ Video.passCalls gl frameCount chainLength (start + k) e ++ post := by
  induction chain with
  | nil =>
    intro start k e h
    simp at h
  | cons x chain ih =>
    intro start k e h
    cases k with
    | zero =>
      simp only [List.getElem?_cons_zero, Option.some.injEq] at h
      subst h
      exact ⟨[], Video.passLoop gl frameCount chainLength (start + 1) chain, by
        simp [Video.passLoop]⟩
    | succ k =>
      simp only [List.getElem?_cons_succ] at h
      obtain ⟨pre, post, hp⟩ := ih (start + 1) k e h
      refine ⟨Video.passCalls gl frameCount chainLength start x ++ pre, post, ?_⟩
      unfold Video.passLoop
      rw [hp, show start + 1 + k = start + (k + 1) by omega]
      simp only [List.append_assoc]

/-- The calls of a `renderFrame` that neither skips nor throws contain the
pass loop over the chain of the state it leaves. -/
theorem renderFrame_passLoop (gl : FrameReplies) (v : Video)
    (hdraw : ¬ (v.skipDuplicateFrames = true ∧ v.bfiEnabled = false ∧ v.isDirty = false))
    (hok : (v.renderFrame gl).thrown = false) :
    ∃ pre post, (v.renderFrame gl).calls
      = pre ++ Video.passLoop gl (v.renderFrame gl).state.frameCount
          (v.renderFrame gl).state.shadersChain.length 0
          (v.renderFrame gl).state.shadersChain ++ post := by
  have hup : (Video.updateProgram gl
      { v with isDirty := false, frameCount := (v.frameCount + 1) % 4294967296 }).thrown
        = false := by
    cases ht : (Video.updateProgram gl
      { v with isDirty := false, frameCount := (v.frameCount + 1) % 4294967296 }).thrown with
    | false => rfl
    | true =>
      unfold Video.renderFrame at hok
      rw [if_neg hdraw] at hok
      dsimp only at hok
      rw [if_pos ht] at hok
      exact absurd (show true = false from hok) (by decide)
  refine ⟨Video.clearCalls gl
        { v with isDirty := false, frameCount := (v.frameCount + 1) % 4294967296 }
      ++ (Video.updateProgram gl
        { v with isDirty := false, frameCount := (v.frameCount + 1) % 4294967296 }).calls,
    if (Video.updateProgram gl
          { v with isDirty := false, frameCount := (v.frameCount + 1) % 4294967296
          }).state.backgroundFrame.hasImage = true
        ∨ (Video.updateProgram gl
          { v with isDirty := false, frameCount := (v.frameCount + 1) % 4294967296
          }).state.backgroundFrame.hasPendingImage = true
    then [Call.glEnable .blend, .glBlendFunc]
      ++ ((Video.updateProgram gl
          { v with isDirty := false, frameCount := (v.frameCount + 1) % 4294967296
          }).state.backgroundFrame.render gl.overlay gl.screenWidth gl.screenHeight).calls
      ++ [Call.glDisable .blend]
    else [], ?_⟩
  unfold Video.renderFrame
  rw [if_neg hdraw]
  dsimp only
  rw [if_neg (by rw [hup]; decide)]
  split_ifs <;> simp only [List.append_assoc, List.append_nil]

theorem passCalls_bound (gl : FrameReplies) (frameCount chainLength i : Nat)
    (e : ShaderChainEntry) :
    (e.gInputSizeHandle ≠ -1 →
        Call.glUniform2f e.gInputSizeHandle ∈ Video.passCalls gl frameCount chainLength i e)
    ∧ (e.gOutputSizeHandle ≠ -1 →
        Call.glUniform2f e.gOutputSizeHandle ∈ Video.passCalls gl frameCount chainLength i e)
    ∧ (e.gFrameCountHandle ≠ -1 →
        Call.glUniform1i e.gFrameCountHandle (toGLint frameCount)
          ∈ Video.passCalls gl frameCount chainLength i e)
    ∧ (e.gFrameDirectionHandle ≠ -1 →
        Call.glUniform1i e.gFrameDirectionHandle 1
          ∈ Video.passCalls gl frameCount chainLength i e)
    ∧ (e.gMVPMatrixHandle ≠ -1 →
        Call.glUniformMatrix4fv e.gMVPMatrixHandle
          ∈ Video.passCalls gl frameCount chainLength i e)
    ∧ (e.gPreviousPassTextureHandle ≠ -1 → (gl.passData i).texture.isSome = true →
        Call.glUniform1i e.gPreviousPassTextureHandle 1
          ∈ Video.passCalls gl frameCount chainLength i e) := by
  refine ⟨?_, ?_, ?_, ?_, ?_, ?_⟩ <;> intros <;>
    simp [Video.passCalls, *]

theorem passCalls_no_sentinel (gl : FrameReplies) (frameCount chainLength i : Nat)
    (e : ShaderChainEntry) (h1 : e.gTextureHandle ≠ -1) (h2 : e.gTextureSizeHandle ≠ -1)
    (h3 : e.gScreenDensityHandle ≠ -1) :
    ∀ c ∈ Video.passCalls gl frameCount chainLength i e, c.uniformLocation ≠ some (-1) := by
  have key : (Video.passCalls gl frameCount chainLength i e).all
      (fun c => decide (c.uniformLocation ≠ some (-1))) = true := by
    simp only [Video.passCalls, List.all_append, List.all_cons, List.all_nil,
      Call.uniformLocation, Bool.and_eq_true]
    refine ⟨⟨⟨⟨⟨⟨⟨⟨⟨⟨?_, ?_⟩, ?_⟩, ?_⟩, ?_⟩, ?_⟩, ?_⟩, ?_⟩, ?_⟩, ?_⟩, ?_⟩ <;>
      (try split_ifs) <;> simp_all [Call.uniformLocation]
  intro c hc
  exact of_decide_eq_true (List.all_eq_true.mp key c hc)

/-- C17 as amended: in a `renderFrame` that neither skips nor throws, the calls
of the pass drawn for entry `i` of the chain bind each of the uniforms input
size, output size, frame count, frame direction and MVP matrix whenever its
location is not the sentinel -1 (0 included), and the previous-pass texture
whenever its location is not -1 and the pass has a previous-pass texture; and
when the locations of texture, texture size and screen density are not -1, no
`glUniform*` call of the pass has the location -1. -/
theorem sentinel_uniforms_skipped (gl : FrameReplies) (v : Video) (i : Nat)
    (e : ShaderChainEntry)
    (hdraw : ¬ (v.skipDuplicateFrames = true ∧ v.bfiEnabled = false ∧ v.isDirty = false))
    (hok : (v.renderFrame gl).thrown = false)
    (he : (v.renderFrame gl).state.shadersChain[i]? = some e) :
    ∃ pre pass post,
      (v.renderFrame gl).calls = pre ++ pass ++ post
      ∧ pass = Video.passCalls gl (v.renderFrame gl).state.frameCount
          (v.renderFrame gl).state.shadersChain.length i e
      ∧ (e.gInputSizeHandle ≠ -1 → Call.glUniform2f e.gInputSizeHandle ∈ pass)
      ∧ (e.gOutputSizeHandle ≠ -1 → Call.glUniform2f e.gOutputSizeHandle ∈ pass)
      ∧ (e.gFrameCountHandle ≠ -1 →
          Call.glUniform1i e.gFrameCountHandle (toGLint (v.renderFrame gl).state.frameCount)
            ∈ pass)
      ∧ (e.gFrameDirectionHandle ≠ -1 → Call.glUniform1i e.gFrameDirectionHandle 1 ∈ pass)
      ∧ (e.gMVPMatrixHandle ≠ -1 → Call.glUniformMatrix4fv e.gMVPMatrixHandle ∈ pass)
      ∧ (e.gPreviousPassTextureHandle ≠ -1 → (gl.passData i).texture.isSome = true →
          Call.glUniform1i e.gPreviousPassTextureHandle 1 ∈ pass)
      ∧ (e.gTextureHandle ≠ -1 → e.gTextureSizeHandle ≠ -1 → e.gScreenDensityHandle ≠ -1 →
          ∀ c ∈ pass, c.uniformLocation ≠ some (-1)) := by
  obtain ⟨pre, post, h1⟩ := renderFrame_passLoop gl v hdraw hok
  obtain ⟨pre2, post2, h2⟩ := passLoop_segment gl (v.renderFrame gl).state.frameCount
    (v.renderFrame gl).state.shadersChain.length (v.renderFrame gl).state.shadersChain 0 i e he
  rw [Nat.zero_add] at h2
  obtain ⟨b1, b2, b3, b4, b5, b6⟩ := passCalls_bound gl (v.renderFrame gl).state.frameCount
    (v.renderFrame gl).state.shadersChain.length i e
  refine ⟨pre ++ pre2, _, post2 ++ post, ?_, rfl, b1, b2, b3, b4, b5, b6,
    passCalls_no_sentinel gl _ _ i e⟩
  rw [h1, h2]
  simp only [List.append_assoc]

/-- C17 as amended, at a concrete input: the `Video` of the examples, whose one
pass found every attribute and uniform at location 0. -/
theorem sentinel_uniforms_skipped_witness :
    ∃ pre pass post,
      (dirtyVideo.renderFrame onePassReplies).calls = pre ++ pass ++ post
      ∧ pass = Video.passCalls onePassReplies (dirtyVideo.renderFrame onePassReplies).state.frameCount
          (dirtyVideo.renderFrame onePassReplies).state.shadersChain.length 0
          (resolveEntry (buildingPass 5 0) 5).value
      ∧ ((resolveEntry (buildingPass 5 0) 5).value.gInputSizeHandle ≠ -1 →
          Call.glUniform2f (resolveEntry (buildingPass 5 0) 5).value.gInputSizeHandle ∈ pass)
      ∧ ((resolveEntry (buildingPass 5 0) 5).value.gOutputSizeHandle ≠ -1 →
          Call.glUniform2f (resolveEntry (buildingPass 5 0) 5).value.gOutputSizeHandle ∈ pass)
      ∧ ((resolveEntry (buildingPass 5 0) 5).value.gFrameCountHandle ≠ -1 →
          Call.glUniform1i (resolveEntry (buildingPass 5 0) 5).value.gFrameCountHandle
            (toGLint (dirtyVideo.renderFrame onePassReplies).state.frameCount) ∈ pass)
      ∧ ((resolveEntry (buildingPass 5 0) 5).value.gFrameDirectionHandle ≠ -1 →
          Call.glUniform1i (resolveEntry (buildingPass 5 0) 5).value.gFrameDirectionHandle 1
            ∈ pass)
      ∧ ((resolveEntry (buildingPass 5 0) 5).value.gMVPMatrixHandle ≠ -1 →
          Call.glUniformMatrix4fv (resolveEntry (buildingPass 5 0) 5).value.gMVPMatrixHandle
            ∈ pass)
      ∧ ((resolveEntry (buildingPass 5 0) 5).value.gPreviousPassTextureHandle ≠ -1 →
          (onePassReplies.passData 0).texture.isSome = true →
          Call.glUniform1i (resolveEntry (buildingPass 5 0) 5).value.gPreviousPassTextureHandle 1
            ∈ pass)
      ∧ ((resolveEntry (buildingPass 5 0) 5).value.gTextureHandle ≠ -1 →
          (resolveEntry (buildingPass 5 0) 5).value.gTextureSizeHandle ≠ -1 →
          (resolveEntry (buildingPass 5 0) 5).value.gScreenDensityHandle ≠ -1 →
          ∀ c ∈ pass, c.uniformLocation ≠ some (-1)) :=
  sentinel_uniforms_skipped onePassReplies dirtyVideo 0 (resolveEntry (buildingPass 5 0) 5).value
    (by decide) (by decide) (by decide)

/-- C17 as stated fails.  A `Video` constructed in a GL context in which the
program of its one pass has none of the uniforms holds the entry with every
location -1, and its `renderFrame` still issues `glUniform1i(-1, 0)` for the
texture, `glUniform2f(-1, ..)` for the texture size and `glUniform1f(-1, ..)`
for the screen density.  And in a GL context in which only `previousPass` is
found, at location 0, while the pass has no previous-pass texture, no
`glUniform*` call with location 0 is issued. -/
theorem sentinel_uniforms_skipped_counterexample :
    (Video.construct nothingFoundReplies exampleConfig false false).thrown = false
    ∧ (Video.construct nothingFoundReplies exampleConfig false false).state.shadersChain.map
        (fun e => (e.gTextureHandle, e.gTextureSizeHandle, e.gScreenDensityHandle))
        = [(-1, -1, -1)]
    ∧ Call.glUniform1i (-1) 0
        ∈ ((Video.construct nothingFoundReplies exampleConfig false false).state.renderFrame
            nothingFoundReplies).calls
    ∧ Call.glUniform2f (-1)
        ∈ ((Video.construct nothingFoundReplies exampleConfig false false).state.renderFrame
            nothingFoundReplies).calls
    ∧ Call.glUniform1f (-1)
        ∈ ((Video.construct nothingFoundReplies exampleConfig false false).state.renderFrame
            nothingFoundReplies).calls
    ∧ (Video.construct previousPassOnlyReplies exampleConfig false false).state.shadersChain.map
        (fun e => e.gPreviousPassTextureHandle) = [0]
    ∧ (∀ c ∈ ((Video.construct previousPassOnlyReplies exampleConfig false
          false).state.renderFrame previousPassOnlyReplies).calls,
        c.uniformLocation ≠ some 0) :=
  ⟨by decide, by decide, by decide, by decide, by decide, by decide, by decide⟩

/-! ## The size of the slots -/

theorem push_ok_cases {b b1 : RewindBuffer} {data : List UInt8} {r : Bool}
    (h : b.push data = .ok (r, b1)) :
    b1 = b ∨ (b1 = pushed b data ∧ data.length ≤ b.maxSize ∧ b.capacity ≠ 0) := by
  unfold push at h
  split at h
  · injection h with h
    injection h with _ h2
    exact Or.inl h2.symm
  · split at h
    · dsimp only at h
      split at h
      · exact absurd h (by simp)
      · injection h with h
        injection h with _ h2
        exact Or.inr ⟨h2.symm, by omega, ‹_›⟩
    · exact absurd h (by simp)

theorem pop_ok_true {b : RewindBuffer} {outData : List UInt8} {outSize : Nat} {res : PopResult}
    (h : b.pop outData outSize = .ok res) (hok : res.ok = true) :
    ∃ slot, slot ∈ b.slots ∧ slot.length ≤ outData.length
      ∧ res.outData = slot ++ outData.drop slot.length ∧ res.outSize = slot.length := by
  unfold pop at h
  split at h
  · injection h with h
    subst h
    exact absurd (show false = true from hok) (by decide)
  · split at h
    · exact absurd h (by simp)
    · dsimp only at h
      split at h
      · exact absurd h (by simp)
      · rename_i slot hslot
        split at h
        · injection h with h
          subst h
          exact ⟨slot, List.getElem?_mem hslot, ‹_›, rfl, rfl⟩
        · exact absurd h (by simp)

theorem pop_outData_length {b : RewindBuffer} {outData : List UInt8} {outSize : Nat}
    {res : PopResult} (h : b.pop outData outSize = .ok res) :
    res.outData.length = outData.length := by
  cases hok : res.ok with
  | true =>
    obtain ⟨slot, _, hl, ho, _⟩ := pop_ok_true h hok
    rw [ho, List.length_append, List.length_drop]
    omega
  | false =>
    unfold pop at h
    split at h
    · injection h with h
      subst h
      rfl
    · split at h
      · exact absurd h (by simp)
      · dsimp only at h
        split at h
        · exact absurd h (by simp)
        · split at h
          · injection h with h
            subst h
            exact absurd (show true = false from hok) (by decide)
          · exact absurd h (by simp)

/-- What is known of every reachable state, whatever the number of slots. -/
theorem reachable_bounded {c m : Nat} {b : RewindBuffer} (h : Reachable c m b) :
    SlotsBounded b ∧ b.maxSize = m ∧ b.capacity = c ∧ (c = 0 → b.validCount = 0) := by
  induction h with
  | fresh => exact ⟨bounded_construct c m, rfl, rfl, fun _ => rfl⟩
  | push _ hp ih =>
    obtain ⟨hs, h1, h2, h3⟩ := ih
    rcases push_ok_cases hp with rfl | ⟨rfl, hd, hc⟩
    · exact ⟨hs, h1, h2, h3⟩
    · refine ⟨bounded_pushed hs hd, h1, h2, ?_⟩
      intro h0
      rw [h0] at h2
      exact absurd h2 hc
  | pop _ hp ih =>
    obtain ⟨hs, h1, h2, h3⟩ := ih
    rcases pop_cases hp with ⟨_, hb, _⟩ | ⟨_, hb, hv⟩
    · rw [hb]; exact ⟨hs, h1, h2, h3⟩
    · rw [hb]
      refine ⟨hs, h1, h2, ?_⟩
      intro h0
      have := h3 h0
      omega
  | clear _ ih =>
    obtain ⟨_, h1, h2, _⟩ := ih
    exact ⟨bounded_clear _, h1, h2, fun _ => rfl⟩

/-- In a reachable state `pop` returns when the output buffer holds at least
`maxStateSize` bytes, whatever the number of slots. -/
theorem reachable_pop_returns {c m : Nat} {b : RewindBuffer} (h : Reachable c m b)
    (outData : List UInt8) (outSize : Nat) (ho : m ≤ outData.length) :
    ∃ res, b.pop outData outSize = .ok res := by
  obtain ⟨hs, hm, _, h0⟩ := reachable_bounded h
  by_cases hv : b.validCount = 0
  · exact ⟨_, pop_empty outData outSize hv⟩
  · have hc : 1 ≤ c := by
      by_contra hc
      exact hv (h0 (by omega))
    obtain ⟨hb, _, _, _⟩ := reachable_facts hc h
    refine ⟨_, pop_success outSize hb (Nat.pos_of_ne_zero hv) ?_⟩
    have := getD_length_le hs (readIndex b)
    omega

theorem length_resizeBytes (v : List UInt8) (n : Nat) : (resizeBytes v n).length = n := by
  simp only [resizeBytes, List.length_append, List.length_take, List.length_replicate]
  omega

/-- The buffer behind `rewindBuffer` is a reachable state of a buffer whose
`maxStateSize` is the length of `rewindTempBuffer`. -/
theorem jni_reachable {j : RewindJni} (h : RewindJni.Reachable j) :
    ∀ b, j.rewindBuffer = some b → ∃ c, Reachable c j.rewindTempBuffer.length b := by
  induction h with
  | initial =>
    intro b hb
    exact absurd hb (by simp [RewindJni.initial])
  | @initRewindBuffer j slotCount maxStateSize _ _ =>
    intro b hb
    simp only [RewindJni.initRewindBuffer, Option.some.injEq] at hb
    subst hb
    refine ⟨slotCount, ?_⟩
    simp only [RewindJni.initRewindBuffer, length_resizeBytes]
    exact Reachable.fresh
  | @captureRewindState j j1 serialized r _ hc ih =>
    intro b hb
    unfold RewindJni.captureRewindState at hc
    cases hj : j.rewindBuffer with
    | none =>
      rw [hj] at hc
      injection hc with hc
      injection hc with _ h2
      subst h2
      rw [hj] at hb
      exact absurd hb (by simp)
    | some b0 =>
      rw [hj] at hc
      obtain ⟨c, hr⟩ := ih b0 hj
      cases serialized with
      | none =>
        injection hc with hc
        injection hc with _ h2
        subst h2
        rw [hj] at hb
        injection hb with hb
        subst hb
        exact ⟨c, hr⟩
      | some data =>
        dsimp only at hc
        cases hp : b0.push data with
        | error e =>
          rw [hp] at hc
          exact absurd hc (by simp)
        | ok p =>
          obtain ⟨r1, b1⟩ := p
          rw [hp] at hc
          injection hc with hc
          injection hc with _ h2
          subst h2
          injection hb with hb
          subst hb
          exact ⟨c, @Reachable.push c _ b0 b1 data r1 hr hp⟩
  | @rewindFrame j u res _ hc ih =>
    intro b hb
    unfold RewindJni.rewindFrame at hc
    cases hj : j.rewindBuffer with
    | none =>
      rw [hj] at hc
      injection hc with hc
      subst hc
      rw [hj] at hb
      exact absurd hb (by simp)
    | some b0 =>
      rw [hj] at hc
      obtain ⟨c, hr⟩ := ih b0 hj
      dsimp only at hc
      cases hp : b0.pop j.rewindTempBuffer 0 with
      | error e =>
        rw [hp] at hc
        exact absurd hc (by simp)
      | ok pr =>
        rw [hp] at hc
        have hl := pop_outData_length hp
        have hr1 := @Reachable.pop c _ b0 j.rewindTempBuffer 0 pr hr hp
        dsimp only at hc
        split at hc
        · injection hc with hc
          subst hc
          injection hb with hb
          subst hb
          refine ⟨c, ?_⟩
          show Reachable c pr.outData.length pr.buf
          rw [hl]
          exact hr1
        · injection hc with hc
          subst hc
          injection hb with hb
          subst hb
          refine ⟨c, ?_⟩
          show Reachable c pr.outData.length pr.buf
          rw [hl]
          exact hr1
  | @clearRewindBuffer j _ ih =>
    intro b hb
    unfold RewindJni.clearRewindBuffer at hb
    cases hj : j.rewindBuffer with
    | none =>
      rw [hj] at hb
      dsimp only at hb
      rw [hj] at hb
      exact absurd hb (by simp)
    | some b0 =>
      have ht : (RewindJni.clearRewindBuffer j).rewindTempBuffer = j.rewindTempBuffer := by
        unfold RewindJni.clearRewindBuffer
        rw [hj]
      rw [hj] at hb
      obtain ⟨c, hr⟩ := ih b0 hj
      injection hb with hb
      subst hb
      rw [ht]
      exact ⟨c, Reachable.clear hr⟩
  | destroyRewindBuffer _ _ =>
    intro b hb
    exact absurd hb (by simp [RewindJni.destroyRewindBuffer])

/-- C28, the slot size bound: in every state reachable by `push`, `pop` and
`clear` from `RewindBuffer(slotCount, maxStateSize)`, `maxStateSize` is the
one of the construction and every slot holds at most `maxStateSize` bytes;
hence a `pop` that returns true reports `outSize <= maxStateSize`, leaves the
length of the output buffer and changes none of its bytes from `outSize` on;
`pop` returns for every output buffer of `maxStateSize` bytes; and whenever the
buffer is the one behind `rewindBuffer` in a reachable state of the entry
points of `libretrodroidjni.cpp`, `rewindTempBuffer` holds exactly
`maxStateSize` bytes and `rewindFrame` returns, leaving that length. -/
theorem slot_size_bound (slotCount maxStateSize : Nat) (b : RewindBuffer)
    (hr : Reachable slotCount maxStateSize b) :
    b.maxSize = maxStateSize
    ∧ (∀ s ∈ b.slots, s.length ≤ maxStateSize)
    ∧ (∀ (outData : List UInt8) (outSize : Nat) (res : PopResult),
        b.pop outData outSize = .ok res → res.ok = true →
        res.outSize ≤ maxStateSize
        ∧ res.outData.length = outData.length
        ∧ res.outData.drop res.outSize = outData.drop res.outSize)
    ∧ (∀ (outData : List UInt8) (outSize : Nat), outData.length = maxStateSize →
        ∃ res, b.pop outData outSize = .ok res)
    ∧ (∀ j : RewindJni, RewindJni.Reachable j → j.rewindBuffer = some b →
        j.rewindTempBuffer.length = maxStateSize
        ∧ ∀ u, ∃ res, j.rewindFrame u = .ok res
            ∧ res.jni.rewindTempBuffer.length = maxStateSize) := by
  obtain ⟨hs, hm, _, _⟩ := reachable_bounded hr
  refine ⟨hm, ?_, ?_, ?_, ?_⟩
  · intro s h
    rw [← hm]
    exact hs s h
  · intro outData outSize res h hok
    obtain ⟨slot, hmem, hl, ho, hz⟩ := pop_ok_true h hok
    refine ⟨?_, pop_outData_length h, ?_⟩
    · rw [hz, ← hm]
      exact hs slot hmem
    · rw [ho, hz, List.drop_append_of_le_length (le_refl _), List.drop_length,
        List.nil_append]
  · intro outData outSize ho
    exact reachable_pop_returns hr outData outSize (by omega)
  · intro j hj hb
    obtain ⟨c, hc⟩ := jni_reachable hj b hb
    have hlen : j.rewindTempBuffer.length = maxStateSize := by
      rw [← (reachable_bounded hc).2.1, hm]
    refine ⟨hlen, ?_⟩
    intro u
    obtain ⟨res, hp⟩ := reachable_pop_returns hr j.rewindTempBuffer 0 (by omega)
    have hl := pop_outData_length hp
    unfold RewindJni.rewindFrame
    rw [hb]
    dsimp only
    rw [hp]
    dsimp only
    split
    · exact ⟨_, rfl, by rw [← hlen, ← hl]⟩
    · exact ⟨_, rfl, by rw [← hlen, ← hl]⟩

/-- C28 at a concrete state: a two-slot buffer of `maxStateSize` 4 holding one
blob of one byte. -/
theorem slot_size_bound_witness :
    RewindJni.Reachable
        { rewindBuffer := some (pushed (construct 2 4) [5])
          rewindTempBuffer := [0, 0, 0, 0] }
    ∧ (pushed (construct 2 4) [5]).maxSize = 4
    ∧ (∀ s ∈ (pushed (construct 2 4) [5]).slots, s.length ≤ 4)
    ∧ (∀ (outData : List UInt8) (outSize : Nat) (res : PopResult),
        (pushed (construct 2 4) [5]).pop outData outSize = .ok res → res.ok = true →
        res.outSize ≤ 4
        ∧ res.outData.length = outData.length
        ∧ res.outData.drop res.outSize = outData.drop res.outSize)
    ∧ (∀ (outData : List UInt8) (outSize : Nat), outData.length = 4 →
        ∃ res, (pushed (construct 2 4) [5]).pop outData outSize = .ok res)
    ∧ (∀ j : RewindJni, RewindJni.Reachable j →
        j.rewindBuffer = some (pushed (construct 2 4) [5]) →
        j.rewindTempBuffer.length = 4
        ∧ ∀ u, ∃ res, j.rewindFrame u = .ok res
            ∧ res.jni.rewindTempBuffer.length = 4) :=
  ⟨@RewindJni.Reachable.captureRewindState
      (RewindJni.initRewindBuffer RewindJni.initial 2 4)
      { rewindBuffer := some (pushed (construct 2 4) [5])
        rewindTempBuffer := [0, 0, 0, 0] }
      (some [5]) true
      (RewindJni.Reachable.initRewindBuffer 2 4 RewindJni.Reachable.initial) rfl,
    slot_size_bound 2 4 (pushed (construct 2 4) [5])
      (@Reachable.push 2 4 (construct 2 4) (pushed (construct 2 4) [5]) [5] true
        Reachable.fresh rfl)⟩

/-- C29, the slot frame conditions: in every buffer state satisfying the
invariant, a `push` that returns true leaves the number of slots, stores the
blob in the slot at the old `writeIndex` and leaves every other slot as it
was, and a `push` that returns false leaves the buffer as it was; a `pop`,
whether it returns true or false, leaves the whole slot vector as it was, the
slot it read included; neither changes `capacity` or `maxStateSize`.  Both
calls return: `push` of a blob of at most `maxStateSize` bytes returns true,
and `pop` returns whenever the blob it reads fits the output buffer. -/
theorem slot_frame_conditions (b : RewindBuffer) (hb : Invariant b) :
    (∀ (data : List UInt8) (r : Bool) (b1 : RewindBuffer), b.push data = .ok (r, b1) →
        (r = true →
          b1.slots.length = b.slots.length
          ∧ b1.slots[b.writeIndex]? = some data
          ∧ (∀ i, i ≠ b.writeIndex → b1.slots[i]? = b.slots[i]?))
        ∧ (r = false → b1 = b)
        ∧ b1.capacity = b.capacity ∧ b1.maxSize = b.maxSize)
    ∧ (∀ data : List UInt8, data.length ≤ b.maxSize → ∃ b1, b.push data = .ok (true, b1))
    ∧ (∀ (outData : List UInt8) (outSize : Nat) (res : PopResult),
        b.pop outData outSize = .ok res →
        res.buf.slots = b.slots ∧ res.buf.capacity = b.capacity
        ∧ res.buf.maxSize = b.maxSize)
    ∧ (∀ (outData : List UInt8) (outSize : Nat),
        (b.slots.getD (readIndex b) []).length ≤ outData.length →
        ∃ res, b.pop outData outSize = .ok res) := by
  have hw : b.writeIndex < b.slots.length := by
    rw [hb.2.1]
    exact hb.2.2.1
  refine ⟨?_, ?_, ?_, ?_⟩
  · intro data r b1 h
    rcases push_cases hb h with ⟨h1, h2, _⟩ | ⟨h1, h2, _⟩
    · subst h2
      refine ⟨?_, fun _ => rfl, rfl, rfl⟩
      intro hr
      rw [h1] at hr
      exact absurd hr (by decide)
    · subst h2
      refine ⟨fun _ => ⟨?_, ?_, ?_⟩, ?_, rfl, rfl⟩
      · simp [pushed]
      · simp [pushed, hw]
      · intro i hi
        simp only [pushed]
        exact List.getElem?_set_ne (Ne.symm hi)
      · intro hr
        rw [h1] at hr
        exact absurd hr (by decide)
  · intro data hd
    exact ⟨_, push_accept hb hd⟩
  · intro outData outSize res h
    rcases pop_cases h with ⟨_, h2, _⟩ | ⟨_, h2, _⟩
    · rw [h2]
      exact ⟨rfl, rfl, rfl⟩
    · rw [h2]
      exact ⟨rfl, rfl, rfl⟩
  · intro outData outSize ho
    by_cases hv : b.validCount = 0
    · exact ⟨_, pop_empty outData outSize hv⟩
    · exact ⟨_, pop_success outSize hb (Nat.pos_of_ne_zero hv) ho⟩

/-- C29 at a concrete state: a two-slot buffer holding one blob in slot 0, whose
write index is 1. -/
theorem slot_frame_conditions_witness :
    Invariant (pushed (construct 2 4) [5])
    ∧ (∀ (data : List UInt8) (r : Bool) (b1 : RewindBuffer),
        (pushed (construct 2 4) [5]).push data = .ok (r, b1) →
        (r = true →
          b1.slots.length = (pushed (construct 2 4) [5]).slots.length
          ∧ b1.slots[(pushed (construct 2 4) [5]).writeIndex]? = some data
          ∧ (∀ i, i ≠ (pushed (construct 2 4) [5]).writeIndex →
              b1.slots[i]? = (pushed (construct 2 4) [5]).slots[i]?))
        ∧ (r = false → b1 = pushed (construct 2 4) [5])
        ∧ b1.capacity = (pushed (construct 2 4) [5]).capacity
        ∧ b1.maxSize = (pushed (construct 2 4) [5]).maxSize)
    ∧ (∀ data : List UInt8, data.length ≤ (pushed (construct 2 4) [5]).maxSize →
        ∃ b1, (pushed (construct 2 4) [5]).push data = .ok (true, b1))
    ∧ (∀ (outData : List UInt8) (outSize : Nat) (res : PopResult),
        (pushed (construct 2 4) [5]).pop outData outSize = .ok res →
        res.buf.slots = (pushed (construct 2 4) [5]).slots
        ∧ res.buf.capacity = (pushed (construct 2 4) [5]).capacity
        ∧ res.buf.maxSize = (pushed (construct 2 4) [5]).maxSize)
    ∧ (∀ (outData : List UInt8) (outSize : Nat),
        ((pushed (construct 2 4) [5]).slots.getD (readIndex (pushed (construct 2 4) [5])) []).length
          ≤ outData.length →
        ∃ res, (pushed (construct 2 4) [5]).pop outData outSize = .ok res) :=
  ⟨by decide, slot_frame_conditions (pushed (construct 2 4) [5]) (by decide)⟩

/-! ## The filter mode -/

/-- C21, a change of the filter mode forces a rebuild: in every `Video` state,
if `m` differs from `filterMode` then `setFilterMode(m)` stores `m`, clears
`loadedShaderType` and writes nothing else, and the next `updateProgram`,
whether or not the requested configuration is the one loaded before, builds
the chain anew from the empty chain over all passes of the requested shader,
and unless a pass fails hands the shaders, with the filter override of `m`, to
the renderer; if `m` equals `filterMode` the state is unchanged, and the next
`updateProgram` with the requested configuration already loaded makes no call
and changes nothing. -/
theorem setFilterMode_forces_rebuild (gl : FrameReplies) (v : Video) (m : Int) :
    (m ≠ v.filterMode →
      v.setFilterMode m = { v with filterMode := m, loadedShaderType := none }
      ∧ ((v.setFilterMode m).updateProgram gl).state
          = { v with
              filterMode := m
              loadedShaderType := some v.requestedShaderConfig
              shadersChain :=
                (buildChain gl.pass 0 (gl.getShader v.requestedShaderConfig).passes [] []).chain }
      ∧ ((v.setFilterMode m).updateProgram gl).thrown
          = (buildChain gl.pass 0 (gl.getShader v.requestedShaderConfig).passes [] []).thrown
      ∧ (((v.setFilterMode m).updateProgram gl).thrown = true →
          ((v.setFilterMode m).updateProgram gl).calls
            = (buildChain gl.pass 0 (gl.getShader v.requestedShaderConfig).passes [] []).calls)
      ∧ (((v.setFilterMode m).updateProgram gl).thrown = false →
          ((v.setFilterMode m).updateProgram gl).calls
            = (buildChain gl.pass 0 (gl.getShader v.requestedShaderConfig).passes [] []).calls
              ++ [Call.rendererSetShaders
                    (Video.requestedShaders gl { v with filterMode := m })]))
    ∧ (m = v.filterMode →
      v.setFilterMode m = v
      ∧ (v.loadedShaderType = some v.requestedShaderConfig →
          (v.setFilterMode m).updateProgram gl = { state := v, calls := [], thrown := false })) := by
  constructor
  · intro hm
    have hs : v.setFilterMode m = { v with filterMode := m, loadedShaderType := none } := by
      unfold Video.setFilterMode
      rw [if_pos (Ne.symm hm)]
    rw [hs]
    obtain ⟨h1, h2, h3, h4⟩ := updateProgram_build gl
      { v with filterMode := m, loadedShaderType := none } (by simp)
    exact ⟨rfl, h1, h2, h3, h4⟩
  · intro hm
    have hs : v.setFilterMode m = v := by
      unfold Video.setFilterMode
      rw [if_neg (by rw [hm]; simp)]
    rw [hs]
    exact ⟨rfl, updateProgram_suppressed gl v⟩

/-- C21 at a concrete input: the `Video` of the examples, constructed with
filter mode -1 and with its configuration loaded, rebuilds its one-pass chain
after `setFilterMode(1)` and hands the renderer shaders with the linear filter
on; after `setFilterMode(-1)` its `updateProgram` makes no call. -/
theorem setFilterMode_forces_rebuild_witness :
    builtVideo.loadedShaderType = some builtVideo.requestedShaderConfig
    ∧ (builtVideo.setFilterMode 1).loadedShaderType = none
    ∧ ((builtVideo.setFilterMode 1).updateProgram onePassReplies).state.shadersChain.length = 1
    ∧ Call.rendererSetShaders { exampleShaders 1 with linearTexture := true }
        ∈ ((builtVideo.setFilterMode 1).updateProgram onePassReplies).calls
    ∧ (builtVideo.setFilterMode (-1)).updateProgram onePassReplies
        = { state := builtVideo, calls := [], thrown := false } := by
  have h1 := (setFilterMode_forces_rebuild onePassReplies builtVideo 1).1 (by decide)
  have h2 := (setFilterMode_forces_rebuild onePassReplies builtVideo (-1)).2 (by decide)
  refine ⟨by decide, ?_, ?_, ?_, h2.2 (by decide)⟩
  · rw [h1.1]
  · rw [h1.2.1]
    decide
  · rw [h1.2.2.2.2 (by rw [h1.2.2.1]; decide)]
    decide

/-! ## The step of `renderFrame` -/

theorem renderFrame_skipped (gl : FrameReplies) (v : Video)
    (h : v.skipDuplicateFrames = true ∧ v.bfiEnabled = false ∧ v.isDirty = false) :
    v.renderFrame gl = { state := v, calls := [], thrown := false } := by
  unfold Video.renderFrame
  rw [if_pos h]

theorem clearCalls_start (gl : FrameReplies) (v : Video) :
    ∃ rest, Video.clearCalls gl v
      = [Call.glDisable .depthTest, .glBindFramebuffer 0, .glClearColor, .glClear] ++ rest :=
  ⟨_, rfl⟩

/-- A `renderFrame` that does not skip advances the 32-bit counter and starts
with the clear of the default framebuffer. -/
theorem renderFrame_entered (gl : FrameReplies) (v : Video)
    (h : ¬ (v.skipDuplicateFrames = true ∧ v.bfiEnabled = false ∧ v.isDirty = false)) :
    (v.renderFrame gl).state.frameCount = (v.frameCount + 1) % 4294967296
    ∧ ∃ rest, (v.renderFrame gl).calls
        = [Call.glDisable .depthTest, .glBindFramebuffer 0, .glClearColor, .glClear] ++ rest := by
  obtain ⟨_, _, _, hf, _⟩ := updateProgram_fields gl
    { v with isDirty := false, frameCount := (v.frameCount + 1) % 4294967296 }
  obtain ⟨r, hr⟩ := clearCalls_start gl
    { v with isDirty := false, frameCount := (v.frameCount + 1) % 4294967296 }
  unfold Video.renderFrame
  rw [if_neg h]
  dsimp only
  rw [hr]
  split
  · exact ⟨hf, _, by simp only [List.append_assoc]; rfl⟩
  · split
    · exact ⟨hf, _, by simp only [List.append_assoc]; rfl⟩
    · exact ⟨hf, _, by simp only [List.append_assoc]; rfl⟩

/-- C23, the step of `renderFrame` on the dirty flag: in every `Video` state,
`renderFrame` makes no call exactly when `skipDuplicateFrames` is true,
`bfiEnabled` is false and `isDirty` is false, and then it changes no state and
does not throw; in every other case, whether it returns or throws, it leaves
`isDirty` false and `frameCount` advanced by one on the 32-bit counter (the
successor below 2^32), and its calls start with the clear of the default
framebuffer; a `renderFrame` that was not skipped, then `onNewFrame` with
non-null data, then `renderFrame`: the second `renderFrame` is not skipped
either, it clears the framebuffer and advances `frameCount` once more. -/
theorem renderFrame_dirty_step (gl : FrameReplies) (v : Video) :
    ((v.renderFrame gl).calls = []
        ↔ (v.skipDuplicateFrames = true ∧ v.bfiEnabled = false ∧ v.isDirty = false))
    ∧ ((v.skipDuplicateFrames = true ∧ v.bfiEnabled = false ∧ v.isDirty = false) →
        v.renderFrame gl = { state := v, calls := [], thrown := false })
    ∧ (¬ (v.skipDuplicateFrames = true ∧ v.bfiEnabled = false ∧ v.isDirty = false) →
        (v.renderFrame gl).state.isDirty = false
        ∧ (v.renderFrame gl).state.frameCount = (v.frameCount + 1) % 4294967296
        ∧ (v.frameCount + 1 < 4294967296 →
            (v.renderFrame gl).state.frameCount = v.frameCount + 1)
        ∧ (∃ rest, (v.renderFrame gl).calls
            = [Call.glDisable .depthTest, .glBindFramebuffer 0, .glClearColor, .glClear]
              ++ rest)
        ∧ (∀ (gl2 : FrameReplies) (bytes : List UInt8) (width height pitch : Nat),
            (((v.renderFrame gl).state.onNewFrame (some bytes) width height pitch).state.renderFrame
                gl2).state.isDirty = false
            ∧ (((v.renderFrame gl).state.onNewFrame (some bytes) width height
                pitch).state.renderFrame gl2).state.frameCount
              = ((v.frameCount + 1) % 4294967296 + 1) % 4294967296
            ∧ ∃ rest,
              (((v.renderFrame gl).state.onNewFrame (some bytes) width height
                pitch).state.renderFrame gl2).calls
              = [Call.glDisable .depthTest, .glBindFramebuffer 0, .glClearColor, .glClear]
                ++ rest)) := by
  refine ⟨⟨?_, ?_⟩, renderFrame_skipped gl v, ?_⟩
  · intro hc
    by_contra h
    obtain ⟨_, rest, hr⟩ := renderFrame_entered gl v h
    rw [hr] at hc
    exact absurd hc (by simp)
  · intro h
    rw [renderFrame_skipped gl v h]
  · intro h
    obtain ⟨hf, hr⟩ := renderFrame_entered gl v h
    refine ⟨(renderFrame_flags gl v).2.2, hf, ?_, hr, ?_⟩
    · intro hlt
      rw [hf, Nat.mod_eq_of_lt hlt]
    · intro gl2 bytes width height pitch
      have hd : ¬ (((v.renderFrame gl).state.onNewFrame (some bytes) width height
            pitch).state.skipDuplicateFrames = true
          ∧ ((v.renderFrame gl).state.onNewFrame (some bytes) width height
            pitch).state.bfiEnabled = false
          ∧ ((v.renderFrame gl).state.onNewFrame (some bytes) width height
            pitch).state.isDirty = false) := by
        intro hc
        exact absurd (show true = false from hc.2.2) (by decide)
      obtain ⟨hf2, hr2⟩ := renderFrame_entered gl2 _ hd
      refine ⟨(renderFrame_flags gl2 _).2.2, ?_, hr2⟩
      rw [hf2]
      show ((v.renderFrame gl).state.frameCount + 1) % 4294967296 = _
      rw [hf]

/-- C23 at a concrete input: the `Video` of the examples after its first frame;
`renderFrame`, `onNewFrame`, `renderFrame` reach the GPU twice and leave the
frame count 2, and a third `renderFrame` without a new frame makes no call. -/
theorem renderFrame_dirty_step_witness :
    ¬ (dirtyVideo.skipDuplicateFrames = true ∧ dirtyVideo.bfiEnabled = false
        ∧ dirtyVideo.isDirty = false)
    ∧ dirtyVideo.frameCount = 0
    ∧ (dirtyVideo.renderFrame onePassReplies).state.isDirty = false
    ∧ (dirtyVideo.renderFrame onePassReplies).state.frameCount = 1
    ∧ (((dirtyVideo.renderFrame onePassReplies).state.onNewFrame (some [1, 2, 3, 4]) 1 1
          4).state.renderFrame onePassReplies).state.frameCount = 2
    ∧ (((dirtyVideo.renderFrame onePassReplies).state.onNewFrame (some [1, 2, 3, 4]) 1 1
          4).state.renderFrame onePassReplies).calls ≠ []
    ∧ ((dirtyVideo.renderFrame onePassReplies).state.renderFrame onePassReplies).calls = [] := by
  have h := (renderFrame_dirty_step onePassReplies dirtyVideo).2.2 (by decide)
  have h5 := h.2.2.2.2 onePassReplies [1, 2, 3, 4] 1 1 4
  refine ⟨by decide, by decide, h.1, ?_, ?_, ?_, ?_⟩
  · rw [h.2.1]
    decide
  · rw [h5.2.1]
    decide
  · obtain ⟨rest, hr⟩ := h5.2.2
    rw [hr]
    simp
  · exact ((renderFrame_dirty_step onePassReplies
      (dirtyVideo.renderFrame onePassReplies).state).1).2
        ⟨by decide, by decide, (renderFrame_flags onePassReplies dirtyVideo).2.2⟩

/-! ## The compositing of the overlay -/

theorem no_blend_clearCalls (gl : FrameReplies) (v : Video) :
    Call.glEnable .blend ∉ Video.clearCalls gl v := by
  unfold Video.clearCalls
  split_ifs <;> simp

theorem no_blend_updateProgram (gl : FrameReplies) (v : Video) :
    Call.glEnable .blend ∉ (v.updateProgram gl).calls := by
  by_cases hl : v.loadedShaderType = some v.requestedShaderConfig
  · rw [updateProgram_suppressed gl v hl]
    exact List.not_mem_nil _
  · obtain ⟨_, _, hc1, hc2⟩ := updateProgram_build gl v hl
    obtain ⟨added, h5, h6⟩ :=
      buildChain_calls gl.pass (gl.getShader v.requestedShaderConfig).passes 0 [] []
    rw [List.nil_append] at h5
    have hb : Call.glEnable .blend ∉ added := not_mem_of_all_buildsProgram h6 rfl
    cases ht : (v.updateProgram gl).thrown with
    | true =>
      rw [hc1 ht, h5]
      exact hb
    | false =>
      rw [hc2 ht, h5]
      intro hm
      rcases List.mem_append.mp hm with hm | hm
      · exact hb hm
      · simp at hm

theorem no_blend_passCalls (gl : FrameReplies) (frameCount chainLength i : Nat)
    (shader : ShaderChainEntry) :
    Call.glEnable .blend ∉ Video.passCalls gl frameCount chainLength i shader := by
  simp [Video.passCalls]

theorem no_blend_passLoop (gl : FrameReplies) (frameCount chainLength : Nat)
    (chain : List ShaderChainEntry) :
    ∀ i, Call.glEnable .blend ∉ Video.passLoop gl frameCount chainLength i chain := by
  induction chain with
  | nil =>
    intro i
    exact List.not_mem_nil _
  | cons e chain ih =>
    intro i hm
    unfold Video.passLoop at hm
    rcases List.mem_append.mp hm with hm | hm
    · exact no_blend_passCalls gl frameCount chainLength i e hm
    · exact ih (i + 1) hm

theorem no_blend_upload (gl : OverlayReplies) (bf : BackgroundFrame) :
    Call.glEnable .blend ∉ (bf.uploadPendingTexture gl).calls := by
  unfold BackgroundFrame.uploadPendingTexture
  split_ifs <;> simp

theorem no_blend_initializeShader (gl : OverlayReplies) (bf : BackgroundFrame) :
    Call.glEnable .blend ∉ (bf.initializeShader gl).calls := by
  unfold BackgroundFrame.initializeShader BackgroundFrame.compileCalls
  dsimp only
  split_ifs <;> simp [List.mem_replicate]

theorem no_blend_render (gl : OverlayReplies) (bf : BackgroundFrame) (sw sh : Nat) :
    Call.glEnable .blend ∉ (bf.render gl sw sh).calls := by
  have hu := no_blend_upload gl bf
  have hs := no_blend_initializeShader gl (bf.uploadPendingTexture gl).state
  unfold BackgroundFrame.render
  dsimp only
  split
  · exact hu
  · split
    · intro hm
      rcases List.mem_append.mp hm with hm | hm
      · exact hu hm
      · exact hs hm
    · intro hm
      rcases List.mem_append.mp hm with hm | hm
      · rcases List.mem_append.mp hm with hm | hm
        · exact hu hm
        · exact hs hm
      · simp [BackgroundFrame.drawCalls] at hm

/-- C25, the compositing order of the overlay: a `renderFrame` that is not
skipped and returns makes the calls of the clear and of `updateProgram`, then
the pass loop over the whole chain, and then, exactly when `hasImage()` or
`hasPendingImage()` holds for the overlay, `glEnable(GL_BLEND)`, `glBlendFunc`
(whose arguments, `SRC_ALPHA` and `ONE_MINUS_SRC_ALPHA`, are constants of the
source), the calls of `BackgroundFrame::render` on that overlay and
`glDisable(GL_BLEND)` as the last call; otherwise the overlay is left as it
was.  No other call of `renderFrame` enables blending, neither before the
overlay nor inside `BackgroundFrame::render`, nor when `renderFrame` throws,
so that blending is not left enabled. -/
theorem overlay_compositing_order (gl : FrameReplies) (v : Video)
    (hdraw : ¬ (v.skipDuplicateFrames = true ∧ v.bfiEnabled = false ∧ v.isDirty = false)) :
    ((v.renderFrame gl).thrown = true → Call.glEnable .blend ∉ (v.renderFrame gl).calls)
    ∧ ((v.renderFrame gl).thrown = false →
        ∃ pre : List Call,
          Call.glEnable .blend ∉ pre
          ∧ Call.glEnable .blend ∉ Video.passLoop gl (v.renderFrame gl).state.frameCount
              (v.renderFrame gl).state.shadersChain.length 0
              (v.renderFrame gl).state.shadersChain
          ∧ Call.glEnable .blend
              ∉ (v.backgroundFrame.render gl.overlay gl.screenWidth gl.screenHeight).calls
          ∧ ((v.backgroundFrame.hasImage = true ∨ v.backgroundFrame.hasPendingImage = true) →
              (v.renderFrame gl).calls
                = pre
                  ++ Video.passLoop gl (v.renderFrame gl).state.frameCount
                      (v.renderFrame gl).state.shadersChain.length 0
                      (v.renderFrame gl).state.shadersChain
                  ++ [Call.glEnable .blend, .glBlendFunc]
                  ++ (v.backgroundFrame.render gl.overlay gl.screenWidth gl.screenHeight).calls
                  ++ [Call.glDisable .blend]
              ∧ (v.renderFrame gl).state.backgroundFrame
                = (v.backgroundFrame.render gl.overlay gl.screenWidth gl.screenHeight).state)
          ∧ (¬ (v.backgroundFrame.hasImage = true ∨ v.backgroundFrame.hasPendingImage = true) →
              (v.renderFrame gl).calls
                = pre
                  ++ Video.passLoop gl (v.renderFrame gl).state.frameCount
                      (v.renderFrame gl).state.shadersChain.length 0
                      (v.renderFrame gl).state.shadersChain
              ∧ (v.renderFrame gl).state.backgroundFrame = v.backgroundFrame)) := by
  obtain ⟨_, _, _, _, hbf, _⟩ := updateProgram_fields gl
    { v with isDirty := false, frameCount := (v.frameCount + 1) % 4294967296 }
  have hbf1 : (Video.updateProgram gl
      { v with isDirty := false, frameCount := (v.frameCount + 1) % 4294967296
      }).state.backgroundFrame = v.backgroundFrame := hbf
  have hpre : Call.glEnable .blend ∉ Video.clearCalls gl
        { v with isDirty := false, frameCount := (v.frameCount + 1) % 4294967296 }
      ++ (Video.updateProgram gl
        { v with isDirty := false, frameCount := (v.frameCount + 1) % 4294967296 }).calls := by
    intro hm
    rcases List.mem_append.mp hm with hm | hm
    · exact no_blend_clearCalls _ _ hm
    · exact no_blend_updateProgram _ _ hm
  constructor
  · intro ht
    cases hup : (Video.updateProgram gl
      { v with isDirty := false, frameCount := (v.frameCount + 1) % 4294967296 }).thrown with
    | true =>
      unfold Video.renderFrame
      rw [if_neg hdraw]
      dsimp only
      rw [if_pos hup]
      exact hpre
    | false =>
      unfold Video.renderFrame at ht
      rw [if_neg hdraw] at ht
      dsimp only at ht
      rw [if_neg (by rw [hup]; decide)] at ht
      split at ht <;> exact absurd (show false = true from ht) (by decide)
  · intro hok
    have hup : (Video.updateProgram gl
        { v with isDirty := false, frameCount := (v.frameCount + 1) % 4294967296 }).thrown
          = false := by
      cases ht : (Video.updateProgram gl
        { v with isDirty := false, frameCount := (v.frameCount + 1) % 4294967296 }).thrown with
      | false => rfl
      | true =>
        unfold Video.renderFrame at hok
        rw [if_neg hdraw] at hok
        dsimp only at hok
        rw [if_pos ht] at hok
        exact absurd (show true = false from hok) (by decide)
    refine ⟨Video.clearCalls gl
          { v with isDirty := false, frameCount := (v.frameCount + 1) % 4294967296 }
        ++ (Video.updateProgram gl
          { v with isDirty := false, frameCount := (v.frameCount + 1) % 4294967296 }).calls,
      hpre, no_blend_passLoop _ _ _ _ 0, no_blend_render _ _ _ _, ?_, ?_⟩
    · intro hov
      unfold Video.renderFrame
      rw [if_neg hdraw]
      dsimp only
      rw [if_neg (by rw [hup]; decide), hbf1, if_pos hov]
      exact ⟨rfl, rfl⟩
    · intro hov
      unfold Video.renderFrame
      rw [if_neg hdraw]
      dsimp only
      rw [if_neg (by rw [hup]; decide), hbf1, if_neg hov]
      exact ⟨rfl, hbf1⟩

/-- C25 at a concrete input: the `Video` of the examples with a pending overlay
image; its `renderFrame` ends with the blending switched on, the calls of
`BackgroundFrame::render` and the blending switched off, and enables blending
nowhere else. -/
theorem overlay_compositing_order_witness :
    (overlayVideo.renderFrame onePassReplies).thrown = false
    ∧ overlayVideo.backgroundFrame.hasPendingImage = true
    ∧ (overlayVideo.renderFrame onePassReplies).calls.getLast? = some (Call.glDisable .blend)
    ∧ (overlayVideo.renderFrame onePassReplies).calls.count (Call.glEnable .blend) = 1
    ∧ ∃ pre : List Call,
        (overlayVideo.renderFrame onePassReplies).calls
          = pre
            ++ Video.passLoop onePassReplies
                (overlayVideo.renderFrame onePassReplies).state.frameCount
                (overlayVideo.renderFrame onePassReplies).state.shadersChain.length 0
                (overlayVideo.renderFrame onePassReplies).state.shadersChain
            ++ [Call.glEnable .blend, .glBlendFunc]
            ++ (overlayVideo.backgroundFrame.render onePassReplies.overlay
                  onePassReplies.screenWidth onePassReplies.screenHeight).calls
            ++ [Call.glDisable .blend] := by
  obtain ⟨pre, _, _, _, h, _⟩ :=
    (overlay_compositing_order onePassReplies overlayVideo (by decide)).2 (by decide)
  exact ⟨by decide, by decide, by decide, by decide, pre, (h (Or.inr (by decide))).1⟩

/-! ## The frame count -/

theorem toGLint_mod_add (a b : Nat) : toGLint (a % 4294967296 + b) = toGLint (a + b) := by
  simp only [toGLint, Nat.mod_add_mod]

theorem toGLint_small {u : Nat} (h : u < 2147483648) : toGLint u = (u : Int) := by
  unfold toGLint
  have h1 : u % 4294967296 = u := Nat.mod_eq_of_lt (by omega)
  rw [h1, if_pos h]

/-- The values of the cast frame counter over a run: the counter advances by
one modulo 2^32 in each `renderFrame` that is not skipped and nowhere else. -/
theorem frameCountValues_spec (ops : List VideoOp) :
    ∀ v : Video, v.frameCountValues ops
      = (List.range (v.frameCountValues ops).length).map
          (fun k => toGLint (v.frameCount + 1 + k)) := by
  induction ops with
  | nil => intro v; rfl
  | cons op ops ih =>
    intro v
    cases op with
    | renderFrame gl =>
      by_cases hs : v.skipDuplicateFrames = true ∧ v.bfiEnabled = false ∧ v.isDirty = false
      · have h1 : v.frameCountValues (VideoOp.renderFrame gl :: ops)
            = (v.renderFrame gl).state.frameCountValues ops := by
          simp only [Video.frameCountValues, if_pos hs]
        rw [h1, renderFrame_skipped gl v hs]
        exact ih v
      · have h1 : v.frameCountValues (VideoOp.renderFrame gl :: ops)
            = toGLint (v.renderFrame gl).state.frameCount
              :: (v.renderFrame gl).state.frameCountValues ops := by
          simp only [Video.frameCountValues, if_neg hs]
        obtain ⟨hf, _⟩ := renderFrame_entered gl v hs
        have h2 := ih (v.renderFrame gl).state
        rw [h1, List.length_cons, List.range_succ_eq_map, List.map_cons, List.map_map]
        congr 1
        · rw [hf]
          exact toGLint_mod_add (v.frameCount + 1) 0
        · rw [h2, List.length_map, List.length_range]
          apply List.map_congr_left
          intro k _
          rw [hf]
          show toGLint ((v.frameCount + 1) % 4294967296 + 1 + k)
            = toGLint (v.frameCount + 1 + (k + 1))
          rw [Nat.add_assoc, toGLint_mod_add]
          congr 1
          omega
    | onNewFrame data width height pitch =>
      cases data with
      | none => exact ih v
      | some bytes => exact ih { v with isDirty := true }
    | updateShaderType shaderConfig => exact ih (v.updateShaderType shaderConfig)
    | setFilterMode mode =>
      have h := ih (v.setFilterMode mode)
      have hf : (v.setFilterMode mode).frameCount = v.frameCount := by
        unfold Video.setFilterMode
        split_ifs <;> rfl
      rw [hf] at h
      exact h
    | setBlackFrameInsertion enabled => exact ih (v.setBlackFrameInsertion enabled)
    | setBackgroundFrame data width height =>
      cases hst : v.setBackgroundFrame data width height with
      | error e =>
        simp only [Video.frameCountValues, hst]
        rfl
      | ok st =>
        have hf : st.state.frameCount = v.frameCount := by
          unfold Video.setBackgroundFrame at hst
          split at hst
          · exact absurd hst (by simp)
          · injection hst with hst
            subst hst
            rfl
        have h := ih st.state
        rw [hf] at h
        simp only [Video.frameCountValues, hst]
        exact h
    | clearBackgroundFrame => exact ih v.clearBackgroundFrame.state

/-- A `renderFrame` that neither skips nor throws hands the cast frame counter
to every pass whose frame count location is not the sentinel. -/
theorem renderFrame_frameCount_uniform (gl : FrameReplies) (v : Video)
    (hdraw : ¬ (v.skipDuplicateFrames = true ∧ v.bfiEnabled = false ∧ v.isDirty = false))
    (hok : (v.renderFrame gl).thrown = false) :
    ∀ e ∈ (v.renderFrame gl).state.shadersChain, e.gFrameCountHandle ≠ -1 →
      Call.glUniform1i e.gFrameCountHandle (toGLint (v.renderFrame gl).state.frameCount)
        ∈ (v.renderFrame gl).calls := by
  intro e he hh
  obtain ⟨i, hi⟩ := List.getElem?_of_mem he
  obtain ⟨pre, post, h1⟩ := renderFrame_passLoop gl v hdraw hok
  obtain ⟨pre2, post2, h2⟩ := passLoop_segment gl (v.renderFrame gl).state.frameCount
    (v.renderFrame gl).state.shadersChain.length (v.renderFrame gl).state.shadersChain 0 i e hi
  obtain ⟨_, _, b3, _⟩ := passCalls_bound gl (v.renderFrame gl).state.frameCount
    (v.renderFrame gl).state.shadersChain.length (0 + i) e
  rw [h1, h2]
  simp only [List.mem_append]
  exact Or.inl (Or.inr (Or.inl (Or.inr (b3 hh))))

theorem renderFrames_everyFrameVideo (n : Nat) :
    ∀ k, k < 4294967296 →
      Video.renderFrames frameCountReplies n { everyFrameVideo with frameCount := k }
        = { everyFrameVideo with frameCount := (k + n) % 4294967296 } := by
  induction n with
  | zero =>
    intro k hk
    show { everyFrameVideo with frameCount := k }
      = { everyFrameVideo with frameCount := (k + 0) % 4294967296 }
    rw [Nat.add_zero, Nat.mod_eq_of_lt hk]
  | succ n ih =>
    intro k hk
    have hstep : (Video.renderFrame frameCountReplies
        { everyFrameVideo with frameCount := k }).state
          = { everyFrameVideo with frameCount := (k + 1) % 4294967296 } := rfl
    show Video.renderFrames frameCountReplies n (Video.renderFrame frameCountReplies
        { everyFrameVideo with frameCount := k }).state = _
    rw [hstep, ih _ (Nat.mod_lt _ (by decide)), Nat.mod_add_mod, Nat.add_assoc,
      Nat.add_comm 1 n]

theorem reachable_renderFrames (gl : FrameReplies) (n : Nat) :
    ∀ v, Video.Reachable v → Video.Reachable (Video.renderFrames gl n v) := by
  induction n with
  | zero => intro v hv; exact hv
  | succ n ih => intro v hv; exact ih _ (Video.Reachable.renderFrame gl hv)

/-- The state of the examples after 2147483646 frames is one the object reaches:
by that many `renderFrame` calls after its construction. -/
theorem reachable_lateVideo : Video.Reachable lateVideo := by
  have h0 : Video.Reachable everyFrameVideo :=
    Video.Reachable.construct frameCountReplies exampleConfig false false rfl
  have h1 := reachable_renderFrames frameCountReplies 2147483646
    { everyFrameVideo with frameCount := 0 } h0
  rw [renderFrames_everyFrameVideo 2147483646 0 (by decide)] at h1
  exact h1

/-- C24 as amended: over every run of calls from a `Video` state in which the
frame counter stays below 2^31, the values `static_cast<GLint>(frameCount)` of
the `renderFrame` calls that are not skipped are the successors
`frameCount + 1, frameCount + 2, ...` of the counter at the start, so each is
strictly greater than every earlier one; and in each such call that returns,
that value is the one handed to `glUniform1i` for every pass whose frame count
location is not -1. -/
theorem frameCount_monotone (v : Video) (ops : List VideoOp)
    (hbound : v.frameCount + (v.frameCountValues ops).length < 2147483648) :
    v.frameCountValues ops
        = (List.range (v.frameCountValues ops).length).map
            (fun k => ((v.frameCount + 1 + k : Nat) : Int))
    ∧ List.Pairwise (fun a b => a < b) (v.frameCountValues ops)
    ∧ (∀ gl : FrameReplies,
        ¬ (v.skipDuplicateFrames = true ∧ v.bfiEnabled = false ∧ v.isDirty = false) →
        (v.renderFrame gl).thrown = false →
        ∀ e ∈ (v.renderFrame gl).state.shadersChain, e.gFrameCountHandle ≠ -1 →
          Call.glUniform1i e.gFrameCountHandle (toGLint (v.renderFrame gl).state.frameCount)
            ∈ (v.renderFrame gl).calls) := by
  have h := frameCountValues_spec ops v
  have hm : (List.range (v.frameCountValues ops).length).map
        (fun k => toGLint (v.frameCount + 1 + k))
      = (List.range (v.frameCountValues ops).length).map
        (fun k => ((v.frameCount + 1 + k : Nat) : Int)) := by
    apply List.map_congr_left
    intro k hk
    have hk1 := List.mem_range.mp hk
    exact toGLint_small (by omega)
  have h1 : v.frameCountValues ops
      = (List.range (v.frameCountValues ops).length).map
          (fun k => ((v.frameCount + 1 + k : Nat) : Int)) := h.trans hm
  refine ⟨h1, ?_, fun gl hd hok => renderFrame_frameCount_uniform gl v hd hok⟩
  have hp : List.Pairwise (fun a b : Int => a < b)
      ((List.range (v.frameCountValues ops).length).map
        (fun k => ((v.frameCount + 1 + k : Nat) : Int))) := by
    rw [List.pairwise_map]
    refine List.Pairwise.imp ?_ (List.pairwise_lt_range _)
    intro a b hab
    exact_mod_cast Nat.add_lt_add_left hab (v.frameCount + 1)
  exact Eq.mpr (congrArg (List.Pairwise (fun a b : Int => a < b)) h1) hp

/-- C24 as amended, at a concrete input: the `Video` of the examples after its
first frame; `renderFrame`, `onNewFrame`, `renderFrame` pass the values 1 and
2. -/
theorem frameCount_monotone_witness :
    dirtyVideo.frameCountValues
        [.renderFrame onePassReplies, .onNewFrame (some [1, 2, 3, 4]) 1 1 4,
         .renderFrame onePassReplies] = [1, 2]
    ∧ List.Pairwise (fun a b => a < b)
        (dirtyVideo.frameCountValues
          [.renderFrame onePassReplies, .onNewFrame (some [1, 2, 3, 4]) 1 1 4,
           .renderFrame onePassReplies])
    ∧ Call.glUniform1i 0 1 ∈ (dirtyVideo.renderFrame onePassReplies).calls := by
  have h := frameCount_monotone dirtyVideo
    [.renderFrame onePassReplies, .onNewFrame (some [1, 2, 3, 4]) 1 1 4,
     .renderFrame onePassReplies] (by decide)
  exact ⟨by decide, h.2.1, by decide⟩

/-- C24 as stated fails where the counter passes 2^31.  The `Video` of the
examples that draws every frame reaches, after 2147483646 frames, a state from
which two further `renderFrame` calls, neither skipped nor throwing, hand the
frame count location 3 first 2147483647 and then -2147483648, which is not
greater. -/
theorem frameCount_monotone_counterexample :
    Video.Reachable lateVideo
    ∧ ¬ (lateVideo.skipDuplicateFrames = true ∧ lateVideo.bfiEnabled = false
        ∧ lateVideo.isDirty = false)
    ∧ (lateVideo.renderFrame frameCountReplies).thrown = false
    ∧ ((lateVideo.renderFrame frameCountReplies).state.renderFrame frameCountReplies).thrown
        = false
    ∧ (lateVideo.renderFrame frameCountReplies).state.shadersChain.map
        (fun e => e.gFrameCountHandle) = [3]
    ∧ (lateVideo.renderFrame frameCountReplies).calls.filter
        (fun c => c.uniformLocation = some 3) = [Call.glUniform1i 3 2147483647]
    ∧ ((lateVideo.renderFrame frameCountReplies).state.renderFrame frameCountReplies).calls.filter
        (fun c => c.uniformLocation = some 3) = [Call.glUniform1i 3 (-2147483648)]
    ∧ lateVideo.frameCountValues
        [.renderFrame frameCountReplies, .renderFrame frameCountReplies]
        = [2147483647, -2147483648]
    ∧ ¬ ((2147483647 : Int) < -2147483648) :=
  ⟨reachable_lateVideo, by decide, by decide, by decide, by decide, by decide, by decide,
    by decide, by decide⟩

/-! ## The backdrop, the overlay and its shader -/

theorem reachable_immersiveOverlayVideo : Video.Reachable immersiveOverlayVideo :=
  @Video.Reachable.setBackgroundFrame
    ((Video.construct onePassReplies exampleConfig true true).state.onNewFrame
      (some [1, 2, 3, 4]) 1 1 4).state
    [10, 20, 30, 40] 1 1
    { state := immersiveOverlayVideo, calls := [] }
    (Video.Reachable.onNewFrame (some [1, 2, 3, 4]) 1 1 4
      (Video.Reachable.construct onePassReplies exampleConfig true true rfl))
    rfl

/-- C26 fails in the frame that uploads the overlay.  A `Video` with the
immersive mode on whose overlay image is pending, with no texture yet, is
reachable; its `renderFrame` calls `immersiveMode.renderBackground`, because the
test before it asks `hasImage()` only, and then, because the test after the
passes asks `hasImage() || hasPendingImage()`, uploads the overlay as texture 7
and draws it with program 3: one call draws the backdrop, the pass and the
overlay.  From the next frame on the backdrop is left out. -/
theorem backdrop_with_pending_overlay :
    Video.Reachable immersiveOverlayVideo
    ∧ immersiveOverlayVideo.immersiveModeEnabled = true
    ∧ immersiveOverlayVideo.backgroundFrame.hasImage = false
    ∧ immersiveOverlayVideo.backgroundFrame.hasPendingImage = true
    ∧ (immersiveOverlayVideo.renderFrame onePassReplies).thrown = false
    ∧ Call.immersiveRenderBackground 640 480 9
        ∈ (immersiveOverlayVideo.renderFrame onePassReplies).calls
    ∧ Call.glTexImage2D 1 1 [10, 20, 30, 40]
        ∈ (immersiveOverlayVideo.renderFrame onePassReplies).calls
    ∧ drawPrograms none (immersiveOverlayVideo.renderFrame onePassReplies).calls
        = [some 5, some 3]
    ∧ drawTextures none none (immersiveOverlayVideo.renderFrame onePassReplies).calls
        = [some 9, some 7]
    ∧ (∀ w h t, Call.immersiveRenderBackground w h t
        ∉ (((immersiveOverlayVideo.renderFrame onePassReplies).state.onNewFrame
            (some [1, 2, 3, 4]) 1 1 4).state.renderFrame onePassReplies).calls) := by
  refine ⟨reachable_immersiveOverlayVideo, by decide, by decide, by decide, by decide,
    by decide, by decide, by decide, by decide, ?_⟩
  intro w h t hm
  have key : ((((immersiveOverlayVideo.renderFrame onePassReplies).state.onNewFrame
      (some [1, 2, 3, 4]) 1 1 4).state.renderFrame onePassReplies).calls.all
        (fun c => match c with
          | .immersiveRenderBackground _ _ _ => false
          | _ => true)) = true := by decide
  have := List.all_eq_true.mp key _ hm
  exact absurd this (by simp)

/-- C27 fails when the shader of the overlay fails to build.  On an overlay with
an uploaded texture and no shader, in a GL context in which the fragment shader
does not compile and the program 3 does not link, `initializeShader` keeps the
program and marks the shader initialised, and `render`, which skips the draw
only for a program 0, issues `glUseProgram(3)` and `glDrawArrays` in that very
call; a later `render`, in whatever context, does not build the shader again
and draws with program 3 once more. -/
theorem unlinked_overlay_program_drawn :
    texturedFrame.hasImage = true
    ∧ texturedFrame.shaderInitialized = false
    ∧ texturedFrame.shaderProgram = 0
    ∧ unlinkedOverlayGl.fragmentCompiled = 0
    ∧ unlinkedOverlayGl.linked = 0
    ∧ Call.glGetProgramInfoLog 3 ∈ (texturedFrame.render unlinkedOverlayGl 640 480).calls
    ∧ Call.glUseProgram 3 ∈ (texturedFrame.render unlinkedOverlayGl 640 480).calls
    ∧ Call.glDrawArrays ∈ (texturedFrame.render unlinkedOverlayGl 640 480).calls
    ∧ drawPrograms none (texturedFrame.render unlinkedOverlayGl 640 480).calls = [some 3]
    ∧ (texturedFrame.render unlinkedOverlayGl 640 480).state.shaderInitialized = true
    ∧ (texturedFrame.render unlinkedOverlayGl 640 480).state.shaderProgram = 3
    ∧ (∀ gl : OverlayReplies,
        ((texturedFrame.render unlinkedOverlayGl 640 480).state.render gl 640 480).calls
          = BackgroundFrame.drawCalls
              (texturedFrame.render unlinkedOverlayGl 640 480).state 640 480)
    ∧ (∀ gl : OverlayReplies,
        drawPrograms none
          ((texturedFrame.render unlinkedOverlayGl 640 480).state.render gl 640 480).calls
          = [some 3]) := by
  have hlater : ∀ gl : OverlayReplies,
      ((texturedFrame.render unlinkedOverlayGl 640 480).state.render gl 640 480).calls
        = BackgroundFrame.drawCalls
            (texturedFrame.render unlinkedOverlayGl 640 480).state 640 480 := by
    intro gl
    rfl
  refine ⟨by decide, by decide, by decide, by decide, by decide, by decide, by decide,
    by decide, by decide, by decide, by decide, hlater, ?_⟩
  intro gl
  rw [hlater gl]
  decide

/-! ## The pending overlay -/

/-- The overlay a `renderFrame` leaves when it draws one: the state after
`BackgroundFrame::render` on the overlay of the state before. -/
theorem renderFrame_overlay_state (gl : FrameReplies) (v : Video)
    (hdraw : ¬ (v.skipDuplicateFrames = true ∧ v.bfiEnabled = false ∧ v.isDirty = false))
    (hok : (v.renderFrame gl).thrown = false)
    (hov : v.backgroundFrame.hasImage = true ∨ v.backgroundFrame.hasPendingImage = true) :
    (v.renderFrame gl).state.backgroundFrame
      = (v.backgroundFrame.render gl.overlay gl.screenWidth gl.screenHeight).state := by
  obtain ⟨_, _, _, _, hbf, _⟩ := updateProgram_fields gl
    { v with isDirty := false, frameCount := (v.frameCount + 1) % 4294967296 }
  have hbf1 : (Video.updateProgram gl
      { v with isDirty := false, frameCount := (v.frameCount + 1) % 4294967296
      }).state.backgroundFrame = v.backgroundFrame := hbf
  have hup : (Video.updateProgram gl
      { v with isDirty := false, frameCount := (v.frameCount + 1) % 4294967296 }).thrown
        = false := by
    cases ht : (Video.updateProgram gl
      { v with isDirty := false, frameCount := (v.frameCount + 1) % 4294967296 }).thrown with
    | false => rfl
    | true =>
      unfold Video.renderFrame at hok
      rw [if_neg hdraw] at hok
      dsimp only at hok
      rw [if_pos ht] at hok
      exact absurd (show true = false from hok) (by decide)
  unfold Video.renderFrame
  rw [if_neg hdraw]
  dsimp only
  rw [if_neg (by rw [hup]; decide), hbf1, if_pos hov]

theorem render_starts_with_upload (gl : OverlayReplies) (bf : BackgroundFrame) (sw sh : Nat) :
    ∃ rest, (bf.render gl sw sh).calls = (bf.uploadPendingTexture gl).calls ++ rest := by
  unfold BackgroundFrame.render
  dsimp only
  split
  · exact ⟨[], (List.append_nil _).symm⟩
  · split
    · exact ⟨_, rfl⟩
    · exact ⟨_, List.append_assoc _ _ _⟩

theorem upload_pending (gl : OverlayReplies) (bf : BackgroundFrame)
    (hp : bf.hasPendingImage = true) :
    (bf.uploadPendingTexture gl).state
        = { bf with
            textureId := if bf.textureId = 0 then gl.genTexture else bf.textureId
            pendingImageData := []
            hasPending := false }
    ∧ Call.glTexImage2D bf.pendingWidth bf.pendingHeight bf.pendingImageData
        ∈ (bf.uploadPendingTexture gl).calls := by
  have hp1 : bf.hasPending = true := hp
  unfold BackgroundFrame.uploadPendingTexture
  simp [hp1]

/-- C30 as amended: in every `Video` state whose overlay has a pending image, a
`renderFrame` that is not skipped and does not throw hands the pending bytes to
`glTexImage2D` and leaves `hasPendingImage()` false and the pending buffer
empty; the texture is the one the overlay had or else the name `glGenTextures`
yielded, so that `hasImage()` is true afterwards whenever a texture existed
before or `glGenTextures` yields a non-zero name. -/
theorem pending_overlay_consumed (gl : FrameReplies) (v : Video)
    (hpend : v.backgroundFrame.hasPendingImage = true)
    (hdraw : ¬ (v.skipDuplicateFrames = true ∧ v.bfiEnabled = false ∧ v.isDirty = false))
    (hok : (v.renderFrame gl).thrown = false) :
    (v.renderFrame gl).state.backgroundFrame.hasPendingImage = false
    ∧ (v.renderFrame gl).state.backgroundFrame.pendingImageData = []
    ∧ (v.renderFrame gl).state.backgroundFrame.textureId
        = (if v.backgroundFrame.textureId = 0 then gl.overlay.genTexture
           else v.backgroundFrame.textureId)
    ∧ ((v.backgroundFrame.hasImage = true ∨ gl.overlay.genTexture ≠ 0) →
        (v.renderFrame gl).state.backgroundFrame.hasImage = true)
    ∧ Call.glTexImage2D v.backgroundFrame.pendingWidth v.backgroundFrame.pendingHeight
          v.backgroundFrame.pendingImageData
        ∈ (v.renderFrame gl).calls := by
  have hst := renderFrame_overlay_state gl v hdraw hok (Or.inr hpend)
  obtain ⟨pre, hcalls⟩ := renderFrame_overlay_calls gl v hdraw hok (Or.inr hpend)
  obtain ⟨h1, h2, h3⟩ :=
    render_state gl.overlay v.backgroundFrame gl.screenWidth gl.screenHeight
  obtain ⟨hu, hmem⟩ := upload_pending gl.overlay v.backgroundFrame hpend
  obtain ⟨rest, hr⟩ :=
    render_starts_with_upload gl.overlay v.backgroundFrame gl.screenWidth gl.screenHeight
  rw [hu] at h1 h2 h3
  have ht : (v.renderFrame gl).state.backgroundFrame.textureId
      = (if v.backgroundFrame.textureId = 0 then gl.overlay.genTexture
         else v.backgroundFrame.textureId) := by
    rw [hst]
    exact h1
  refine ⟨?_, ?_, ht, ?_, ?_⟩
  · rw [hst]
    exact h2
  · rw [hst]
    exact h3
  · intro h
    unfold BackgroundFrame.hasImage
    rw [ht]
    rcases h with h | h
    · have h0 : v.backgroundFrame.textureId ≠ 0 := by
        simpa [BackgroundFrame.hasImage] using h
      rw [if_neg h0]
      simpa using h0
    · split
      · simpa using h
      · simpa using ‹¬ v.backgroundFrame.textureId = 0›
  · rw [hcalls, hr]
    simp only [List.mem_append]
    exact Or.inl (Or.inr (Or.inl hmem))

/-- C30 as amended, at a concrete input: the `Video` of the examples with a frame
to draw and a pending overlay image of one pixel. -/
theorem pending_overlay_consumed_witness :
    overlayVideo.backgroundFrame.hasPendingImage = true
    ∧ (overlayVideo.renderFrame onePassReplies).state.backgroundFrame.hasPendingImage = false
    ∧ (overlayVideo.renderFrame onePassReplies).state.backgroundFrame.hasImage = true
    ∧ Call.glTexImage2D 1 1 [10, 20, 30, 40] ∈ (overlayVideo.renderFrame onePassReplies).calls := by
  have h := pending_overlay_consumed onePassReplies overlayVideo (by decide) (by decide)
    (by decide)
  exact ⟨by decide, h.1, h.2.2.2.1 (Or.inr (by decide)), h.2.2.2.2⟩

theorem reachable_pausedOverlayVideo : Video.Reachable pausedOverlayVideo :=
  @Video.Reachable.setBackgroundFrame builtVideo [10, 20, 30, 40] 1 1
    { state := pausedOverlayVideo, calls := [] }
    (Video.Reachable.construct onePassReplies exampleConfig true false rfl) rfl

/-- C30 as stated fails when the next `renderFrame` is skipped.  The `Video` of
the examples, constructed with `skipDuplicateFrames` on and with no frame
arrived since, has a pending overlay image after `setBackgroundFrame`, which
does not mark the state dirty; the next `renderFrame` makes no call, and after
it `hasPendingImage()` is still true and `hasImage()` still false. -/
theorem pending_overlay_consumed_counterexample :
    Video.Reachable pausedOverlayVideo
    ∧ pausedOverlayVideo.backgroundFrame.hasPendingImage = true
    ∧ pausedOverlayVideo.isDirty = false
    ∧ (pausedOverlayVideo.renderFrame onePassReplies).calls = []
    ∧ (pausedOverlayVideo.renderFrame onePassReplies).thrown = false
    ∧ (pausedOverlayVideo.renderFrame onePassReplies).state.backgroundFrame.hasPendingImage
        = true
    ∧ (pausedOverlayVideo.renderFrame onePassReplies).state.backgroundFrame.hasImage = false :=
  ⟨reachable_pausedOverlayVideo, by decide, by decide, by decide, by decide, by decide,
    by decide⟩

/-! ## The capture of the raw frame -/

/-- C22 as amended: when the integer parts of the width and the height of the
last frame are in the range of `int`, `captureRawFrame` sets `outWidth` and
`outHeight` to them; when either is 0 it returns an empty vector and makes no
call; and when both are positive and `outWidth * outHeight * 4` is at most
`INT_MAX`, it returns a vector of exactly `outWidth * outHeight * 4` bytes,
read through a framebuffer it creates, binds and deletes. -/
theorem captureRawFrame_sizes (gl : CaptureReplies)
    (hw : INT_MIN ≤ integerPart gl.textureWidth ∧ integerPart gl.textureWidth ≤ INT_MAX)
    (hh : INT_MIN ≤ integerPart gl.textureHeight ∧ integerPart gl.textureHeight ≤ INT_MAX) :
    ((integerPart gl.textureWidth = 0 ∨ integerPart gl.textureHeight = 0) →
        Video.captureRawFrame gl
          = .ok { pixels := []
                  outWidth := integerPart gl.textureWidth
                  outHeight := integerPart gl.textureHeight
                  calls := [] })
    ∧ (0 < integerPart gl.textureWidth → 0 < integerPart gl.textureHeight →
        integerPart gl.textureWidth * integerPart gl.textureHeight * 4 ≤ INT_MAX →
        ∃ c, Video.captureRawFrame gl = .ok c
          ∧ c.outWidth = integerPart gl.textureWidth
          ∧ c.outHeight = integerPart gl.textureHeight
          ∧ (c.pixels.length : Int) = c.outWidth * c.outHeight * 4
          ∧ c.calls
              = [ Call.glGenFramebuffers
                , .glBindFramebuffer gl.framebuffer
                , .glFramebufferTexture2D gl.texture
                , .glReadPixels c.outWidth c.outHeight
                , .glBindFramebuffer 0
                , .glDeleteFramebuffers gl.framebuffer ]) := by
  have h1 : ¬ (integerPart gl.textureWidth < INT_MIN ∨ INT_MAX < integerPart gl.textureWidth) := by
    omega
  have h2 : ¬ (integerPart gl.textureHeight < INT_MIN
      ∨ INT_MAX < integerPart gl.textureHeight) := by
    omega
  constructor
  · intro h0
    simp only [Video.captureRawFrame, h1, h2, h0, if_true, if_false]
  · intro hpw hph hfit
    have h3 : ¬ (integerPart gl.textureWidth = 0 ∨ integerPart gl.textureHeight = 0) := by
      omega
    have hpos : 0 < integerPart gl.textureWidth * integerPart gl.textureHeight :=
      Int.mul_pos hpw hph
    have hmin : INT_MIN < 0 := by decide
    have h4 : ¬ (integerPart gl.textureWidth * integerPart gl.textureHeight < INT_MIN
        ∨ INT_MAX < integerPart gl.textureWidth * integerPart gl.textureHeight) := by
      omega
    have h5 : ¬ (integerPart gl.textureWidth * integerPart gl.textureHeight * 4 < INT_MIN
        ∨ INT_MAX < integerPart gl.textureWidth * integerPart gl.textureHeight * 4) := by
      omega
    have h6 : ¬ integerPart gl.textureWidth * integerPart gl.textureHeight * 4 < 0 := by
      omega
    refine ⟨_, by simp only [Video.captureRawFrame, h1, h2, h3, h4, h5, h6, if_false]; rfl,
      rfl, rfl, ?_, rfl⟩
    show ((resizeBytes gl.pixels
      (integerPart gl.textureWidth * integerPart gl.textureHeight * 4).toNat).length : Int) = _
    rw [length_resizeBytes]
    exact Int.toNat_of_nonneg (by omega)

/-- C22 as amended, at concrete inputs: before any frame the capture is empty
and makes no call; after a frame of 4 x 2 it returns 32 bytes. -/
theorem captureRawFrame_sizes_witness :
    Video.captureRawFrame emptyCaptureReplies
        = .ok { pixels := [], outWidth := 0, outHeight := 0, calls := [] }
    ∧ ∃ c, Video.captureRawFrame captureReplies = .ok c
        ∧ c.outWidth = 4
        ∧ c.outHeight = 2
        ∧ (c.pixels.length : Int) = c.outWidth * c.outHeight * 4
        ∧ c.calls
            = [ Call.glGenFramebuffers
              , .glBindFramebuffer 4
              , .glFramebufferTexture2D 9
              , .glReadPixels c.outWidth c.outHeight
              , .glBindFramebuffer 0
              , .glDeleteFramebuffers 4 ] :=
  ⟨(captureRawFrame_sizes emptyCaptureReplies (by decide) (by decide)).1 (Or.inl (by decide)),
    (captureRawFrame_sizes captureReplies (by decide) (by decide)).2 (by decide) (by decide)
      (by decide)⟩

/-- C22 as stated fails for a large frame.  With a last frame of 32768 x 32768
neither `outWidth` nor `outHeight` is 0, and the `int` product
`outWidth * outHeight * 4`, which would be 2^32, leaves the range of `int`
before any vector is made: no vector of that many bytes is returned. -/
theorem captureRawFrame_sizes_counterexample :
    integerPart hugeCaptureReplies.textureWidth = 32768
    ∧ integerPart hugeCaptureReplies.textureHeight = 32768
    ∧ INT_MAX < (32768 : Int) * 32768 * 4
    ∧ Video.captureRawFrame hugeCaptureReplies = .error CaptureFault.signedOverflow :=
  ⟨by decide, by decide, by decide, rfl⟩

end libretrodroid
